import Mathlib

/-!
# Provisioning orchestrator (pkg/services/provisioning/provisioning.go)

A shallow embedding of `ProvisioningServiceImpl` and its methods.

* Go `error` values are the inductive `GoError`; a nil error is `none`.
* Every method takes the receiver and returns a `Step`: the returned value, the
  receiver after the call and the list of externally visible effects the call
  performed, in program order.
* Collaborators that live outside the file (`filepath.Join`, the package level
  `rules.Provision`) are fields of `Env`; collaborators injected into the struct
  are fields of the struct, as in the source.
* Store and service handles (`SQLStore`, `datasourceService`, ...) and `ctx` are
  only forwarded by the methods and never inspected, so they are left out.
* `Cfg` is taken as set, as `ProvideService` does.
-/

namespace Provisioning

/-! ## Errors -/

/-- Go error values: a leaf error carrying its message, or the `*fmt.wrapError`
built by `fmt.Errorf` with a `%w` verb. -/
inductive GoError where
  | leaf (msg : String)
  | wrapError (msg : String) (err : GoError)
deriving DecidableEq, Repr

/-- Method `Error()` of a Go error. -/
def GoError.Error : GoError → String
  | .leaf msg => msg
  | .wrapError msg _ => msg

/-- Method `Unwrap()`: the wrapped error of a `*fmt.wrapError`, nothing for a leaf. -/
def GoError.Unwrap : GoError → Option GoError
  | .leaf _ => none
  | .wrapError _ err => some err

/-- The call `fmt.Errorf("%v: %w", label, err)` for a non-nil `err`. -/
def Errorf (label : String) (err : GoError) : GoError :=
  .wrapError (label ++ ": " ++ err.Error) err

/-! ## Collaborators -/

/-- A `context.CancelFunc`, identified by the polling context it cancels. -/
structure CancelFunc where
  ctx : Nat
deriving DecidableEq, Repr

/-- The interface `dashboards.DashboardProvisioner`: `id` stands for the identity
of the instance, the other fields for what its methods return. -/
structure DashboardProvisioner where
  id : Nat
  Provision : Option GoError
  HasDashboardSources : Bool
  GetProvisionerResolvedPath : String → String
  GetAllowUIUpdatesFromConfig : String → Bool

/-- The five top-level provisioning stages. -/
inductive Stage where
  | datasources
  | plugins
  | notifiers
  | alertRules
  | dashboards
deriving DecidableEq, Repr

/-- Externally visible effects of the orchestrator, in the order performed. -/
inductive Event where
  /-- A call of the provisioner (or factory) of a stage with a path. -/
  | call (stage : Stage) (path : String)
  /-- The call `ps.log.Error(msg, "error", err)`. -/
  | logError (msg : String) (err : GoError)
  /-- The call `ps.log.Debug(msg)`. -/
  | logDebug (msg : String)
  | mutexLock
  | mutexUnlock
  /-- An invocation of a recorded cancel function. -/
  | cancel (c : CancelFunc)
  /-- The call `CleanUpOrphanedDashboards(ctx)` on instance `id`. -/
  | cleanUpOrphanedDashboards (id : Nat)
  /-- The call `Provision(ctx)` on instance `id`. -/
  | provision (id : Nat)
  /-- The call `PollChanges(pollingContext)` on instance `id` with context `ctx`. -/
  | pollChanges (id : Nat) (ctx : Nat)
  /-- The call `ps.searchService.TriggerReIndex()`. -/
  | triggerReIndex
deriving DecidableEq, Repr

/-- The part of `setting.Cfg` the orchestrator reads. -/
structure Cfg where
  ProvisioningPath : String
deriving DecidableEq, Repr

/-- Functions of other packages that the methods call directly. -/
structure Env where
  /-- The standard library `filepath.Join` on two elements. -/
  filepathJoin : String → String → String
  /-- The package level `rules.Provision`, as a function of the path. -/
  rulesProvision : String → Option GoError

/-- The struct `ProvisioningServiceImpl` (fields the methods read or write). -/
structure ProvisioningServiceImpl where
  Cfg : Cfg
  pollingCtxCancel : Option CancelFunc
  newDashboardProvisioner : String → Option DashboardProvisioner × Option GoError
  dashboardProvisioner : Option DashboardProvisioner
  provisionNotifiers : String → Option GoError
  provisionDatasources : String → Option GoError
  provisionPlugins : String → Option GoError
  provisionRules : Option (String → Option GoError)
  /-- Whether `mutex` is held. -/
  mutex : Bool

/-- How a call that takes the mutex can end. -/
inductive Outcome where
  /-- The call returned this error value (`none` is nil). -/
  | returned (err : Option GoError)
  /-- The call panicked on a nil interface value. -/
  | panicked
  /-- The call waits in `mutex.Lock()` for a holder that is not this call. -/
  | blocked
deriving DecidableEq, Repr

/-- Result of running a method: returned value, receiver afterwards, effects. -/
structure Step (α : Type) where
  ret : α
  ps : ProvisioningServiceImpl
  events : List Event

/-! ## Methods -/

/-- Method `cancelPolling`. -/
def cancelPolling (ps : ProvisioningServiceImpl) : Step Unit :=
  match ps.pollingCtxCancel with
  | some c =>
    ⟨(), { ps with pollingCtxCancel := none },
      [.logDebug "Stop polling for dashboard changes", .cancel c]⟩
  | none => ⟨(), { ps with pollingCtxCancel := none }, []⟩

/-- Method `ProvisionDatasources`. -/
def ProvisionDatasources (env : Env) (ps : ProvisioningServiceImpl) :
    Step (Option GoError) :=
  let datasourcePath := env.filepathJoin ps.Cfg.ProvisioningPath "datasources"
  match ps.provisionDatasources datasourcePath with
  | some err =>
    let err := Errorf "Datasource provisioning error" err
    ⟨some err, ps,
      [.call .datasources datasourcePath, .logError "Failed to provision data sources" err]⟩
  | none => ⟨none, ps, [.call .datasources datasourcePath]⟩

/-- Method `ProvisionPlugins`. -/
def ProvisionPlugins (env : Env) (ps : ProvisioningServiceImpl) :
    Step (Option GoError) :=
  let appPath := env.filepathJoin ps.Cfg.ProvisioningPath "plugins"
  match ps.provisionPlugins appPath with
  | some err =>
    let err := Errorf "app provisioning error" err
    ⟨some err, ps, [.call .plugins appPath, .logError "Failed to provision plugins" err]⟩
  | none => ⟨none, ps, [.call .plugins appPath]⟩

/-- Method `ProvisionNotifications`. -/
def ProvisionNotifications (env : Env) (ps : ProvisioningServiceImpl) :
    Step (Option GoError) :=
  let alertNotificationsPath := env.filepathJoin ps.Cfg.ProvisioningPath "notifiers"
  match ps.provisionNotifiers alertNotificationsPath with
  | some err =>
    let err := Errorf "Alert notification provisioning error" err
    ⟨some err, ps,
      [.call .notifiers alertNotificationsPath,
        .logError "Failed to provision alert notifications" err]⟩
  | none => ⟨none, ps, [.call .notifiers alertNotificationsPath]⟩

/-- Method `ProvisionAlertRules`: builds the rule service from receiver fields
and returns what the package level `rules.Provision` returns. -/
def ProvisionAlertRules (env : Env) (ps : ProvisioningServiceImpl) :
    Step (Option GoError) :=
  let alertRulesPath := env.filepathJoin ps.Cfg.ProvisioningPath "alerting"
  ⟨env.rulesProvision alertRulesPath, ps, [.call .alertRules alertRulesPath]⟩

/-- Method `RunInitProvisioners`. -/
def RunInitProvisioners (env : Env) (ps : ProvisioningServiceImpl) :
    Step (Option GoError) :=
  let r1 := ProvisionDatasources env ps
  match r1.ret with
  | some err => ⟨some err, r1.ps, r1.events⟩
  | none =>
    let r2 := ProvisionPlugins env r1.ps
    match r2.ret with
    | some err => ⟨some err, r2.ps, r1.events ++ r2.events⟩
    | none =>
      let r3 := ProvisionNotifications env r2.ps
      match r3.ret with
      | some err => ⟨some err, r3.ps, r1.events ++ r2.events ++ r3.events⟩
      | none =>
        let r4 := ProvisionAlertRules env r3.ps
        match r4.ret with
        | some err =>
          ⟨some err, r4.ps, r1.events ++ r2.events ++ r3.events ++ r4.events⟩
        | none => ⟨none, r4.ps, r1.events ++ r2.events ++ r3.events ++ r4.events⟩

/-- Method `ProvisionDashboards`. The factory runs before `mutex.Lock()`; the
deferred `mutex.Unlock()` runs on every way out of the locked section. -/
def ProvisionDashboards (env : Env) (ps : ProvisioningServiceImpl) : Step Outcome :=
  let dashboardPath := env.filepathJoin ps.Cfg.ProvisioningPath "dashboards"
  match ps.newDashboardProvisioner dashboardPath with
  | (_, some err) =>
    ⟨.returned (some (Errorf "Failed to create provisioner" err)), ps,
      [.call .dashboards dashboardPath]⟩
  | (dashProvisioner, none) =>
    if ps.mutex then
      ⟨.blocked, ps, [.call .dashboards dashboardPath]⟩
    else
      let c := cancelPolling { ps with mutex := true }
      match dashProvisioner with
      | none =>
        ⟨.panicked, { c.ps with mutex := false },
          [.call .dashboards dashboardPath, .mutexLock] ++ c.events ++ [.mutexUnlock]⟩
      | some d =>
        match d.Provision with
        | some err =>
          ⟨.returned (some (Errorf "Failed to provision dashboards" err)),
            { c.ps with mutex := false },
            [.call .dashboards dashboardPath, .mutexLock] ++ c.events ++
              [.cleanUpOrphanedDashboards d.id, .provision d.id, .mutexUnlock]⟩
        | none =>
          ⟨.returned none, { c.ps with dashboardProvisioner := some d, mutex := false },
            [.call .dashboards dashboardPath, .mutexLock] ++ c.events ++
              [.cleanUpOrphanedDashboards d.id, .provision d.id, .mutexUnlock]⟩

/-- Method `GetDashboardProvisionerResolvedPath`; `none` is the nil dereference
on an orchestrator with no installed provisioner. -/
def GetDashboardProvisionerResolvedPath (ps : ProvisioningServiceImpl)
    (name : String) : Option String :=
  match ps.dashboardProvisioner with
  | some d => some (d.GetProvisionerResolvedPath name)
  | none => none

/-- Method `GetAllowUIUpdatesFromConfig`; `none` is the nil dereference on an
orchestrator with no installed provisioner. -/
def GetAllowUIUpdatesFromConfig (ps : ProvisioningServiceImpl)
    (name : String) : Option Bool :=
  match ps.dashboardProvisioner with
  | some d => some (d.GetAllowUIUpdatesFromConfig name)
  | none => none

/-! ## Observations on effect traces -/

/-- Whether an effect is a call of the provisioner (or factory) of stage `s`. -/
def Event.isCallOf (s : Stage) : Event → Bool
  | .call t _ => t == s
  | _ => false

/-- Number of times the provisioner of stage `s` is invoked in a trace. -/
def callsOf (s : Stage) (evs : List Event) : Nat :=
  evs.countP (Event.isCallOf s)

/-- The stage and path of a provisioner call, nothing for other effects. -/
def Event.callPath : Event → Option (Stage × String)
  | .call t path => some (t, path)
  | _ => none

/-- The cancel function an effect invokes, if it is such an invocation. -/
def Event.cancelled : Event → Option CancelFunc
  | .cancel c => some c
  | _ => none

/-- The cancel functions invoked in a trace, in order. -/
def cancelled (evs : List Event) : List CancelFunc :=
  evs.filterMap Event.cancelled

/-- Number of invocations of the cancel function `c` in a trace. -/
def cancelsOf (c : CancelFunc) (evs : List Event) : Nat :=
  (cancelled evs).count c

/-- The method that runs a given stage. -/
def runStage (env : Env) (ps : ProvisioningServiceImpl) : Stage → Step Outcome
  | .datasources =>
    let r := ProvisionDatasources env ps
    ⟨.returned r.ret, r.ps, r.events⟩
  | .plugins =>
    let r := ProvisionPlugins env ps
    ⟨.returned r.ret, r.ps, r.events⟩
  | .notifiers =>
    let r := ProvisionNotifications env ps
    ⟨.returned r.ret, r.ps, r.events⟩
  | .alertRules =>
    let r := ProvisionAlertRules env ps
    ⟨.returned r.ret, r.ps, r.events⟩
  | .dashboards => ProvisionDashboards env ps

/-- The stages of `RunInitProvisioners`, in the order claimed for them. -/
def initSequence : List Stage :=
  [.datasources, .plugins, .notifiers, .alertRules]

/-! ## Sequences of calls on one orchestrator -/

/-- The locked head of one iteration of the loop in `Run`: take the mutex,
create a polling context (`n` is the identity of the new context), record its
cancel function over whatever was recorded, call `PollChanges` on the installed
provisioner, release the mutex. A nil installed provisioner panics with the
mutex still held. -/
def runPollingSetup (ps : ProvisioningServiceImpl) (n : Nat) : Step Outcome :=
  if ps.mutex then
    ⟨.blocked, ps, []⟩
  else
    match ps.dashboardProvisioner with
    | none =>
      ⟨.panicked, { ps with mutex := true, pollingCtxCancel := some ⟨n⟩ }, [.mutexLock]⟩
    | some d =>
      ⟨.returned none, { ps with mutex := false, pollingCtxCancel := some ⟨n⟩ },
        [.mutexLock, .pollChanges d.id n, .mutexUnlock]⟩

/-- The calls that can be made on an orchestrator. -/
inductive Op where
  | runInitProvisioners
  | provisionDatasources
  | provisionPlugins
  | provisionNotifications
  | provisionAlertRules
  | provisionDashboards
  | cancelPolling
  | runPollingSetup
deriving DecidableEq, Repr

/-- An orchestrator together with the number of contexts created so far by
`context.WithCancel` and the effects performed so far. -/
structure World where
  ps : ProvisioningServiceImpl
  nextCtx : Nat
  events : List Event

/-- Perform one call: the receiver is replaced by the one the call leaves, its
effects are appended, and a new polling context uses up one identity. Calls
are performed one after the other; two `cancelPolling` calls that overlap are
treated in `overlappedCancel`. -/
def World.apply (env : Env) (w : World) : Op → World
  | .runInitProvisioners =>
    let r := RunInitProvisioners env w.ps
    ⟨r.ps, w.nextCtx, w.events ++ r.events⟩
  | .provisionDatasources =>
    let r := ProvisionDatasources env w.ps
    ⟨r.ps, w.nextCtx, w.events ++ r.events⟩
  | .provisionPlugins =>
    let r := ProvisionPlugins env w.ps
    ⟨r.ps, w.nextCtx, w.events ++ r.events⟩
  | .provisionNotifications =>
    let r := ProvisionNotifications env w.ps
    ⟨r.ps, w.nextCtx, w.events ++ r.events⟩
  | .provisionAlertRules =>
    let r := ProvisionAlertRules env w.ps
    ⟨r.ps, w.nextCtx, w.events ++ r.events⟩
  | .provisionDashboards =>
    let r := ProvisionDashboards env w.ps
    ⟨r.ps, w.nextCtx, w.events ++ r.events⟩
  | .cancelPolling =>
    let r := cancelPolling w.ps
    ⟨r.ps, w.nextCtx, w.events ++ r.events⟩
  | .runPollingSetup =>
    let r := runPollingSetup w.ps w.nextCtx
    ⟨r.ps, if r.ret = .blocked then w.nextCtx else w.nextCtx + 1, w.events ++ r.events⟩

/-- Perform a sequence of calls, first to last. -/
def World.run (env : Env) (w : World) (ops : List Op) : World :=
  ops.foldl (World.apply env) w

/-- The bookkeeping of cancel functions in a world: no function has been invoked
twice, every invoked or recorded function belongs to a context created earlier,
and the recorded function has not been invoked. -/
def World.CancelInv (w : World) : Prop :=
  (cancelled w.events).Nodup ∧
  (∀ c ∈ cancelled w.events, c.ctx < w.nextCtx) ∧
  (∀ c, w.ps.pollingCtxCancel = some c → c.ctx < w.nextCtx ∧ c ∉ cancelled w.events)

/-! ## The background service `Run`

`Run` is a function of a schedule: the list of things that happen, in order,
while it waits in its `select`. The straight-line code between two waits runs
without interruption; the locked head of the loop could not be interrupted by a
`ProvisionDashboards` call anyway. The parent case of the `select` is different:
it calls `cancelPolling` without the mutex, so a `ProvisionDashboards` call can
overlap it. Here that case runs as one step; the overlap is treated statement
by statement in `overlappedCancel` and `Run.shutdownOverlapped`. A polling context is done exactly when its
cancel function has been invoked: it is derived from `context.Background()`,
so the parent context has no part in it. -/

/-- One thing that happens while `Run` waits in its `select`. -/
inductive Tick where
  /-- The parent context passed to `Run` is cancelled. -/
  | cancelRoot
  /-- Another goroutine calls `ProvisionDashboards`; `factory` is what the factory
  does at that moment. -/
  | reload (factory : String → Option DashboardProvisioner × Option GoError)
  /-- The `select` takes `case <-pollingContext.Done()`, if that context is done. -/
  | pollingDone
  /-- The `select` takes `case <-ctx.Done()`, if the parent context is done. -/
  | rootDone

/-- Whether a tick is a `ProvisionDashboards` call of another goroutine. -/
def Tick.isReload : Tick → Bool
  | .reload _ => true
  | _ => false

/-- The orchestrator while `Run` executes: the receiver, the number of contexts
created so far, the effects so far, and whether the parent context is done. -/
structure RunState where
  ps : ProvisioningServiceImpl
  nextCtx : Nat
  events : List Event
  rootDone : Bool

/-- How far `Run` got on a schedule. -/
inductive RunResult where
  /-- The call returned this error value (`none` is nil). -/
  | returned (err : Option GoError)
  /-- A nil interface value was dereferenced. -/
  | panicked
  /-- The call waits in `mutex.Lock()`. -/
  | blocked
  /-- The schedule ran out while `Run` waits in `select` on this polling context. -/
  | waiting (pollingContext : Nat)
deriving DecidableEq, Repr

/-- The locked head of the loop in `Run`, on the state of a run. -/
def Run.enterLoop (s : RunState) : RunState × Outcome :=
  let r := runPollingSetup s.ps s.nextCtx
  ({ s with
      ps := r.ps
      nextCtx := if r.ret = .blocked then s.nextCtx else s.nextCtx + 1
      events := s.events ++ r.events }, r.ret)

/-- The `select` of `Run`, waiting on the polling context `pollingContext`, and
everything after it. `rootErr` is what `ctx.Err()` gives once the parent
context is done. The parent case executes `cancelPolling` as one step: a
`ProvisionDashboards` call of another goroutine that overlaps it is not a
schedule of this function but of `Run.shutdownOverlapped`. -/
def Run.select (env : Env) (rootErr : GoError) :
    List Tick → Nat → RunState → RunState × RunResult
  | [], pollingContext, s => (s, .waiting pollingContext)
  | .cancelRoot :: ticks, pollingContext, s =>
    Run.select env rootErr ticks pollingContext { s with rootDone := true }
  | .reload factory :: ticks, pollingContext, s =>
    let r := ProvisionDashboards env { s.ps with newDashboardProvisioner := factory }
    match r.ret with
    | .panicked => ({ s with ps := r.ps, events := s.events ++ r.events }, .panicked)
    | _ =>
      Run.select env rootErr ticks pollingContext
        { s with ps := r.ps, events := s.events ++ r.events }
  | .pollingDone :: ticks, pollingContext, s =>
    if (⟨pollingContext⟩ : CancelFunc) ∈ cancelled s.events then
      -- Polling was canceled: continue with the head of the loop.
      match (Run.enterLoop s).2 with
      | .returned _ => Run.select env rootErr ticks s.nextCtx (Run.enterLoop s).1
      | .panicked => ((Run.enterLoop s).1, .panicked)
      | .blocked => ((Run.enterLoop s).1, .blocked)
    else
      Run.select env rootErr ticks pollingContext s
  | .rootDone :: ticks, pollingContext, s =>
    if s.rootDone then
      -- Root server context was cancelled so cancel polling and leave.
      let c := cancelPolling s.ps
      ({ s with ps := c.ps, events := s.events ++ c.events }, .returned (some rootErr))
    else
      Run.select env rootErr ticks pollingContext s

/-- Method `Run`, on a schedule for its waits. -/
def Run (env : Env) (rootErr : GoError) (ticks : List Tick) (s : RunState) :
    RunState × RunResult :=
  let r := ProvisionDashboards env s.ps
  let s1 : RunState := { s with ps := r.ps, events := s.events ++ r.events }
  match r.ret with
  | .returned (some err) =>
    ({ s1 with events := s1.events ++ [.logError "Failed to provision dashboard" err] },
      .returned (some err))
  | .panicked => (s1, .panicked)
  | .blocked => (s1, .blocked)
  | .returned none =>
    match s1.ps.dashboardProvisioner with
    | none => (s1, .panicked)
    | some d =>
      let s2 : RunState :=
        if d.HasDashboardSources then
          { s1 with events := s1.events ++ [.triggerReIndex] }
        else s1
      match (Run.enterLoop s2).2 with
      | .returned _ => Run.select env rootErr ticks s2.nextCtx (Run.enterLoop s2).1
      | .panicked => ((Run.enterLoop s2).1, .panicked)
      | .blocked => ((Run.enterLoop s2).1, .blocked)

/-- The context of a `PollChanges` call, nothing for other effects. -/
def Event.polledCtx : Event → Option Nat
  | .pollChanges _ ctx => some ctx
  | _ => none

/-- The contexts on which `PollChanges` was called in a trace, in order. -/
def polled (evs : List Event) : List Nat :=
  evs.filterMap Event.polledCtx

/-- Whether a tick is the `select` taking the parent-context case. -/
def Tick.isRootDone : Tick → Bool
  | .rootDone => true
  | _ => false

/-- Whether a tick is the cancellation of the parent context. -/
def Tick.isCancelRoot : Tick → Bool
  | .cancelRoot => true
  | _ => false

/-- Number of search re-index triggers in a trace. -/
def reIndexes (evs : List Event) : Nat :=
  evs.count .triggerReIndex

/-- What holds whenever `Run` waits in `select` on the polling context `pc`: the
most recent `PollChanges` call was made with `pc`; the cancel function of `pc`
is recorded or has been invoked; and every other polled context was polled
before the run (`before`) or has been cancelled. -/
def Run.WaitInv (before : List Nat) (pc : Nat) (s : RunState) : Prop :=
  (∃ pre, polled s.events = pre ++ [pc]) ∧
  (s.ps.pollingCtxCancel = some ⟨pc⟩ ∨ (⟨pc⟩ : CancelFunc) ∈ cancelled s.events) ∧
  (∀ n ∈ polled s.events,
    n = pc ∨ n ∈ before ∨ (⟨n⟩ : CancelFunc) ∈ cancelled s.events)

/-! ## Two concurrent `ProvisionDashboards` calls

Each call advances one statement at a time; a schedule says which of the two
calls moves next. `mutex.Lock()` moves only when the mutex is free. -/

/-- The statement a `ProvisionDashboards` call is about to execute. -/
inductive CallPc where
  /-- The call to the factory (line 230). -/
  | start
  /-- The statement `ps.mutex.Lock()` (line 235). -/
  | built
  /-- The statement `ps.cancelPolling()` (line 238). -/
  | locked
  /-- The statement `dashProvisioner.CleanUpOrphanedDashboards(ctx)` (line 239). -/
  | cancelled
  /-- The statement `err = dashProvisioner.Provision(ctx)` (line 241). -/
  | cleaned
  /-- The statement `ps.dashboardProvisioner = dashProvisioner` (line 247). -/
  | provisioned
  /-- The deferred `ps.mutex.Unlock()`. -/
  | leaving
  /-- The call is over. -/
  | done
deriving DecidableEq, Repr

/-- One `ProvisionDashboards` call in progress: what the factory does for it, where
it stands, its local variable `dashProvisioner`, and what it returns (known from
the moment the way out is decided). -/
structure Call where
  factory : String → Option DashboardProvisioner × Option GoError
  pc : CallPc
  dashProvisioner : Option DashboardProvisioner
  ret : Option Outcome

/-- A call that has not started. -/
def Call.init (factory : String → Option DashboardProvisioner × Option GoError) : Call :=
  { factory := factory, pc := .start, dashProvisioner := none, ret := none }

/-- Whether the call is between its `Lock` and its `Unlock`. -/
def Call.inside (c : Call) : Bool :=
  match c.pc with
  | .locked | .cancelled | .cleaned | .provisioned | .leaving => true
  | _ => false

/-- Whether the call has executed the assignment that installs its instance. -/
def Call.installed (c : Call) : Bool :=
  decide ((c.pc = .leaving ∨ c.pc = .done) ∧ c.ret = some (.returned none))

/-- One statement of a `ProvisionDashboards` call on the shared receiver: the
receiver and the call afterwards, and the effects of the statement. A call at
`Lock` with the mutex held does not move. -/
def Call.step (env : Env) (ps : ProvisioningServiceImpl) (c : Call) :
    ProvisioningServiceImpl × Call × List Event :=
  match c.pc with
  | .start =>
    let dashboardPath := env.filepathJoin ps.Cfg.ProvisioningPath "dashboards"
    match c.factory dashboardPath with
    | (d, some err) =>
      (ps, { c with pc := .done, dashProvisioner := d,
                    ret := some (.returned (some (Errorf "Failed to create provisioner" err))) },
        [.call .dashboards dashboardPath])
    | (d, none) =>
      (ps, { c with pc := .built, dashProvisioner := d }, [.call .dashboards dashboardPath])
  | .built =>
    if ps.mutex then (ps, c, [])
    else ({ ps with mutex := true }, { c with pc := .locked }, [.mutexLock])
  | .locked =>
    ((cancelPolling ps).ps, { c with pc := .cancelled }, (cancelPolling ps).events)
  | .cancelled =>
    match c.dashProvisioner with
    | none => (ps, { c with pc := .leaving, ret := some .panicked }, [])
    | some d => (ps, { c with pc := .cleaned }, [.cleanUpOrphanedDashboards d.id])
  | .cleaned =>
    match c.dashProvisioner with
    | none => (ps, { c with pc := .leaving, ret := some .panicked }, [])
    | some d =>
      match d.Provision with
      | some err =>
        (ps, { c with pc := .leaving,
                      ret := some (.returned (some (Errorf "Failed to provision dashboards" err))) },
          [.provision d.id])
      | none => (ps, { c with pc := .provisioned }, [.provision d.id])
  | .provisioned =>
    ({ ps with dashboardProvisioner := c.dashProvisioner },
      { c with pc := .leaving, ret := some (.returned none) }, [])
  | .leaving => ({ ps with mutex := false }, { c with pc := .done }, [.mutexUnlock])
  | .done => (ps, c, [])

/-- Two calls on one receiver, with the effects so far, each tagged with the call
that performed it. -/
structure Pair where
  ps : ProvisioningServiceImpl
  call : Bool → Call
  events : List (Bool × Event)

/-- Two calls that have not started, on the receiver `ps`. -/
def Pair.init (ps : ProvisioningServiceImpl)
    (fa fb : String → Option DashboardProvisioner × Option GoError) : Pair :=
  { ps := ps
    call := fun i => Call.init (if i then fb else fa)
    events := [] }

/-- The call `i` executes its next statement. -/
def Pair.step (env : Env) (st : Pair) (i : Bool) : Pair :=
  { ps := ((st.call i).step env st.ps).1
    call := fun j => if j = i then ((st.call i).step env st.ps).2.1 else st.call j
    events := st.events ++ ((st.call i).step env st.ps).2.2.map (fun e => (i, e)) }

/-- The two calls advance as the schedule says. -/
def Pair.run (env : Env) (st : Pair) (schedule : List Bool) : Pair :=
  schedule.foldl (Pair.step env) st

/-- The calls in the order in which they acquired the mutex. -/
def Pair.lockOrder (st : Pair) : List Bool :=
  st.events.filterMap (fun e => if e.2 = .mutexLock then some e.1 else none)

/-- The slot obtained by installing, over the value `initial`, the instances of
the calls that have installed theirs, taking the calls in the given order. -/
def replayInstalls (call : Bool → Call) (order : List Bool)
    (initial : Option DashboardProvisioner) : Option DashboardProvisioner :=
  order.foldl
    (fun acc i => if (call i).installed then (call i).dashProvisioner else acc)
    initial

/-- The slot obtained by installing, over the value `initial`, the instances of
the calls that have installed theirs, in the order the calls held the mutex. -/
def Pair.slotSpec (st : Pair) (initial : Option DashboardProvisioner) :
    Option DashboardProvisioner :=
  replayInstalls st.call st.lockOrder initial

/-- What holds in every state two concurrent calls can reach from a free mutex:
the mutex is held exactly when a call is inside its locked section, at most one
call is inside, a call inside is the last to have acquired the mutex, a call
that installed its instance did acquire the mutex, and the slot is the result
of the installs so far in mutex order. -/
def Pair.Inv (st : Pair) (initial : Option DashboardProvisioner) : Prop :=
  st.ps.mutex = ((st.call false).inside || (st.call true).inside) ∧
  ((st.call false).inside = false ∨ (st.call true).inside = false) ∧
  (∀ i, (st.call i).inside = true → ∃ l, st.lockOrder = l ++ [i]) ∧
  (∀ i, (st.call i).installed = true → i ∈ st.lockOrder) ∧
  st.ps.dashboardProvisioner = st.slotSpec initial

/-- The state two concurrent `ProvisionDashboards` calls reach on a schedule, from
the receiver `ps`; `fa` and `fb` are what the factory does for each. -/
def twoCalls (env : Env) (ps : ProvisioningServiceImpl)
    (fa fb : String → Option DashboardProvisioner × Option GoError)
    (schedule : List Bool) : Pair :=
  Pair.run env (Pair.init ps fa fb) schedule

/-- Whether a tick leaves `Run` with an instance to work on: a reload whose
factory returns no error returns an instance with it. -/
def Tick.buildsInstance : Tick → Prop
  | .reload factory => ∀ path, (factory path).2 = none → (factory path).1 ≠ none
  | _ => True


/-! ## `cancelPolling` statement by statement

`Run` calls `cancelPolling` in the parent case of its `select` (line 192)
without holding the mutex, and `ProvisionDashboards` calls it inside its locked
section (line 238), so the two calls can overlap. Here each call advances one
statement at a time, and a schedule says which of the two moves next. -/

/-- The statement a `cancelPolling` call is about to execute. -/
inductive CancelPc where
  /-- The test `ps.pollingCtxCancel != nil` (line 282). -/
  | check
  /-- The call `ps.log.Debug("Stop polling for dashboard changes")` (line 283). -/
  | log
  /-- The call `ps.pollingCtxCancel()` (line 284). -/
  | invoke
  /-- The assignment `ps.pollingCtxCancel = nil` (line 286). -/
  | clear
  /-- The call is over. -/
  | done
  /-- The call panicked: it called a nil function value. -/
  | panicked
deriving DecidableEq, Repr

/-- One statement of a `cancelPolling` call on the shared receiver: the receiver
afterwards, the next statement and the effects of the statement. -/
def CancelPc.step (ps : ProvisioningServiceImpl) :
    CancelPc → ProvisioningServiceImpl × CancelPc × List Event
  | .check =>
    match ps.pollingCtxCancel with
    | some _ => (ps, .log, [])
    | none => (ps, .clear, [])
  | .log => (ps, .invoke, [.logDebug "Stop polling for dashboard changes"])
  | .invoke =>
    match ps.pollingCtxCancel with
    | some c => (ps, .clear, [.cancel c])
    | none => (ps, .panicked, [])
  | .clear => ({ ps with pollingCtxCancel := none }, .done, [])
  | .done => (ps, .done, [])
  | .panicked => (ps, .panicked, [])

/-- Two `cancelPolling` calls on one receiver, with the effects so far, each
tagged with the call that performed it. The call `false` is the one `Run` makes
in the parent case of its `select`, the call `true` the one a
`ProvisionDashboards` call of another goroutine makes in its locked section. -/
structure CancelRace where
  ps : ProvisioningServiceImpl
  pc : Bool → CancelPc
  events : List (Bool × Event)

/-- Two calls that have not started, on the receiver `ps`. -/
def CancelRace.init (ps : ProvisioningServiceImpl) : CancelRace :=
  { ps := ps, pc := fun _ => .check, events := [] }

/-- The call `i` executes its next statement. -/
def CancelRace.step (st : CancelRace) (i : Bool) : CancelRace :=
  { ps := ((st.pc i).step st.ps).1
    pc := fun j => if j = i then ((st.pc i).step st.ps).2.1 else st.pc j
    events := st.events ++ ((st.pc i).step st.ps).2.2.map (fun e => (i, e)) }

/-- The two calls advance as the schedule says. -/
def CancelRace.run (st : CancelRace) (schedule : List Bool) : CancelRace :=
  schedule.foldl CancelRace.step st

/-- The state two overlapping `cancelPolling` calls reach on a schedule, from
the receiver `ps`. -/
def overlappedCancel (ps : ProvisioningServiceImpl) (schedule : List Bool) : CancelRace :=
  CancelRace.run (CancelRace.init ps) schedule

/-- The effects of a trace of tagged effects, without the tags. -/
def untagged (evs : List (Bool × Event)) : List Event :=
  evs.map Prod.snd

/-- The effects the call `i` performed in a trace of tagged effects. -/
def effectsOf (i : Bool) (evs : List (Bool × Event)) : List Event :=
  (evs.filter (fun e => e.1 == i)).map Prod.snd

/-- The parent case of the `select` of `Run` (lines 190-193) from the state `s`,
its `cancelPolling` overlapped by that of a `ProvisionDashboards` call of
another goroutine as the schedule says: the state afterwards and what `Run`
has done, `none` while it is still inside `cancelPolling`. When its
`cancelPolling` is over `Run` returns `ctx.Err()`. -/
def Run.shutdownOverlapped (rootErr : GoError) (s : RunState) (schedule : List Bool) :
    RunState × Option RunResult :=
  let st := overlappedCancel s.ps schedule
  ({ s with ps := st.ps, events := s.events ++ untagged st.events },
    match st.pc false with
    | .done => some (.returned (some rootErr))
    | .panicked => some .panicked
    | _ => none)

/-- A schedule in which both calls test the slot before either invokes the
recorded function: each then invokes it. -/
def exBothInvoke : List Bool :=
  [false, true, false, true, false, true, false, true]

/-- A schedule in which the call of `Run` tests the slot, the other call then
runs to its end and empties the slot, and the call of `Run` goes on. -/
def exClearedInBetween : List Bool :=
  [false, true, true, true, true, false, false]

/-! ## Constructors -/

/-- The package level functions the constructors install in the struct:
`dashboards.New`, `notifiers.Provision`, `datasources.Provision` and
`plugins.Provision`. -/
structure Pkg where
  dashboardsNew : String → Option DashboardProvisioner × Option GoError
  notifiersProvision : String → Option GoError
  datasourcesProvision : String → Option GoError
  pluginsProvision : String → Option GoError

/-- The function `ProvideService`: every hook is set except `provisionRules`;
the slot, the polling-cancel function and the mutex have their zero values. -/
def ProvideService (pkg : Pkg) (cfg : Cfg) : ProvisioningServiceImpl × Option GoError :=
  ({ Cfg := cfg
     pollingCtxCancel := none
     newDashboardProvisioner := pkg.dashboardsNew
     dashboardProvisioner := none
     provisionNotifiers := pkg.notifiersProvision
     provisionDatasources := pkg.datasourcesProvision
     provisionPlugins := pkg.pluginsProvision
     provisionRules := none
     mutex := false }, none)

/-- The struct `ProvisioningServiceImpl` with its pointer field `Cfg` possibly
nil (`none`), as a constructor that does not set it leaves it. The other fields
are those of `ProvisioningServiceImpl`. -/
structure RawProvisioningServiceImpl where
  Cfg : Option Cfg
  pollingCtxCancel : Option CancelFunc
  newDashboardProvisioner : String → Option DashboardProvisioner × Option GoError
  dashboardProvisioner : Option DashboardProvisioner
  provisionNotifiers : String → Option GoError
  provisionDatasources : String → Option GoError
  provisionPlugins : String → Option GoError
  provisionRules : Option (String → Option GoError)
  mutex : Bool

/-- The function `NewProvisioningServiceImpl`: it takes no argument, sets the
four hooks of `ProvideService` and `provisionRules` (to the package level
`rules.Provision`), and leaves `Cfg` and everything else at the zero value. -/
def NewProvisioningServiceImpl (env : Env) (pkg : Pkg) : RawProvisioningServiceImpl :=
  { Cfg := none
    pollingCtxCancel := none
    newDashboardProvisioner := pkg.dashboardsNew
    dashboardProvisioner := none
    provisionNotifiers := pkg.notifiersProvision
    provisionDatasources := pkg.datasourcesProvision
    provisionPlugins := pkg.pluginsProvision
    provisionRules := some env.rulesProvision
    mutex := false }

/-- The receiver after the assignment `ps.Cfg = cfg`. -/
def RawProvisioningServiceImpl.withCfg (r : RawProvisioningServiceImpl)
    (cfg : Provisioning.Cfg) :
    ProvisioningServiceImpl :=
  { Cfg := cfg
    pollingCtxCancel := r.pollingCtxCancel
    newDashboardProvisioner := r.newDashboardProvisioner
    dashboardProvisioner := r.dashboardProvisioner
    provisionNotifiers := r.provisionNotifiers
    provisionDatasources := r.provisionDatasources
    provisionPlugins := r.provisionPlugins
    provisionRules := r.provisionRules
    mutex := r.mutex }

/-- A call of one of the stage methods or of `RunInitProvisioners` on such a
receiver. The first statement each of them executes evaluates
`ps.Cfg.ProvisioningPath`: with `Cfg` nil the call panics before any effect,
otherwise it is the call on the receiver with that `Cfg`. -/
def RawProvisioningServiceImpl.call (r : RawProvisioningServiceImpl)
    (method : ProvisioningServiceImpl → Step (Option GoError)) : Outcome × List Event :=
  match r.Cfg with
  | none => (.panicked, [])
  | some cfg => (.returned (method (r.withCfg cfg)).ret, (method (r.withCfg cfg)).events)

/-! ## Fixtures for concrete evaluation -/

/-- A join that puts a slash between its arguments, and a rules provisioner
that succeeds. -/
def exEnv : Env :=
  { filepathJoin := fun a b => a ++ "/" ++ b
    rulesProvision := fun _ => none }

/-- A dashboard provisioner instance whose `Provision` succeeds. -/
def exV1 : DashboardProvisioner :=
  { id := 1
    Provision := none
    HasDashboardSources := true
    GetProvisionerResolvedPath := fun name => "/v1/" ++ name
    GetAllowUIUpdatesFromConfig := fun _ => false }

/-- A second instance whose `Provision` succeeds. -/
def exV2 : DashboardProvisioner :=
  { id := 2
    Provision := none
    HasDashboardSources := false
    GetProvisionerResolvedPath := fun name => "/v2/" ++ name
    GetAllowUIUpdatesFromConfig := fun _ => true }

/-- An instance whose `Provision` fails. -/
def exV3 : DashboardProvisioner :=
  { id := 3
    Provision := some (.leaf "disk full")
    HasDashboardSources := false
    GetProvisionerResolvedPath := fun name => "/v3/" ++ name
    GetAllowUIUpdatesFromConfig := fun _ => true }

/-- An orchestrator with `exV1` installed, a polling epoch recorded, and
collaborators that all succeed (the factory builds `exV2`). -/
def exPs : ProvisioningServiceImpl :=
  { Cfg := { ProvisioningPath := "/conf" }
    pollingCtxCancel := some ⟨7⟩
    newDashboardProvisioner := fun _ => (some exV2, none)
    dashboardProvisioner := some exV1
    provisionNotifiers := fun _ => none
    provisionDatasources := fun _ => none
    provisionPlugins := fun _ => none
    provisionRules := none
    mutex := false }

/-- The orchestrator `exPs` with a plugin provisioner that fails. -/
def exPsPluginFails : ProvisioningServiceImpl :=
  { exPs with provisionPlugins := fun _ => some (.leaf "bad plugin file") }

/-- The orchestrator `exPs` with a factory that fails. -/
def exPsFactoryFails : ProvisioningServiceImpl :=
  { exPs with newDashboardProvisioner := fun _ => (none, some (.leaf "bad config")) }

/-- The orchestrator `exPs` with a factory that builds `exV3`. -/
def exPsProvisionFails : ProvisioningServiceImpl :=
  { exPs with newDashboardProvisioner := fun _ => (some exV3, none) }

/-- An environment whose rules provisioner fails. -/
def exEnvRulesFail : Env :=
  { exEnv with rulesProvision := fun _ => some (.leaf "bad rule file") }

/-- A schedule for `Run`: a reload that builds `exV1`, the polling case, the
cancellation of the parent context, the parent case. -/
def exSchedule : List Tick :=
  [.reload (fun _ => (some exV1, none)), .pollingDone, .cancelRoot, .rootDone]

/-- A schedule for two calls in which the second runs its factory and then has
to wait for the first to leave its locked section. -/
def exInterleaving : List Bool :=
  [false, true, false, true, true, false, false, true, false, false, false,
    true, true, true, true, true, true, true]

/-- The state in which `Run`, started on `exPs`, waits in its `select` on the
polling context 8 after the parent context has been cancelled. -/
def exWaiting : RunState :=
  (Run exEnv (.leaf "context canceled") [.cancelRoot] ⟨exPs, 8, [], false⟩).1

/-- The state `exWaiting` after a `ProvisionDashboards` call of another goroutine
has executed its factory call and its `Lock`. -/
def exOverlapStart : RunState :=
  { exWaiting with
    ps := (twoCalls exEnv exWaiting.ps exWaiting.ps.newDashboardProvisioner
      exWaiting.ps.newDashboardProvisioner [true, true]).ps
    events := exWaiting.events ++
      untagged (twoCalls exEnv exWaiting.ps exWaiting.ps.newDashboardProvisioner
        exWaiting.ps.newDashboardProvisioner [true, true]).events }

/-- Package functions that all succeed; the factory builds `exV2`. -/
def exPkg : Pkg :=
  { dashboardsNew := fun _ => (some exV2, none)
    notifiersProvision := fun _ => none
    datasourcesProvision := fun _ => none
    pluginsProvision := fun _ => none }


end Provisioning

/-!
# Public dashboard models (pkg/services/publicdashboards/models/models.go)

`simplejson.Json` is used through `Get`, `GetPath` and `MustString` only; the
source of that package is not part of this development, so the value type and
these three methods are given here from their documented behaviour.
-/

namespace PublicDashboards

/-- The struct `PublicDashboardErr`. -/
structure PublicDashboardErr where
  StatusCode : Int
  Status : String
  Reason : String
deriving DecidableEq, Repr

/-- Method `PublicDashboardErr.Error`. -/
def PublicDashboardErr.Error (e : PublicDashboardErr) : String :=
  if e.Reason != "" then e.Reason else "Dashboard Error"

/-- Modelled from the spec: the data held by a `simplejson.Json` (package
`pkg/components/simplejson`, whose source is not embedded): nil, a boolean, a
number, a string, an array or a map from strings to values. -/
inductive Json where
  | null
  | bool (b : Bool)
  | number (n : Int)
  | str (s : String)
  | arr (xs : List Json)
  | obj (kvs : List (String × Json))

/-- Modelled from the spec: `simplejson` method `Get`: the value under `key`
when the data is a map holding that key, and a nil value otherwise. -/
def Json.Get (j : Json) (key : String) : Json :=
  match j with
  | .obj kvs =>
    match kvs.lookup key with
    | some val => val
    | none => .null
  | _ => .null

/-- Modelled from the spec: `simplejson` method `GetPath`: `Get` along each
element of the branch in turn. -/
def Json.GetPath (j : Json) (branch : List String) : Json :=
  branch.foldl Json.Get j

/-- Modelled from the spec: `simplejson` method `MustString` with the default
`dflt` (the empty string when called without argument): the string held, or
the default when the data is not a string. -/
def Json.MustString (j : Json) (dflt : String) : String :=
  match j with
  | .str s => s
  | _ => dflt

/-- The field of `models.Dashboard` that `BuildTimeSettings` reads; `Data` is
taken as set. -/
structure Dashboard where
  Data : Json

/-- The field of `PublicDashboard` that `BuildTimeSettings` reads; `none` is the
nil pointer. -/
structure PublicDashboard where
  TimeSettings : Option Json

/-- The struct `TimeSettings`. -/
structure TimeSettings where
  From : String
  To : String
deriving DecidableEq, Repr

/-- Method `PublicDashboard.BuildTimeSettings`. -/
def PublicDashboard.BuildTimeSettings (pd : PublicDashboard) (dashboard : Dashboard) :
    PublicDashboards.TimeSettings :=
  let ts : PublicDashboards.TimeSettings :=
    { From := (dashboard.Data.GetPath ["time", "from"]).MustString ""
      To := (dashboard.Data.GetPath ["time", "to"]).MustString "" }
  match pd.TimeSettings with
  | none => ts
  | some timeSettings =>
    let toStr := (timeSettings.Get "to").MustString ""
    let fromStr := (timeSettings.Get "from").MustString ""
    if toStr != "" && fromStr != "" then
      { ts with From := fromStr, To := toStr }
    else
      ts

/-- A dashboard whose time range is the last six hours. -/
def exDashboard : Dashboard :=
  { Data := .obj [("time", .obj [("from", .str "now-6h"), ("to", .str "now")])] }

/-- Public dashboard time settings with both bounds set. -/
def exPdBoth : PublicDashboard :=
  { TimeSettings := some (.obj [("from", .str "now-8h"), ("to", .str "now-1h")]) }

/-- Public dashboard time settings with only the lower bound set. -/
def exPdFromOnly : PublicDashboard :=
  { TimeSettings := some (.obj [("from", .str "now-8h")]) }

end PublicDashboards

/-!
# In-memory secrets store (pkg/services/secrets/kvstore/test_helpers.go)

The Go map `map[Key]string` is a list of entries read by first match; writing a
key drops every older entry of that key, deleting drops all its entries.
-/

namespace Kvstore

/-- The struct `Key`, as built by `buildKey`. -/
structure Key where
  OrgId : Int
  Namespace : String
  Typ : String
deriving DecidableEq, Repr

/-- The function `buildKey`. -/
def buildKey (orgId : Int) (namespace_ : String) (typ : String) : Key :=
  { OrgId := orgId, Namespace := namespace_, Typ := typ }

/-- The struct `FakeSecretsKVStore`; `store` stands for the Go map. -/
structure FakeSecretsKVStore where
  store : List (Key × String)
deriving DecidableEq, Repr

/-- The Go expression `m[k]` read: the stored value, or the zero value. -/
def mapIndex (m : List (Key × String)) (k : Key) : String :=
  (m.lookup k).getD ""

/-- The Go statement `m[k] = v`. -/
def mapAssign (m : List (Key × String)) (k : Key) (v : String) : List (Key × String) :=
  (k, v) :: m.filter (fun e => e.1 != k)

/-- The Go statement `delete(m, k)`. -/
def mapDelete (m : List (Key × String)) (k : Key) : List (Key × String) :=
  m.filter (fun e => e.1 != k)

/-- The function `NewFakeSecretsKVStore`. -/
def NewFakeSecretsKVStore : FakeSecretsKVStore :=
  { store := [] }

/-- Method `FakeSecretsKVStore.Get`: value, found flag, error. -/
def FakeSecretsKVStore.Get (f : FakeSecretsKVStore) (orgId : Int) (namespace_ : String)
    (typ : String) : String × Bool × Option Provisioning.GoError :=
  let value := mapIndex f.store (buildKey orgId namespace_ typ)
  let found := value != ""
  (value, found, none)

/-- Method `FakeSecretsKVStore.Set`: the store afterwards and the error. -/
def FakeSecretsKVStore.Set (f : FakeSecretsKVStore) (orgId : Int) (namespace_ : String)
    (typ : String) (value : String) : FakeSecretsKVStore × Option Provisioning.GoError :=
  ({ store := mapAssign f.store (buildKey orgId namespace_ typ) value }, none)

/-- Method `FakeSecretsKVStore.Del`: the store afterwards and the error. -/
def FakeSecretsKVStore.Del (f : FakeSecretsKVStore) (orgId : Int) (namespace_ : String)
    (typ : String) : FakeSecretsKVStore × Option Provisioning.GoError :=
  ({ store := mapDelete f.store (buildKey orgId namespace_ typ) }, none)

/-- Method `FakeSecretsKVStore.Keys`: the matching keys (in map order, which Go
leaves open) and the error. -/
def FakeSecretsKVStore.Keys (f : FakeSecretsKVStore) (orgId : Int) (namespace_ : String)
    (typ : String) : List Key × Option Provisioning.GoError :=
  ((f.store.map Prod.fst).filter
    (fun k => k.OrgId == orgId && k.Namespace == namespace_ && k.Typ == typ), none)

/-- Method `FakeSecretsKVStore.Rename`: the store afterwards and the error. -/
def FakeSecretsKVStore.Rename (f : FakeSecretsKVStore) (orgId : Int) (namespace_ : String)
    (typ : String) (newNamespace : String) :
    FakeSecretsKVStore × Option Provisioning.GoError :=
  let m := mapAssign f.store (buildKey orgId newNamespace typ)
    (mapIndex f.store (buildKey orgId namespace_ typ))
  ({ store := mapDelete m (buildKey orgId namespace_ typ) }, none)

/-- The keys held by a store, each once. -/
def FakeSecretsKVStore.storedKeys (f : FakeSecretsKVStore) : List Key :=
  (f.store.map Prod.fst).dedup

/-- A store holding one secret under organisation 1, namespace "b", type "t". -/
def exStore : FakeSecretsKVStore :=
  { store := [(buildKey 1 "b" "t", "w")] }

/-!
## SQL secrets store (pkg/services/secrets/kvstore/sql.go)

Go strings and byte slices are both byte sequences, so the conversions
`[]byte(s)` and `string(b)` are the identity and both are `String` here. A
`time.Time` is an instant, an integer; `Equal` is equality of instants. The
store's log calls have no effect on the table or the cache and are left out.
-/

/-- Modelled from the spec: the struct `Item`, a row of the secrets table (its
declaration is not embedded): the columns the store reads and writes. -/
structure Item where
  Id : Int
  OrgId : Int
  Namespace : String
  Typ : String
  Value : String
  Created : Int
  Updated : Int
deriving DecidableEq, Repr

/-- The struct `cachedDecrypted`. -/
structure cachedDecrypted where
  updated : Int
  value : String
deriving DecidableEq, Repr

/-- Modelled from the spec: the secrets table behind `sqlStore`: its rows and
the last identifier the auto-increment column handed out. -/
structure Table where
  rows : List Item
  lastId : Int

/-- The services the store calls: `secretsService.Encrypt`,
`secretsService.Decrypt` (value and error, as in Go) and the two directions of
the package variable `b64`. -/
structure SqlEnv where
  Encrypt : String → Except Provisioning.GoError String
  Decrypt : String → String × Option Provisioning.GoError
  EncodeToString : String → String
  DecodeString : String → Except Provisioning.GoError String

/-- The struct `secretsKVStoreSQL`: the table, the map of the decryption cache
and the override of `GetAll` (the result it returns, `none` when unset). -/
structure secretsKVStoreSQL where
  sqlStore : Table
  decryptionCache : Int → Option cachedDecrypted
  GetAllFuncOverride : Option (List Item × Option Provisioning.GoError)

/-- The store as the struct literal of `SetupTestService` builds it: an empty
cache and no override. -/
def newSecretsKVStoreSQL (sqlStore : Table) : secretsKVStoreSQL :=
  { sqlStore := sqlStore, decryptionCache := fun _ => none, GetAllFuncOverride := none }

/-- The Go statement `cache[id] = c`. -/
def cacheAssign (cache : Int → Option cachedDecrypted) (id : Int) (c : cachedDecrypted) :
    Int → Option cachedDecrypted :=
  fun j => if j = id then some c else cache j

/-- The Go statement `delete(cache, id)`. -/
def cacheDelete (cache : Int → Option cachedDecrypted) (id : Int) :
    Int → Option cachedDecrypted :=
  fun j => if j = id then none else cache j

/-- Modelled from the spec: `dbSession.Get(&item)` with the three key columns
set: the first row with that organisation, namespace and type. -/
def dbGet (rows : List Item) (orgId : Int) (namespace_ : String) (typ : String) :
    Option Item :=
  rows.find? (fun r => decide (r.OrgId = orgId ∧ r.Namespace = namespace_ ∧ r.Typ = typ))

/-- Modelled from the spec: `dbSession.ID(id).Update(&item)`: the row with that
identifier takes the columns of `item`. -/
def dbUpdate (rows : List Item) (id : Int) (item : Item) : List Item :=
  rows.map (fun r => if r.Id = id then item else r)

/-- Modelled from the spec: `dbSession.ID(id).Delete(&item)`. -/
def dbDelete (rows : List Item) (id : Int) : List Item :=
  rows.filter (fun r => decide (r.Id ≠ id))

/-- Modelled from the spec: `dbSession.Insert(&item)`: the row is added under
the next identifier of the auto-increment column. -/
def dbInsert (t : Table) (item : Item) : Table :=
  { rows := t.rows ++ [{ item with Id := t.lastId + 1 }], lastId := t.lastId + 1 }

/-- The condition `cache, ok := kv.decryptionCache.cache[item.Id]; ok &&
item.Updated.Equal(cache.updated)` of `Get` and `GetAll`: the cached value
when it holds. -/
def cacheHit (cache : Int → Option cachedDecrypted) (item : Item) : Option String :=
  match cache item.Id with
  | some c => if item.Updated = c.updated then some c.value else none
  | none => none

/-- Method `secretsKVStoreSQL.Get`: value, found flag and error, and the store
afterwards; `dbErr` is the error of the session's `Get`. -/
def secretsKVStoreSQL.Get (env : SqlEnv) (kv : secretsKVStoreSQL)
    (dbErr : Option Provisioning.GoError) (orgId : Int) (namespace_ : String) (typ : String) :
    (String × Bool × Option Provisioning.GoError) × secretsKVStoreSQL :=
  match dbErr with
  | some err => (("", false, some err), kv)
  | none =>
    match dbGet kv.sqlStore.rows orgId namespace_ typ with
    | none => (("", false, none), kv)
    | some item =>
      match cacheHit kv.decryptionCache item with
      | some value => ((value, true, none), kv)
      | none =>
        match env.DecodeString item.Value with
        | .error err => (("", true, some err), kv)
        | .ok decodedValue =>
          match env.Decrypt decodedValue with
          | (decryptedValue, some err) => ((decryptedValue, true, some err), kv)
          | (decryptedValue, none) =>
            ((decryptedValue, true, none),
              { kv with
                decryptionCache := cacheAssign kv.decryptionCache item.Id
                  { updated := item.Updated, value := decryptedValue } })

/-- Method `secretsKVStoreSQL.Set`: the error and the store afterwards; `now` is
the value of `time.Now()`, `getErr` the error of the session's `Get` and
`writeErr` that of its `Update` or `Insert`. -/
def secretsKVStoreSQL.Set (env : SqlEnv) (kv : secretsKVStoreSQL) (now : Int)
    (getErr writeErr : Option Provisioning.GoError) (orgId : Int) (namespace_ : String)
    (typ : String) (value : String) : Option Provisioning.GoError × secretsKVStoreSQL :=
  match env.Encrypt value with
  | .error err => (some err, kv)
  | .ok encryptedValue =>
    let encodedValue := env.EncodeToString encryptedValue
    match getErr with
    | some err => (some err, kv)
    | none =>
      match dbGet kv.sqlStore.rows orgId namespace_ typ with
      | some found =>
        if found.Value = encodedValue then (none, kv)
        else
          let item := { found with Value := encodedValue, Updated := now }
          match writeErr with
          | some err => (some err, kv)
          | none =>
            (none,
              { kv with
                sqlStore := { kv.sqlStore with rows := dbUpdate kv.sqlStore.rows item.Id item },
                decryptionCache := cacheAssign kv.decryptionCache item.Id
                  { updated := item.Updated, value := value } })
      | none =>
        let item : Item :=
          { Id := 0, OrgId := orgId, Namespace := namespace_, Typ := typ,
            Value := encodedValue, Created := now, Updated := now }
        match writeErr with
        | some err => (some err, kv)
        | none => (none, { kv with sqlStore := dbInsert kv.sqlStore item })

/-- Method `secretsKVStoreSQL.Del`: the error and the store afterwards; `getErr`
is the error of the session's `Get`, `writeErr` that of its `Delete`. -/
def secretsKVStoreSQL.Del (kv : secretsKVStoreSQL)
    (getErr writeErr : Option Provisioning.GoError) (orgId : Int) (namespace_ : String)
    (typ : String) : Option Provisioning.GoError × secretsKVStoreSQL :=
  match getErr with
  | some err => (some err, kv)
  | none =>
    match dbGet kv.sqlStore.rows orgId namespace_ typ with
    | some item =>
      match writeErr with
      | some err => (some err, kv)
      | none =>
        (none,
          { kv with
            sqlStore := { kv.sqlStore with rows := dbDelete kv.sqlStore.rows item.Id },
            decryptionCache := cacheDelete kv.decryptionCache item.Id })
    | none => (none, kv)

/-- Method `secretsKVStoreSQL.Keys`: the keys found and the error;
`AllOrganizations` is the package constant (declared outside the embedded
files), `findErr` the error of the session's `Find`. -/
def secretsKVStoreSQL.Keys (AllOrganizations : Int) (kv : secretsKVStoreSQL)
    (findErr : Option Provisioning.GoError) (orgId : Int) (namespace_ : String)
    (typ : String) : List Key × Option Provisioning.GoError :=
  match findErr with
  | some err => ([], some err)
  | none =>
    (((kv.sqlStore.rows.filter
        (fun r => decide (r.Namespace = namespace_) && decide (r.Typ = typ))).filter
        (fun r => if orgId ≠ AllOrganizations then decide (r.OrgId = orgId) else true)).map
      (fun r => buildKey r.OrgId r.Namespace r.Typ), none)

/-- Method `secretsKVStoreSQL.Rename`: the error and the store afterwards; `now`
is the value of `time.Now()`, `getErr` the error of the session's `Get` and
`writeErr` that of its `Update`. -/
def secretsKVStoreSQL.Rename (kv : secretsKVStoreSQL) (now : Int)
    (getErr writeErr : Option Provisioning.GoError) (orgId : Int) (namespace_ : String)
    (typ : String) (newNamespace : String) : Option Provisioning.GoError × secretsKVStoreSQL :=
  match getErr with
  | some err => (some err, kv)
  | none =>
    match dbGet kv.sqlStore.rows orgId namespace_ typ with
    | some found =>
      let item := { found with Namespace := newNamespace, Updated := now }
      match writeErr with
      | some err => (some err, kv)
      | none =>
        (none,
          { kv with
            sqlStore := { kv.sqlStore with rows := dbUpdate kv.sqlStore.rows item.Id item } })
    | none => (none, kv)

/-- The loop of `GetAll` over the items found: the items with their values
replaced and the cache afterwards. -/
def secretsKVStoreSQL.GetAll.loop (env : SqlEnv) :
    List Item → (Int → Option cachedDecrypted) → List Item × (Int → Option cachedDecrypted)
  | [], cache => ([], cache)
  | item :: rest, cache =>
    match cacheHit cache item with
    | some value =>
      let r := secretsKVStoreSQL.GetAll.loop env rest cache
      ({ item with Value := value } :: r.1, r.2)
    | none =>
      match env.DecodeString item.Value with
      | .error _ =>
        let r := secretsKVStoreSQL.GetAll.loop env rest cache
        ({ item with Value := "" } :: r.1, r.2)
      | .ok decodedValue =>
        match env.Decrypt decodedValue with
        | (decryptedValue, some _) =>
          let r := secretsKVStoreSQL.GetAll.loop env rest cache
          ({ item with Value := decryptedValue } :: r.1, r.2)
        | (decryptedValue, none) =>
          let r := secretsKVStoreSQL.GetAll.loop env rest
            (cacheAssign cache item.Id { updated := item.Updated, value := decryptedValue })
          ({ item with Value := decryptedValue } :: r.1, r.2)

/-- Method `secretsKVStoreSQL.GetAll`: the items and the error, and the store
afterwards; `findErr` is the error of the session's `Find`. -/
def secretsKVStoreSQL.GetAll (env : SqlEnv) (kv : secretsKVStoreSQL)
    (findErr : Option Provisioning.GoError) :
    (List Item × Option Provisioning.GoError) × secretsKVStoreSQL :=
  match kv.GetAllFuncOverride with
  | some r => (r, kv)
  | none =>
    match findErr with
    | some err => (([], some err), kv)
    | none =>
      let r := secretsKVStoreSQL.GetAll.loop env kv.sqlStore.rows kv.decryptionCache
      ((r.1, none), { kv with decryptionCache := r.2 })

/-- A call of one of the five methods that touch the cache, with its arguments,
the clock reading and the database errors it meets. -/
inductive SqlOp where
  | get (dbErr : Option Provisioning.GoError) (orgId : Int) (namespace_ typ : String)
  | set (now : Int) (getErr writeErr : Option Provisioning.GoError) (orgId : Int)
      (namespace_ typ value : String)
  | del (getErr writeErr : Option Provisioning.GoError) (orgId : Int) (namespace_ typ : String)
  | rename (now : Int) (getErr writeErr : Option Provisioning.GoError) (orgId : Int)
      (namespace_ typ newNamespace : String)
  | getAll (findErr : Option Provisioning.GoError)

/-- The store after one call. -/
def secretsKVStoreSQL.apply (env : SqlEnv) (kv : secretsKVStoreSQL) : SqlOp → secretsKVStoreSQL
  | .get dbErr orgId namespace_ typ => (kv.Get env dbErr orgId namespace_ typ).2
  | .set now getErr writeErr orgId namespace_ typ value =>
    (kv.Set env now getErr writeErr orgId namespace_ typ value).2
  | .del getErr writeErr orgId namespace_ typ => (kv.Del getErr writeErr orgId namespace_ typ).2
  | .rename now getErr writeErr orgId namespace_ typ newNamespace =>
    (kv.Rename now getErr writeErr orgId namespace_ typ newNamespace).2
  | .getAll findErr => (kv.GetAll env findErr).2

/-- The store after a sequence of calls. -/
def secretsKVStoreSQL.run (env : SqlEnv) (kv : secretsKVStoreSQL) (ops : List SqlOp) :
    secretsKVStoreSQL :=
  ops.foldl (secretsKVStoreSQL.apply env) kv

/-- What decoding and decrypting a stored value gives, when both succeed. -/
def decryptStored (env : SqlEnv) (value : String) : Option String :=
  match env.DecodeString value with
  | .error _ => none
  | .ok decodedValue =>
    match env.Decrypt decodedValue with
    | (decryptedValue, none) => some decryptedValue
    | (_, some _) => none

/-- Every cache entry belongs to a stored row and holds the decryption of that
row's stored value. -/
def CacheOk (env : SqlEnv) (rows : List Item) (cache : Int → Option cachedDecrypted) : Prop :=
  ∀ id c, cache id = some c →
    ∃ r ∈ rows, r.Id = id ∧ decryptStored env r.Value = some c.value

/-- The identifier column is a key of the table and no identifier exceeds the
last one handed out. -/
def TableOk (t : Table) : Prop :=
  (∀ r ∈ t.rows, r.Id ≤ t.lastId) ∧
  ∀ r ∈ t.rows, ∀ r2 ∈ t.rows, r.Id = r2.Id → r = r2

/-- Coherence of the cache with the table. -/
def Coherent (env : SqlEnv) (kv : secretsKVStoreSQL) : Prop :=
  TableOk kv.sqlStore ∧ CacheOk env kv.sqlStore.rows kv.decryptionCache

/-- Services for evaluation: encryption reverses the bytes, decryption
reverses them back; the encoding puts a mark in front and decoding takes it
off. -/
def exSqlEnv : SqlEnv :=
  { Encrypt := fun v => .ok (String.mk v.data.reverse)
    Decrypt := fun c => (String.mk c.data.reverse, none)
    EncodeToString := fun b => String.mk ('=' :: b.data)
    DecodeString := fun s =>
      match s.data with
      | '=' :: rest => .ok (String.mk rest)
      | _ => .error (.leaf "illegal base64 data") }

/-- A sequence of calls: insert a secret, read it, overwrite it at the same
clock reading, rename it, read all. -/
def exSqlOps : List SqlOp :=
  [.set 10 none none 1 "ns" "t" "secret", .get none 1 "ns" "t",
   .set 10 none none 1 "ns" "t" "other", .rename 10 none none 1 "ns" "t" "ns2",
   .getAll none]

/-- Rows of two organisations under the same namespace and type. -/
def exTable : Table :=
  { rows := [⟨1, 1, "ns", "t", "=a", 0, 0⟩, ⟨2, 2, "ns", "t", "=b", 0, 0⟩,
             ⟨3, 1, "other", "t", "=c", 0, 0⟩],
    lastId := 3 }

end Kvstore

/-!
# Discord notifier (pkg/services/ngalert/notifier/channels/discord.go)

The settings of a notification are a `simplejson.Json`, modelled as in the
public dashboard models.
-/

namespace Channels

/-- The struct `alerting.ValidationError`: the field the constructor sets. -/
structure ValidationError where
  Reason : String
deriving DecidableEq, Repr

/-- The field of `models.AlertNotification` that `NewDiscordNotifier` reads;
`none` is the nil `Settings` pointer. The model itself is taken as set. -/
structure AlertNotification where
  Settings : Option PublicDashboards.Json

/-- The struct `DiscordNotifier`: its three exported string fields. The embedded
`NotifierBase`, the logger and the template do not depend on the settings. -/
structure DiscordNotifier where
  Description : String
  Message : String
  WebhookURL : String
deriving DecidableEq, Repr

/-- The function `NewDiscordNotifier`; the error return is the `Except` error,
the Go zero value fills the unset field `Description`. -/
def NewDiscordNotifier (model : AlertNotification) : Except ValidationError DiscordNotifier :=
  match model.Settings with
  | none => .error { Reason := "No Settings Supplied" }
  | some settings =>
    let discordURL := (settings.Get "url").MustString ""
    if discordURL == "" then
      .error { Reason := "Could not find webhook url property in settings" }
    else
      let message := (settings.Get "message").MustString ""
      .ok { Description := "", Message := message, WebhookURL := discordURL }

/-- Settings holding a webhook url and a message. -/
def exSettings : PublicDashboards.Json :=
  .obj [("url", .str "https://discord.example/hook"), ("message", .str "firing")]

/-- Settings holding a webhook url only. -/
def exSettingsNoMessage : PublicDashboards.Json :=
  .obj [("url", .str "https://discord.example/hook")]

/-- Settings whose url is a number. -/
def exSettingsBadUrl : PublicDashboards.Json :=
  .obj [("url", .number 7), ("message", .str "firing")]

end Channels


namespace Provisioning

/-! ## Theorems -/

/-- C1: when the four stage provisioners succeed on the paths they are given,
`RunInitProvisioners` returns no error and its effects are exactly one call per
stage, in the order data sources, plugins, notifiers, alert rules. -/
theorem C1_run_init_all_succeed (env : Env) (ps : ProvisioningServiceImpl)
    (h1 : ps.provisionDatasources (env.filepathJoin ps.Cfg.ProvisioningPath "datasources") = none)
    (h2 : ps.provisionPlugins (env.filepathJoin ps.Cfg.ProvisioningPath "plugins") = none)
    (h3 : ps.provisionNotifiers (env.filepathJoin ps.Cfg.ProvisioningPath "notifiers") = none)
    (h4 : env.rulesProvision (env.filepathJoin ps.Cfg.ProvisioningPath "alerting") = none) :
    (RunInitProvisioners env ps).ret = none ∧
    (RunInitProvisioners env ps).events =
      [.call .datasources (env.filepathJoin ps.Cfg.ProvisioningPath "datasources"),
       .call .plugins (env.filepathJoin ps.Cfg.ProvisioningPath "plugins"),
       .call .notifiers (env.filepathJoin ps.Cfg.ProvisioningPath "notifiers"),
       .call .alertRules (env.filepathJoin ps.Cfg.ProvisioningPath "alerting")] ∧
    (RunInitProvisioners env ps).events.filterMap (fun e => e.callPath.map Prod.fst) =
      initSequence ∧
    (∀ s ∈ initSequence, callsOf s (RunInitProvisioners env ps).events = 1) ∧
    callsOf .dashboards (RunInitProvisioners env ps).events = 0 := by
  simp [RunInitProvisioners, ProvisionDatasources, ProvisionPlugins, ProvisionNotifications,
    ProvisionAlertRules, h1, h2, h3, h4, initSequence, callsOf, Event.isCallOf,
    Event.callPath]

/-- Witness of C1 on the orchestrator `exPs`. -/
theorem C1_run_init_all_succeed_witness :
    (RunInitProvisioners exEnv exPs).ret = none ∧
    (RunInitProvisioners exEnv exPs).events =
      [.call .datasources "/conf/datasources", .call .plugins "/conf/plugins",
       .call .notifiers "/conf/notifiers", .call .alertRules "/conf/alerting"] :=
  ⟨(C1_run_init_all_succeed exEnv exPs rfl rfl rfl rfl).1,
   (C1_run_init_all_succeed exEnv exPs rfl rfl rfl rfl).2.1⟩

/-- The stage methods leave the receiver as it was and, as run by `runStage`,
always return. -/
theorem runStage_init (env : Env) (ps : ProvisioningServiceImpl) :
    (runStage env ps .datasources).ret = .returned (ProvisionDatasources env ps).ret ∧
    (runStage env ps .plugins).ret = .returned (ProvisionPlugins env ps).ret ∧
    (runStage env ps .notifiers).ret = .returned (ProvisionNotifications env ps).ret ∧
    (runStage env ps .alertRules).ret = .returned (ProvisionAlertRules env ps).ret :=
  ⟨rfl, rfl, rfl, rfl⟩

/-- C2: `RunInitProvisioners` fails fast. Split the stage sequence at any stage
`s`: if every stage before `s` returns no error and `s` returns the error `e`,
then the result is exactly `e`, the effects are those of the stages up to and
including `s` in order, every stage up to `s` was invoked exactly once and no
stage after `s` was invoked. When the failing stage is the plugin stage, the
returned error carries the plugin label in front of the underlying message. -/
theorem C2_run_init_fails_fast (env : Env) (ps : ProvisioningServiceImpl)
    (pre post : List Stage) (s : Stage) (e : GoError)
    (hsplit : initSequence = pre ++ s :: post)
    (hpre : ∀ t ∈ pre, (runStage env ps t).ret = .returned none)
    (hs : (runStage env ps s).ret = .returned (some e)) :
    (RunInitProvisioners env ps).ret = some e ∧
    (RunInitProvisioners env ps).events =
      ((pre ++ [s]).map (fun t => (runStage env ps t).events)).flatten ∧
    (∀ t ∈ pre, callsOf t (RunInitProvisioners env ps).events = 1) ∧
    callsOf s (RunInitProvisioners env ps).events = 1 ∧
    (∀ t ∈ post, callsOf t (RunInitProvisioners env ps).events = 0) ∧
    (s = .plugins →
      ∃ u, ps.provisionPlugins (env.filepathJoin ps.Cfg.ProvisioningPath "plugins") = some u ∧
        e = Errorf "app provisioning error" u ∧
        e.Error = "app provisioning error: " ++ u.Error) := by
  rcases pre with _ | ⟨a, _ | ⟨b, _ | ⟨c, _ | ⟨d, pre⟩⟩⟩⟩ <;>
    simp [initSequence] at hsplit
  · obtain ⟨rfl, rfl⟩ := hsplit
    cases h1 : ps.provisionDatasources (env.filepathJoin ps.Cfg.ProvisioningPath "datasources") <;>
      simp [runStage, ProvisionDatasources, h1] at hs
    subst hs
    simp [runStage, RunInitProvisioners, ProvisionDatasources, h1, callsOf, Event.isCallOf]
  · obtain ⟨rfl, rfl, rfl⟩ := hsplit
    cases h1 : ps.provisionDatasources (env.filepathJoin ps.Cfg.ProvisioningPath "datasources") <;>
      simp [runStage, ProvisionDatasources, h1] at hpre
    cases h2 : ps.provisionPlugins (env.filepathJoin ps.Cfg.ProvisioningPath "plugins") <;>
      simp [runStage, ProvisionPlugins, h2] at hs
    subst hs
    simp [runStage, RunInitProvisioners, ProvisionDatasources, ProvisionPlugins, h1, h2,
      callsOf, Event.isCallOf, Errorf, GoError.Error]
  · obtain ⟨rfl, rfl, rfl, rfl⟩ := hsplit
    cases h1 : ps.provisionDatasources (env.filepathJoin ps.Cfg.ProvisioningPath "datasources") <;>
      cases h2 : ps.provisionPlugins (env.filepathJoin ps.Cfg.ProvisioningPath "plugins") <;>
      simp [runStage, ProvisionDatasources, ProvisionPlugins, h1, h2] at hpre
    cases h3 : ps.provisionNotifiers (env.filepathJoin ps.Cfg.ProvisioningPath "notifiers") <;>
      simp [runStage, ProvisionNotifications, h3] at hs
    subst hs
    simp [runStage, RunInitProvisioners, ProvisionDatasources, ProvisionPlugins,
      ProvisionNotifications, h1, h2, h3, callsOf, Event.isCallOf]
  · obtain ⟨rfl, rfl, rfl, rfl, rfl⟩ := hsplit
    cases h1 : ps.provisionDatasources (env.filepathJoin ps.Cfg.ProvisioningPath "datasources") <;>
      cases h2 : ps.provisionPlugins (env.filepathJoin ps.Cfg.ProvisioningPath "plugins") <;>
      cases h3 : ps.provisionNotifiers (env.filepathJoin ps.Cfg.ProvisioningPath "notifiers") <;>
      simp [runStage, ProvisionDatasources, ProvisionPlugins, ProvisionNotifications,
        h1, h2, h3] at hpre
    simp [runStage, ProvisionAlertRules] at hs
    simp [runStage, RunInitProvisioners, ProvisionDatasources, ProvisionPlugins,
      ProvisionNotifications, ProvisionAlertRules, h1, h2, h3, hs, callsOf, Event.isCallOf]

/-- Witness of C2: the plugin stage of `exPsPluginFails` is the first to fail. -/
theorem C2_run_init_fails_fast_witness :
    (RunInitProvisioners exEnv exPsPluginFails).ret =
      some (.wrapError "app provisioning error: bad plugin file" (.leaf "bad plugin file")) ∧
    callsOf .datasources (RunInitProvisioners exEnv exPsPluginFails).events = 1 ∧
    callsOf .notifiers (RunInitProvisioners exEnv exPsPluginFails).events = 0 ∧
    callsOf .alertRules (RunInitProvisioners exEnv exPsPluginFails).events = 0 :=
  have h := C2_run_init_fails_fast exEnv exPsPluginFails [.datasources]
    [.notifiers, .alertRules] .plugins
    (.wrapError "app provisioning error: bad plugin file" (.leaf "bad plugin file"))
    rfl (by intro t ht; simp only [List.mem_singleton] at ht; subst ht; rfl) rfl
  ⟨h.1, h.2.2.1 .datasources (by simp), h.2.2.2.2.1 .notifiers (by simp),
    h.2.2.2.2.1 .alertRules (by simp)⟩

/-- A wrapper built by `Errorf` is never the error it wraps. -/
theorem Errorf_ne_self (label : String) (e : GoError) : Errorf label e ≠ e := by
  intro h
  have hs := congrArg sizeOf h
  simp [Errorf] at hs

/-- C3, evaluation at the failing input: when `rules.Provision` returns an
error, `ProvisionAlertRules` returns that very error, with no label in front of
its message and no log entry, unlike the four sibling stages. -/
theorem C3_alert_rules_error_not_wrapped :
    exEnvRulesFail.rulesProvision "/conf/alerting" = some (.leaf "bad rule file") ∧
    (ProvisionAlertRules exEnvRulesFail exPs).ret = some (.leaf "bad rule file") ∧
    (∀ label : String, (ProvisionAlertRules exEnvRulesFail exPs).ret ≠
      some (Errorf label (.leaf "bad rule file"))) ∧
    (ProvisionAlertRules exEnvRulesFail exPs).events = [.call .alertRules "/conf/alerting"] ∧
    (ProvisionDatasources exEnv { exPs with provisionDatasources := fun _ => some (.leaf "x") }).ret
      = some (.wrapError "Datasource provisioning error: x" (.leaf "x")) ∧
    (∀ (env : Env) (ps : ProvisioningServiceImpl),
      (ProvisionAlertRules env ps).ret =
        env.rulesProvision (env.filepathJoin ps.Cfg.ProvisioningPath "alerting") ∧
      ∀ msg err, Event.logError msg err ∉ (ProvisionAlertRules env ps).events) := by
  refine ⟨rfl, rfl, ?_, rfl, rfl, fun env ps => ⟨rfl, ?_⟩⟩
  · intro label h
    simp [ProvisionAlertRules, exEnvRulesFail, Errorf] at h
  · intro msg err
    simp [ProvisionAlertRules]

/-- C4: each of `ProvisionDatasources`, `ProvisionPlugins` and
`ProvisionNotifications` returns no error exactly when its injected provisioner
returns none, and when the provisioner returns `e` it returns a wrapper of `e`
whose message is the stage label, a colon and a space, and the message of `e`. -/
theorem C4_stage_error_wrapping (env : Env) (ps : ProvisioningServiceImpl) :
    (((ProvisionDatasources env ps).ret = none ↔
        ps.provisionDatasources (env.filepathJoin ps.Cfg.ProvisioningPath "datasources") = none) ∧
      ∀ e, ps.provisionDatasources (env.filepathJoin ps.Cfg.ProvisioningPath "datasources") = some e →
        ∃ w, (ProvisionDatasources env ps).ret = some w ∧
          w.Error = "Datasource provisioning error: " ++ e.Error ∧ w.Unwrap = some e ∧ w ≠ e) ∧
    (((ProvisionPlugins env ps).ret = none ↔
        ps.provisionPlugins (env.filepathJoin ps.Cfg.ProvisioningPath "plugins") = none) ∧
      ∀ e, ps.provisionPlugins (env.filepathJoin ps.Cfg.ProvisioningPath "plugins") = some e →
        ∃ w, (ProvisionPlugins env ps).ret = some w ∧
          w.Error = "app provisioning error: " ++ e.Error ∧ w.Unwrap = some e ∧ w ≠ e) ∧
    (((ProvisionNotifications env ps).ret = none ↔
        ps.provisionNotifiers (env.filepathJoin ps.Cfg.ProvisioningPath "notifiers") = none) ∧
      ∀ e, ps.provisionNotifiers (env.filepathJoin ps.Cfg.ProvisioningPath "notifiers") = some e →
        ∃ w, (ProvisionNotifications env ps).ret = some w ∧
          w.Error = "Alert notification provisioning error: " ++ e.Error ∧
          w.Unwrap = some e ∧ w ≠ e) := by
  refine ⟨⟨?_, ?_⟩, ⟨?_, ?_⟩, ⟨?_, ?_⟩⟩
  · cases h : ps.provisionDatasources (env.filepathJoin ps.Cfg.ProvisioningPath "datasources") <;>
      simp [ProvisionDatasources, h]
  · intro e h
    exact ⟨Errorf "Datasource provisioning error" e, by simp [ProvisionDatasources, h],
      by simp [Errorf, GoError.Error], by simp [Errorf, GoError.Unwrap], Errorf_ne_self _ _⟩
  · cases h : ps.provisionPlugins (env.filepathJoin ps.Cfg.ProvisioningPath "plugins") <;>
      simp [ProvisionPlugins, h]
  · intro e h
    exact ⟨Errorf "app provisioning error" e, by simp [ProvisionPlugins, h],
      by simp [Errorf, GoError.Error], by simp [Errorf, GoError.Unwrap], Errorf_ne_self _ _⟩
  · cases h : ps.provisionNotifiers (env.filepathJoin ps.Cfg.ProvisioningPath "notifiers") <;>
      simp [ProvisionNotifications, h]
  · intro e h
    exact ⟨Errorf "Alert notification provisioning error" e, by simp [ProvisionNotifications, h],
      by simp [Errorf, GoError.Error], by simp [Errorf, GoError.Unwrap], Errorf_ne_self _ _⟩

/-- Witness of C4: the failing plugin provisioner of `exPsPluginFails`. -/
theorem C4_stage_error_wrapping_witness :
    exPsPluginFails.provisionPlugins (exEnv.filepathJoin exPsPluginFails.Cfg.ProvisioningPath
      "plugins") = some (.leaf "bad plugin file") ∧
    ∃ w, (ProvisionPlugins exEnv exPsPluginFails).ret = some w ∧
      w.Error = "app provisioning error: " ++ (GoError.leaf "bad plugin file").Error ∧
      w.Unwrap = some (.leaf "bad plugin file") ∧ w ≠ .leaf "bad plugin file" :=
  ⟨rfl, (C4_stage_error_wrapping exEnv exPsPluginFails).2.1.2 (.leaf "bad plugin file") rfl⟩

/-- Unfolding of `ProvisionDashboards` when the factory returns an error. -/
theorem ProvisionDashboards_factory_error (env : Env) (ps : ProvisioningServiceImpl)
    (d : Option DashboardProvisioner) (e : GoError)
    (h : ps.newDashboardProvisioner (env.filepathJoin ps.Cfg.ProvisioningPath "dashboards") =
      (d, some e)) :
    ProvisionDashboards env ps =
      ⟨.returned (some (Errorf "Failed to create provisioner" e)), ps,
        [.call .dashboards (env.filepathJoin ps.Cfg.ProvisioningPath "dashboards")]⟩ := by
  simp [ProvisionDashboards, h]

/-- Unfolding of `ProvisionDashboards` when the factory succeeds and the mutex is
held by someone else. -/
theorem ProvisionDashboards_blocked (env : Env) (ps : ProvisioningServiceImpl)
    (d : Option DashboardProvisioner)
    (h : ps.newDashboardProvisioner (env.filepathJoin ps.Cfg.ProvisioningPath "dashboards") =
      (d, none))
    (hm : ps.mutex = true) :
    ProvisionDashboards env ps =
      ⟨.blocked, ps, [.call .dashboards (env.filepathJoin ps.Cfg.ProvisioningPath "dashboards")]⟩ := by
  simp [ProvisionDashboards, h, hm]

/-- Unfolding of `ProvisionDashboards` when the factory returns a nil instance
and a nil error. -/
theorem ProvisionDashboards_nil_instance (env : Env) (ps : ProvisioningServiceImpl)
    (h : ps.newDashboardProvisioner (env.filepathJoin ps.Cfg.ProvisioningPath "dashboards") =
      (none, none))
    (hm : ps.mutex = false) :
    ProvisionDashboards env ps =
      ⟨.panicked, { (cancelPolling { ps with mutex := true }).ps with mutex := false },
        [.call .dashboards (env.filepathJoin ps.Cfg.ProvisioningPath "dashboards"), .mutexLock] ++
          (cancelPolling { ps with mutex := true }).events ++ [.mutexUnlock]⟩ := by
  simp [ProvisionDashboards, h, hm]

/-- Unfolding of `ProvisionDashboards` when `Provision` fails on the new
instance. -/
theorem ProvisionDashboards_provision_error (env : Env) (ps : ProvisioningServiceImpl)
    (d : DashboardProvisioner) (e : GoError)
    (h : ps.newDashboardProvisioner (env.filepathJoin ps.Cfg.ProvisioningPath "dashboards") =
      (some d, none))
    (hm : ps.mutex = false) (hp : d.Provision = some e) :
    ProvisionDashboards env ps =
      ⟨.returned (some (Errorf "Failed to provision dashboards" e)),
        { (cancelPolling { ps with mutex := true }).ps with mutex := false },
        [.call .dashboards (env.filepathJoin ps.Cfg.ProvisioningPath "dashboards"), .mutexLock] ++
          (cancelPolling { ps with mutex := true }).events ++
          [.cleanUpOrphanedDashboards d.id, .provision d.id, .mutexUnlock]⟩ := by
  simp [ProvisionDashboards, h, hm, hp]

/-- Unfolding of `ProvisionDashboards` when `Provision` succeeds on the new
instance. -/
theorem ProvisionDashboards_success (env : Env) (ps : ProvisioningServiceImpl)
    (d : DashboardProvisioner)
    (h : ps.newDashboardProvisioner (env.filepathJoin ps.Cfg.ProvisioningPath "dashboards") =
      (some d, none))
    (hm : ps.mutex = false) (hp : d.Provision = none) :
    ProvisionDashboards env ps =
      ⟨.returned none,
        { (cancelPolling { ps with mutex := true }).ps with
          dashboardProvisioner := some d, mutex := false },
        [.call .dashboards (env.filepathJoin ps.Cfg.ProvisioningPath "dashboards"), .mutexLock] ++
          (cancelPolling { ps with mutex := true }).events ++
          [.cleanUpOrphanedDashboards d.id, .provision d.id, .mutexUnlock]⟩ := by
  simp [ProvisionDashboards, h, hm, hp]

/-- The effects of `cancelPolling` contain no provisioner call. -/
theorem cancelPolling_callPath (ps : ProvisioningServiceImpl) :
    (cancelPolling ps).events.filterMap Event.callPath = [] := by
  unfold cancelPolling
  cases ps.pollingCtxCancel <;> simp [Event.callPath]

/-- Whatever the factory returns and whoever holds the mutex, the only
provisioner call of `ProvisionDashboards` is the factory call on the joined
path. -/
theorem ProvisionDashboards_callPath (env : Env) (ps : ProvisioningServiceImpl) :
    (ProvisionDashboards env ps).events.filterMap Event.callPath =
      [(.dashboards, env.filepathJoin ps.Cfg.ProvisioningPath "dashboards")] := by
  rcases h : ps.newDashboardProvisioner
      (env.filepathJoin ps.Cfg.ProvisioningPath "dashboards") with ⟨d, _ | e⟩
  · cases hm : ps.mutex
    · rcases d with _ | d
      · rw [ProvisionDashboards_nil_instance env ps h hm]
        simp [cancelPolling_callPath, Event.callPath]
      · cases hp : d.Provision
        · rw [ProvisionDashboards_success env ps d h hm hp]
          simp [cancelPolling_callPath, Event.callPath]
        · rw [ProvisionDashboards_provision_error env ps d _ h hm hp]
          simp [cancelPolling_callPath, Event.callPath]
    · rw [ProvisionDashboards_blocked env ps d h hm]
      simp [Event.callPath]
  · rw [ProvisionDashboards_factory_error env ps d e h]
    simp [Event.callPath]

/-- C5: each stage calls its provisioner exactly once, on the base path joined
with its own subdirectory name (the factory, for dashboards), and the result of
the stage is computed from the provisioner result on that path. The five names
are pairwise distinct, so whenever the join keeps distinct names apart no stage
receives the path of another stage. -/
theorem C5_stage_paths (env : Env) (ps : ProvisioningServiceImpl) :
    ((ProvisionDatasources env ps).events.filterMap Event.callPath =
        [(.datasources, env.filepathJoin ps.Cfg.ProvisioningPath "datasources")] ∧
      (ProvisionPlugins env ps).events.filterMap Event.callPath =
        [(.plugins, env.filepathJoin ps.Cfg.ProvisioningPath "plugins")] ∧
      (ProvisionNotifications env ps).events.filterMap Event.callPath =
        [(.notifiers, env.filepathJoin ps.Cfg.ProvisioningPath "notifiers")] ∧
      (ProvisionAlertRules env ps).events.filterMap Event.callPath =
        [(.alertRules, env.filepathJoin ps.Cfg.ProvisioningPath "alerting")] ∧
      (ProvisionDashboards env ps).events.filterMap Event.callPath =
        [(.dashboards, env.filepathJoin ps.Cfg.ProvisioningPath "dashboards")]) ∧
    ((ProvisionDatasources env ps).ret =
        (ps.provisionDatasources (env.filepathJoin ps.Cfg.ProvisioningPath "datasources")).map
          (Errorf "Datasource provisioning error") ∧
      (ProvisionPlugins env ps).ret =
        (ps.provisionPlugins (env.filepathJoin ps.Cfg.ProvisioningPath "plugins")).map
          (Errorf "app provisioning error") ∧
      (ProvisionNotifications env ps).ret =
        (ps.provisionNotifiers (env.filepathJoin ps.Cfg.ProvisioningPath "notifiers")).map
          (Errorf "Alert notification provisioning error") ∧
      (ProvisionAlertRules env ps).ret =
        env.rulesProvision (env.filepathJoin ps.Cfg.ProvisioningPath "alerting")) ∧
    ["datasources", "plugins", "notifiers", "alerting", "dashboards"].Nodup ∧
    ((∀ a ∈ ["datasources", "plugins", "notifiers", "alerting", "dashboards"],
        ∀ b ∈ ["datasources", "plugins", "notifiers", "alerting", "dashboards"],
        env.filepathJoin ps.Cfg.ProvisioningPath a = env.filepathJoin ps.Cfg.ProvisioningPath b →
          a = b) →
      (["datasources", "plugins", "notifiers", "alerting", "dashboards"].map
        (env.filepathJoin ps.Cfg.ProvisioningPath)).Nodup) := by
  refine ⟨⟨?_, ?_, ?_, ?_, ProvisionDashboards_callPath env ps⟩, ⟨?_, ?_, ?_, rfl⟩, ?_, ?_⟩
  · cases h : ps.provisionDatasources (env.filepathJoin ps.Cfg.ProvisioningPath "datasources") <;>
      simp [ProvisionDatasources, h, Event.callPath]
  · cases h : ps.provisionPlugins (env.filepathJoin ps.Cfg.ProvisioningPath "plugins") <;>
      simp [ProvisionPlugins, h, Event.callPath]
  · cases h : ps.provisionNotifiers (env.filepathJoin ps.Cfg.ProvisioningPath "notifiers") <;>
      simp [ProvisionNotifications, h, Event.callPath]
  · simp [ProvisionAlertRules, Event.callPath]
  · cases h : ps.provisionDatasources (env.filepathJoin ps.Cfg.ProvisioningPath "datasources") <;>
      simp [ProvisionDatasources, h]
  · cases h : ps.provisionPlugins (env.filepathJoin ps.Cfg.ProvisioningPath "plugins") <;>
      simp [ProvisionPlugins, h]
  · cases h : ps.provisionNotifiers (env.filepathJoin ps.Cfg.ProvisioningPath "notifiers") <;>
      simp [ProvisionNotifications, h]
  · decide
  · intro hinj
    exact List.Nodup.map_on (fun a ha b hb hab => hinj a ha b hb hab) (by decide)

/-- Witness of C5: with the slash join of `exEnv` the five paths received under
the base path of `exPs` are pairwise distinct. -/
theorem C5_stage_paths_witness :
    (["datasources", "plugins", "notifiers", "alerting", "dashboards"].map
      (exEnv.filepathJoin exPs.Cfg.ProvisioningPath)).Nodup :=
  (C5_stage_paths exEnv exPs).2.2.2 (by
    intro a ha b hb hab
    have h : ("/conf" ++ "/") ++ a = ("/conf" ++ "/") ++ b := hab
    have h2 := congrArg String.data h
    simp only [String.data_append] at h2
    exact String.ext (List.append_cancel_left h2))

/-- The receiver after `cancelPolling` differs from the one before at most in the
polling-cancel slot, which is empty. -/
theorem cancelPolling_ps (ps : ProvisioningServiceImpl) :
    (cancelPolling ps).ps = { ps with pollingCtxCancel := none } := by
  unfold cancelPolling
  cases ps.pollingCtxCancel <;> rfl

/-- Every way a `ProvisionDashboards` call can return an error: the factory
failed, or the factory built an instance, the mutex was free and `Provision`
failed on the new instance. -/
theorem ProvisionDashboards_error_cases (env : Env) (ps : ProvisioningServiceImpl)
    (e : GoError) (hfail : (ProvisionDashboards env ps).ret = .returned (some e)) :
    (∃ d u, ps.newDashboardProvisioner
        (env.filepathJoin ps.Cfg.ProvisioningPath "dashboards") = (d, some u) ∧
      e = Errorf "Failed to create provisioner" u) ∨
    (∃ d u, ps.newDashboardProvisioner
        (env.filepathJoin ps.Cfg.ProvisioningPath "dashboards") = (some d, none) ∧
      ps.mutex = false ∧ d.Provision = some u ∧
      e = Errorf "Failed to provision dashboards" u) := by
  rcases h : ps.newDashboardProvisioner
      (env.filepathJoin ps.Cfg.ProvisioningPath "dashboards") with ⟨d, _ | u⟩
  · right
    cases hm : ps.mutex
    · rcases d with _ | d
      · rw [ProvisionDashboards_nil_instance env ps h hm] at hfail
        simp at hfail
      · cases hp : d.Provision
        · rw [ProvisionDashboards_success env ps d h hm hp] at hfail
          simp at hfail
        · rw [ProvisionDashboards_provision_error env ps d _ h hm hp] at hfail
          simp at hfail
          exact ⟨d, _, rfl, rfl, hp, hfail.symm⟩
    · rw [ProvisionDashboards_blocked env ps d h hm] at hfail
      simp at hfail
  · left
    rw [ProvisionDashboards_factory_error env ps d u h] at hfail
    simp at hfail
    exact ⟨d, u, rfl, hfail.symm⟩

/-- C6: when the dashboard provisioner factory fails with `e`,
`ProvisionDashboards` returns `e` wrapped under the label "Failed to create
provisioner" and leaves the orchestrator as it was: same receiver (so the same
installed provisioner), no lock taken, and no cancel, orphan cleanup or
`Provision` call on any instance. This holds whoever holds the mutex. -/
theorem C6_factory_failure_untouched (env : Env) (ps : ProvisioningServiceImpl)
    (d : Option DashboardProvisioner) (e : GoError)
    (h : ps.newDashboardProvisioner (env.filepathJoin ps.Cfg.ProvisioningPath "dashboards") =
      (d, some e)) :
    (∃ w, (ProvisionDashboards env ps).ret = .returned (some w) ∧
      w.Error = "Failed to create provisioner: " ++ e.Error ∧ w.Unwrap = some e) ∧
    (ProvisionDashboards env ps).ps = ps ∧
    (ProvisionDashboards env ps).ps.dashboardProvisioner = ps.dashboardProvisioner ∧
    Event.mutexLock ∉ (ProvisionDashboards env ps).events ∧
    (∀ c, Event.cancel c ∉ (ProvisionDashboards env ps).events) ∧
    (∀ id, Event.cleanUpOrphanedDashboards id ∉ (ProvisionDashboards env ps).events ∧
      Event.provision id ∉ (ProvisionDashboards env ps).events) := by
  rw [ProvisionDashboards_factory_error env ps d e h]
  simp [Errorf, GoError.Error, GoError.Unwrap]

/-- Witness of C6: the failing factory of `exPsFactoryFails`. -/
theorem C6_factory_failure_untouched_witness :
    (ProvisionDashboards exEnv exPsFactoryFails).ps = exPsFactoryFails ∧
    Event.mutexLock ∉ (ProvisionDashboards exEnv exPsFactoryFails).events :=
  ⟨(C6_factory_failure_untouched exEnv exPsFactoryFails none (.leaf "bad config") rfl).2.1,
   (C6_factory_failure_untouched exEnv exPsFactoryFails none (.leaf "bad config") rfl).2.2.2.1⟩

/-- C7: reversible reconfiguration. With `v1` installed, a `ProvisionDashboards`
call that returns an error (the factory failed, or `Provision` failed on the new
instance; there is no other way) leaves `v1` installed, so both queries answer
from `v1` for every name, exactly as before the call. -/
theorem C7_failed_reconfiguration_keeps_v1 (env : Env) (ps : ProvisioningServiceImpl)
    (v1 : DashboardProvisioner) (e : GoError)
    (hv1 : ps.dashboardProvisioner = some v1)
    (hfail : (ProvisionDashboards env ps).ret = .returned (some e)) :
    (ProvisionDashboards env ps).ps.dashboardProvisioner = some v1 ∧
    (∀ name,
      GetDashboardProvisionerResolvedPath (ProvisionDashboards env ps).ps name =
        some (v1.GetProvisionerResolvedPath name) ∧
      GetDashboardProvisionerResolvedPath (ProvisionDashboards env ps).ps name =
        GetDashboardProvisionerResolvedPath ps name ∧
      GetAllowUIUpdatesFromConfig (ProvisionDashboards env ps).ps name =
        some (v1.GetAllowUIUpdatesFromConfig name) ∧
      GetAllowUIUpdatesFromConfig (ProvisionDashboards env ps).ps name =
        GetAllowUIUpdatesFromConfig ps name) := by
  have hkeep : (ProvisionDashboards env ps).ps.dashboardProvisioner = some v1 := by
    rcases ProvisionDashboards_error_cases env ps e hfail with
      ⟨d, u, h, _⟩ | ⟨d, u, h, hm, hp, _⟩
    · rw [ProvisionDashboards_factory_error env ps d u h]
      exact hv1
    · rw [ProvisionDashboards_provision_error env ps d u h hm hp, cancelPolling_ps]
      exact hv1
  refine ⟨hkeep, fun name => ?_⟩
  simp [GetDashboardProvisionerResolvedPath, GetAllowUIUpdatesFromConfig, hkeep, hv1]

/-- Witness of C7: `Provision` fails on the instance built for
`exPsProvisionFails`, and `exV1` stays installed. -/
theorem C7_failed_reconfiguration_keeps_v1_witness :
    (ProvisionDashboards exEnv exPsProvisionFails).ret =
      .returned (some (.wrapError "Failed to provision dashboards: disk full"
        (.leaf "disk full"))) ∧
    GetDashboardProvisionerResolvedPath (ProvisionDashboards exEnv exPsProvisionFails).ps
      "general" = some "/v1/general" :=
  ⟨rfl, ((C7_failed_reconfiguration_keeps_v1 exEnv exPsProvisionFails exV1
    (.wrapError "Failed to provision dashboards: disk full" (.leaf "disk full"))
    rfl rfl).2 "general").1⟩

/-- C8: when the factory builds `v2`, `Provision` succeeds on `v2` and the call
finds the mutex free, `ProvisionDashboards` returns no error and `v2` is the
installed provisioner afterwards, whatever was installed before (nothing
included); both queries then answer from `v2` for every name. -/
theorem C8_success_installs_v2 (env : Env) (ps : ProvisioningServiceImpl)
    (v2 : DashboardProvisioner)
    (hfac : ps.newDashboardProvisioner (env.filepathJoin ps.Cfg.ProvisioningPath "dashboards") =
      (some v2, none))
    (hprov : v2.Provision = none) (hfree : ps.mutex = false) :
    (ProvisionDashboards env ps).ret = .returned none ∧
    (ProvisionDashboards env ps).ps.dashboardProvisioner = some v2 ∧
    (∀ name,
      GetDashboardProvisionerResolvedPath (ProvisionDashboards env ps).ps name =
        some (v2.GetProvisionerResolvedPath name) ∧
      GetAllowUIUpdatesFromConfig (ProvisionDashboards env ps).ps name =
        some (v2.GetAllowUIUpdatesFromConfig name)) := by
  rw [ProvisionDashboards_success env ps v2 hfac hfree hprov]
  simp [GetDashboardProvisionerResolvedPath, GetAllowUIUpdatesFromConfig]

/-- Witness of C8: `exPs` installs `exV2` over `exV1`, and the same orchestrator
with nothing installed installs `exV2` as well. -/
theorem C8_success_installs_v2_witness :
    GetDashboardProvisionerResolvedPath (ProvisionDashboards exEnv exPs).ps "general" =
      some "/v2/general" ∧
    GetAllowUIUpdatesFromConfig
      (ProvisionDashboards exEnv { exPs with dashboardProvisioner := none }).ps "general" =
      some true :=
  ⟨((C8_success_installs_v2 exEnv exPs exV2 rfl rfl rfl).2.2 "general").1,
   ((C8_success_installs_v2 exEnv { exPs with dashboardProvisioner := none } exV2
      rfl rfl rfl).2.2 "general").2⟩

/-- The cancel functions invoked by `cancelPolling`: the recorded one, if any. -/
theorem cancelPolling_cancelled (ps : ProvisioningServiceImpl) :
    cancelled (cancelPolling ps).events = ps.pollingCtxCancel.toList := by
  unfold cancelPolling
  cases ps.pollingCtxCancel <;> simp [cancelled, Event.cancelled]

/-- C9, counterexample: the factory of `exPsFactoryFails` fails while the
cancel function of context 7 is recorded; the call returns an error, yet that
function has not been invoked and is still recorded. -/
theorem C9_factory_failure_does_not_cancel :
    exPsFactoryFails.pollingCtxCancel = some ⟨7⟩ ∧
    (ProvisionDashboards exEnv exPsFactoryFails).ret =
      .returned (some (.wrapError "Failed to create provisioner: bad config"
        (.leaf "bad config"))) ∧
    cancelsOf ⟨7⟩ (ProvisionDashboards exEnv exPsFactoryFails).events = 0 ∧
    (ProvisionDashboards exEnv exPsFactoryFails).events = [.call .dashboards "/conf/dashboards"] ∧
    (ProvisionDashboards exEnv exPsFactoryFails).ps.pollingCtxCancel = some ⟨7⟩ :=
  ⟨rfl, rfl, by decide, rfl, rfl⟩

/-- C9, amended statement: with a cancel function `c` recorded, a `ProvisionDashboards`
call that returns an error after the factory succeeded (so `Provision` failed on
the new instance) has invoked `c` exactly once and left the slot empty; a call
whose factory failed has not invoked `c` and leaves it recorded. -/
theorem C9_cancel_on_failed_provision (env : Env) (ps : ProvisioningServiceImpl)
    (c : CancelFunc) (e : GoError)
    (hc : ps.pollingCtxCancel = some c)
    (hfail : (ProvisionDashboards env ps).ret = .returned (some e)) :
    ((ps.newDashboardProvisioner
        (env.filepathJoin ps.Cfg.ProvisioningPath "dashboards")).2 = none →
      cancelled (ProvisionDashboards env ps).events = [c] ∧
      cancelsOf c (ProvisionDashboards env ps).events = 1 ∧
      (ProvisionDashboards env ps).ps.pollingCtxCancel = none) ∧
    ((ps.newDashboardProvisioner
        (env.filepathJoin ps.Cfg.ProvisioningPath "dashboards")).2 ≠ none →
      cancelsOf c (ProvisionDashboards env ps).events = 0 ∧
      (ProvisionDashboards env ps).ps.pollingCtxCancel = some c) := by
  rcases ProvisionDashboards_error_cases env ps e hfail with
    ⟨d, u, h, _⟩ | ⟨d, u, h, hm, hp, _⟩
  · rw [ProvisionDashboards_factory_error env ps d u h]
    simp [h, hc, cancelsOf, cancelled, Event.cancelled]
  · rw [ProvisionDashboards_provision_error env ps d u h hm hp, cancelPolling_ps]
    have hcp := cancelPolling_cancelled { ps with mutex := true }
    simp only [cancelled, hc, Option.toList] at hcp
    simp [h, hc, cancelsOf, cancelled, List.filterMap_append, hcp, Event.cancelled]

/-- Witness of C9, amended statement: `Provision` fails on the instance built for
`exPsProvisionFails`; the recorded function of context 7 is invoked once. -/
theorem C9_cancel_on_failed_provision_witness :
    cancelsOf ⟨7⟩ (ProvisionDashboards exEnv exPsProvisionFails).events = 1 ∧
    (ProvisionDashboards exEnv exPsProvisionFails).ps.pollingCtxCancel = none :=
  ((C9_cancel_on_failed_provision exEnv exPsProvisionFails ⟨7⟩
    (.wrapError "Failed to provision dashboards: disk full" (.leaf "disk full"))
    rfl rfl).1 rfl).2

/-- The four stage methods and `RunInitProvisioners` leave the receiver as it
was and invoke no cancel function. -/
theorem stages_ps_cancelled (env : Env) (ps : ProvisioningServiceImpl) :
    ((ProvisionDatasources env ps).ps = ps ∧
      cancelled (ProvisionDatasources env ps).events = []) ∧
    ((ProvisionPlugins env ps).ps = ps ∧ cancelled (ProvisionPlugins env ps).events = []) ∧
    ((ProvisionNotifications env ps).ps = ps ∧
      cancelled (ProvisionNotifications env ps).events = []) ∧
    ((ProvisionAlertRules env ps).ps = ps ∧
      cancelled (ProvisionAlertRules env ps).events = []) := by
  refine ⟨?_, ?_, ?_, ?_⟩
  · cases h : ps.provisionDatasources (env.filepathJoin ps.Cfg.ProvisioningPath "datasources") <;>
      simp [ProvisionDatasources, h, cancelled, Event.cancelled]
  · cases h : ps.provisionPlugins (env.filepathJoin ps.Cfg.ProvisioningPath "plugins") <;>
      simp [ProvisionPlugins, h, cancelled, Event.cancelled]
  · cases h : ps.provisionNotifiers (env.filepathJoin ps.Cfg.ProvisioningPath "notifiers") <;>
      simp [ProvisionNotifications, h, cancelled, Event.cancelled]
  · simp [ProvisionAlertRules, cancelled, Event.cancelled]

/-- The cancel functions invoked in a concatenation of traces. -/
theorem cancelled_append (xs ys : List Event) :
    cancelled (xs ++ ys) = cancelled xs ++ cancelled ys := by
  simp [cancelled, List.filterMap_append]

/-- `RunInitProvisioners` leaves the receiver as it was and invokes no cancel
function. -/
theorem RunInitProvisioners_ps_cancelled (env : Env) (ps : ProvisioningServiceImpl) :
    (RunInitProvisioners env ps).ps = ps ∧
    cancelled (RunInitProvisioners env ps).events = [] := by
  obtain ⟨⟨p1, c1⟩, ⟨p2, c2⟩, ⟨p3, c3⟩, ⟨p4, c4⟩⟩ := stages_ps_cancelled env ps
  unfold RunInitProvisioners
  simp only [p1, p2, p3, p4]
  cases (ProvisionDatasources env ps).ret <;>
    cases (ProvisionPlugins env ps).ret <;>
    cases (ProvisionNotifications env ps).ret <;>
    cases (ProvisionAlertRules env ps).ret <;>
    simp [cancelled_append, c1, c2, c3, c4, p1, p2, p3, p4]

/-- What `ProvisionDashboards` does to the polling-cancel slot: either it leaves
the slot alone and invokes nothing, or it invokes exactly the recorded function
(if any) and leaves the slot empty. -/
theorem ProvisionDashboards_slot (env : Env) (ps : ProvisioningServiceImpl) :
    ((ProvisionDashboards env ps).ps.pollingCtxCancel = ps.pollingCtxCancel ∧
      cancelled (ProvisionDashboards env ps).events = []) ∨
    ((ProvisionDashboards env ps).ps.pollingCtxCancel = none ∧
      cancelled (ProvisionDashboards env ps).events = ps.pollingCtxCancel.toList) := by
  have hcp : List.filterMap Event.cancelled (cancelPolling { ps with mutex := true }).events =
      ps.pollingCtxCancel.toList := cancelPolling_cancelled { ps with mutex := true }
  rcases h : ps.newDashboardProvisioner
      (env.filepathJoin ps.Cfg.ProvisioningPath "dashboards") with ⟨d, _ | e⟩
  · cases hm : ps.mutex
    · right
      rcases d with _ | d
      · rw [ProvisionDashboards_nil_instance env ps h hm, cancelPolling_ps]
        simp [cancelled, List.filterMap_append, hcp, Event.cancelled]
      · cases hp : d.Provision
        · rw [ProvisionDashboards_success env ps d h hm hp, cancelPolling_ps]
          simp [cancelled, List.filterMap_append, hcp, Event.cancelled]
        · rw [ProvisionDashboards_provision_error env ps d _ h hm hp, cancelPolling_ps]
          simp [cancelled, List.filterMap_append, hcp, Event.cancelled]
    · left
      rw [ProvisionDashboards_blocked env ps d h hm]
      simp [cancelled, Event.cancelled]
  · left
    rw [ProvisionDashboards_factory_error env ps d e h]
    simp [cancelled, Event.cancelled]

/-- What one call does to the cancel bookkeeping: it appends effects and either
(a) leaves the slot alone and invokes nothing, or (b) invokes exactly the
recorded function and empties the slot, or (c) records the cancel function of a
context created by this call and invokes nothing. -/
theorem World.apply_effect (env : Env) (w : World) (op : Op) :
    ∃ evs, (w.apply env op).events = w.events ++ evs ∧
      (((w.apply env op).ps.pollingCtxCancel = w.ps.pollingCtxCancel ∧
          cancelled evs = [] ∧ (w.apply env op).nextCtx = w.nextCtx) ∨
        ((w.apply env op).ps.pollingCtxCancel = none ∧
          cancelled evs = w.ps.pollingCtxCancel.toList ∧
          (w.apply env op).nextCtx = w.nextCtx) ∨
        ((w.apply env op).ps.pollingCtxCancel = some ⟨w.nextCtx⟩ ∧
          cancelled evs = [] ∧ (w.apply env op).nextCtx = w.nextCtx + 1)) := by
  obtain ⟨⟨p1, c1⟩, ⟨p2, c2⟩, ⟨p3, c3⟩, ⟨p4, c4⟩⟩ := stages_ps_cancelled env w.ps
  obtain ⟨p0, c0⟩ := RunInitProvisioners_ps_cancelled env w.ps
  cases op
  · exact ⟨_, rfl, Or.inl ⟨by simp [World.apply, p0], c0, rfl⟩⟩
  · exact ⟨_, rfl, Or.inl ⟨by simp [World.apply, p1], c1, rfl⟩⟩
  · exact ⟨_, rfl, Or.inl ⟨by simp [World.apply, p2], c2, rfl⟩⟩
  · exact ⟨_, rfl, Or.inl ⟨by simp [World.apply, p3], c3, rfl⟩⟩
  · exact ⟨_, rfl, Or.inl ⟨by simp [World.apply, p4], c4, rfl⟩⟩
  · refine ⟨_, rfl, ?_⟩
    rcases ProvisionDashboards_slot env w.ps with ⟨hs, hc⟩ | ⟨hs, hc⟩
    · exact Or.inl ⟨hs, hc, rfl⟩
    · exact Or.inr (Or.inl ⟨hs, hc, rfl⟩)
  · refine ⟨_, rfl, Or.inr (Or.inl ⟨?_, cancelPolling_cancelled w.ps, rfl⟩)⟩
    simp [World.apply, cancelPolling_ps]
  · refine ⟨(runPollingSetup w.ps w.nextCtx).events, rfl, ?_⟩
    cases hm : w.ps.mutex
    · right; right
      cases hd : w.ps.dashboardProvisioner <;>
        simp [World.apply, runPollingSetup, hm, hd, cancelled, Event.cancelled]
    · left
      simp [World.apply, runPollingSetup, hm, cancelled]

/-- One call preserves the cancel bookkeeping. -/
theorem World.CancelInv_apply (env : Env) (w : World) (op : Op) (hw : w.CancelInv) :
    (w.apply env op).CancelInv := by
  obtain ⟨hnd, hlt, hslot⟩ := hw
  obtain ⟨evs, hev, hcase⟩ := World.apply_effect env w op
  unfold World.CancelInv
  rw [hev, cancelled_append]
  rcases hcase with ⟨hs, hc, hn⟩ | ⟨hs, hc, hn⟩ | ⟨hs, hc, hn⟩
  · rw [hs, hc, hn, List.append_nil]
    exact ⟨hnd, hlt, hslot⟩
  · rw [hs, hc, hn]
    cases hcur : w.ps.pollingCtxCancel with
    | none => simpa using ⟨hnd, hlt⟩
    | some c =>
      obtain ⟨hclt, hcnot⟩ := hslot c hcur
      refine ⟨?_, ?_, by simp⟩
      · simpa [List.nodup_append] using ⟨hnd, hcnot⟩
      · intro x hx
        simp at hx
        rcases hx with hx | hx
        · exact hlt x hx
        · exact hx ▸ hclt
  · rw [hs, hc, hn, List.append_nil]
    refine ⟨hnd, fun c hc => Nat.lt_succ_of_lt (hlt c hc), ?_⟩
    intro c hc
    simp at hc
    subst hc
    exact ⟨Nat.lt_succ_self _, fun hmem => Nat.lt_irrefl _ (hlt _ hmem)⟩

/-- Every sequence of calls preserves the cancel bookkeeping. -/
theorem World.CancelInv_run (env : Env) (ops : List Op) :
    ∀ w : World, w.CancelInv → (w.run env ops).CancelInv := by
  induction ops with
  | nil => intro w hw; exact hw
  | cons op ops ih =>
    intro w hw
    exact ih (w.apply env op) (World.CancelInv_apply env w op hw)

/-- Called on its own, `cancelPolling` does nothing on an empty slot (same
receiver, no effect); on a recorded function it invokes that function exactly
once and empties the slot; a second call right after the first changes nothing
and has no effect; and over every sequence of calls performed one after the
other, started with the recorded function (if any) belonging to a context
created earlier, no cancel function is invoked more than once. -/
theorem cancelPolling_idempotent_sequential (env : Env) (ps : ProvisioningServiceImpl) :
    (ps.pollingCtxCancel = none →
      (cancelPolling ps).ps = ps ∧ (cancelPolling ps).events = []) ∧
    (∀ c, ps.pollingCtxCancel = some c →
      (cancelPolling ps).ps = { ps with pollingCtxCancel := none } ∧
      cancelled (cancelPolling ps).events = [c] ∧
      cancelsOf c (cancelPolling ps).events = 1) ∧
    (cancelPolling ps).ps.pollingCtxCancel = none ∧
    (cancelPolling (cancelPolling ps).ps).ps = (cancelPolling ps).ps ∧
    (cancelPolling (cancelPolling ps).ps).events = [] ∧
    (∀ (n : Nat) (ops : List Op) (c : CancelFunc),
      (∀ c0, ps.pollingCtxCancel = some c0 → c0.ctx < n) →
      cancelsOf c (World.run env ⟨ps, n, []⟩ ops).events ≤ 1) := by
  refine ⟨?_, ?_, ?_, ?_, ?_, ?_⟩
  · intro h
    rcases ps with ⟨a, b, c, d, e, f, g, h2, i⟩
    simp only at h
    subst h
    exact ⟨rfl, rfl⟩
  · intro c h
    refine ⟨cancelPolling_ps ps, ?_, ?_⟩
    · rw [cancelPolling_cancelled, h]; rfl
    · rw [cancelsOf, cancelPolling_cancelled, h]; simp
  · rw [cancelPolling_ps]
  · rw [cancelPolling_ps, cancelPolling_ps]
  · rw [cancelPolling_ps]; rfl
  · intro n ops c hfresh
    have hinv : (World.run env ⟨ps, n, []⟩ ops).CancelInv := by
      apply World.CancelInv_run
      exact ⟨by simp [cancelled], by simp [cancelled],
        fun c0 h0 => ⟨hfresh c0 h0, by simp [cancelled]⟩⟩
    exact List.nodup_iff_count_le_one.mp hinv.1 c

/-- The locked head of the loop in `Run` leaves the installed provisioner as it
was. -/
theorem runPollingSetup_installed (ps : ProvisioningServiceImpl) (n : Nat) :
    (runPollingSetup ps n).ps.dashboardProvisioner = ps.dashboardProvisioner := by
  cases hm : ps.mutex <;> cases hd : ps.dashboardProvisioner <;>
    simp [runPollingSetup, hm, hd]

/-- A `ProvisionDashboards` call that does not return nil leaves the installed
provisioner as it was; one that returns nil installs a new instance. -/
theorem ProvisionDashboards_installed (env : Env) (ps : ProvisioningServiceImpl) :
    ((ProvisionDashboards env ps).ret ≠ .returned none →
      (ProvisionDashboards env ps).ps.dashboardProvisioner = ps.dashboardProvisioner) ∧
    ((ProvisionDashboards env ps).ret = .returned none →
      ∃ d, ps.newDashboardProvisioner
          (env.filepathJoin ps.Cfg.ProvisioningPath "dashboards") = (some d, none) ∧
        d.Provision = none ∧ ps.mutex = false ∧
        (ProvisionDashboards env ps).ps.dashboardProvisioner = some d ∧
        (ProvisionDashboards env ps).ps.mutex = false) := by
  rcases h : ps.newDashboardProvisioner
      (env.filepathJoin ps.Cfg.ProvisioningPath "dashboards") with ⟨d, _ | u⟩
  · cases hm : ps.mutex
    · rcases d with _ | d
      · rw [ProvisionDashboards_nil_instance env ps h hm, cancelPolling_ps]
        simp
      · cases hp : d.Provision
        · rw [ProvisionDashboards_success env ps d h hm hp]
          simp [hp]
        · rw [ProvisionDashboards_provision_error env ps d _ h hm hp, cancelPolling_ps]
          simp
    · rw [ProvisionDashboards_blocked env ps d h hm]
      simp
  · rw [ProvisionDashboards_factory_error env ps d u h]
    simp

/-- One call other than `ProvisionDashboards` leaves the installed provisioner
as it was. -/
theorem World.apply_installed (env : Env) (w : World) (op : Op)
    (hop : op ≠ .provisionDashboards) :
    (w.apply env op).ps.dashboardProvisioner = w.ps.dashboardProvisioner := by
  obtain ⟨⟨p1, _⟩, ⟨p2, _⟩, ⟨p3, _⟩, ⟨p4, _⟩⟩ := stages_ps_cancelled env w.ps
  obtain ⟨p0, _⟩ := RunInitProvisioners_ps_cancelled env w.ps
  cases op
  · simp [World.apply, p0]
  · simp [World.apply, p1]
  · simp [World.apply, p2]
  · simp [World.apply, p3]
  · simp [World.apply, p4]
  · exact absurd rfl hop
  · simp [World.apply, cancelPolling_ps]
  · simp [World.apply, runPollingSetup_installed]

/-- A sequence of calls without `ProvisionDashboards` leaves the installed
provisioner as it was. -/
theorem World.run_installed (env : Env) (ops : List Op) :
    ∀ w : World, Op.provisionDashboards ∉ ops →
      (w.run env ops).ps.dashboardProvisioner = w.ps.dashboardProvisioner := by
  induction ops with
  | nil => intro w _; rfl
  | cons op ops ih =>
    intro w hno
    have hop : op ≠ .provisionDashboards :=
      fun h => hno (h ▸ List.mem_cons_self _ _)
    have hrest : Op.provisionDashboards ∉ ops :=
      fun h => hno (List.mem_cons_of_mem _ h)
    have h2 := ih (w.apply env op) hrest
    simp only [World.run, List.foldl_cons] at h2 ⊢
    exact h2.trans (World.apply_installed env w op hop)

/-- The head of the loop, on the state of a run, leaves the installed
provisioner and the parent context as they were. -/
theorem Run.enterLoop_installed (s : RunState) :
    (Run.enterLoop s).1.ps.dashboardProvisioner = s.ps.dashboardProvisioner ∧
    (Run.enterLoop s).1.rootDone = s.rootDone := by
  simp [Run.enterLoop, runPollingSetup_installed]

/-- While `Run` waits and loops, with no `ProvisionDashboards` call of another
goroutine in the schedule, the installed provisioner stays as it was. -/
theorem Run.select_installed (env : Env) (rootErr : GoError) (ticks : List Tick) :
    ∀ (pc : Nat) (s : RunState), (∀ t ∈ ticks, t.isReload = false) →
      (Run.select env rootErr ticks pc s).1.ps.dashboardProvisioner =
        s.ps.dashboardProvisioner := by
  induction ticks with
  | nil => intro pc s _; rfl
  | cons t ticks ih =>
    intro pc s hno
    have hrest : ∀ t ∈ ticks, t.isReload = false :=
      fun t ht => hno t (List.mem_cons_of_mem _ ht)
    cases t with
    | cancelRoot =>
      simp only [Run.select]
      rw [ih pc _ hrest]
    | reload f =>
      have := hno (.reload f) (List.mem_cons_self _ _)
      simp [Tick.isReload] at this
    | pollingDone =>
      simp only [Run.select]
      split
      · split
        · rw [ih _ _ hrest]; exact (Run.enterLoop_installed s).1
        · exact (Run.enterLoop_installed s).1
        · exact (Run.enterLoop_installed s).1
      · exact ih pc s hrest
    | rootDone =>
      simp only [Run.select]
      split
      · simp [cancelPolling_ps]
      · exact ih pc s hrest

/-- C11: the installed dashboard provisioner changes only through a
`ProvisionDashboards` call that returns nil. The four stage methods,
`RunInitProvisioners`, `cancelPolling`, the locked head of the `Run` loop, the
wait and both branches of its `select` (over every schedule without a
`ProvisionDashboards` call of another goroutine), every sequence of calls
without `ProvisionDashboards`, and every `ProvisionDashboards` call that does
not return nil (error, panic or wait on the mutex) leave the slot as it was.
The two queries only read the slot. -/
theorem C11_installed_changes_only_by_success (env : Env) (ps : ProvisioningServiceImpl) :
    (RunInitProvisioners env ps).ps.dashboardProvisioner = ps.dashboardProvisioner ∧
    (ProvisionDatasources env ps).ps.dashboardProvisioner = ps.dashboardProvisioner ∧
    (ProvisionPlugins env ps).ps.dashboardProvisioner = ps.dashboardProvisioner ∧
    (ProvisionNotifications env ps).ps.dashboardProvisioner = ps.dashboardProvisioner ∧
    (ProvisionAlertRules env ps).ps.dashboardProvisioner = ps.dashboardProvisioner ∧
    (cancelPolling ps).ps.dashboardProvisioner = ps.dashboardProvisioner ∧
    (∀ n, (runPollingSetup ps n).ps.dashboardProvisioner = ps.dashboardProvisioner) ∧
    (∀ (rootErr : GoError) (ticks : List Tick) (pc n : Nat) (evs : List Event) (done : Bool),
      (∀ t ∈ ticks, t.isReload = false) →
      (Run.select env rootErr ticks pc ⟨ps, n, evs, done⟩).1.ps.dashboardProvisioner =
        ps.dashboardProvisioner) ∧
    (∀ (ops : List Op) (n : Nat) (evs : List Event), Op.provisionDashboards ∉ ops →
      (World.run env ⟨ps, n, evs⟩ ops).ps.dashboardProvisioner = ps.dashboardProvisioner) ∧
    ((ProvisionDashboards env ps).ret ≠ .returned none →
      (ProvisionDashboards env ps).ps.dashboardProvisioner = ps.dashboardProvisioner) ∧
    (∀ name, GetDashboardProvisionerResolvedPath ps name =
        ps.dashboardProvisioner.map (fun d => d.GetProvisionerResolvedPath name) ∧
      GetAllowUIUpdatesFromConfig ps name =
        ps.dashboardProvisioner.map (fun d => d.GetAllowUIUpdatesFromConfig name)) := by
  obtain ⟨⟨p1, _⟩, ⟨p2, _⟩, ⟨p3, _⟩, ⟨p4, _⟩⟩ := stages_ps_cancelled env ps
  obtain ⟨p0, _⟩ := RunInitProvisioners_ps_cancelled env ps
  refine ⟨by rw [p0], by rw [p1], by rw [p2], by rw [p3], by rw [p4],
    by rw [cancelPolling_ps], runPollingSetup_installed ps, ?_, ?_,
    (ProvisionDashboards_installed env ps).1, ?_⟩
  · intro rootErr ticks pc n evs done hno
    exact Run.select_installed env rootErr ticks pc ⟨ps, n, evs, done⟩ hno
  · intro ops n evs hno
    exact World.run_installed env ops ⟨ps, n, evs⟩ hno
  · intro name
    cases h : ps.dashboardProvisioner <;>
      simp [GetDashboardProvisionerResolvedPath, GetAllowUIUpdatesFromConfig, h]

/-- Witness of C11: `Provision` fails on the instance built for
`exPsProvisionFails` and `exV1` stays installed; a cancel and a loop head on
`exPs` leave `exV1` installed; a wait of `Run` that ends with the parent
context leaves `exV1` installed. -/
theorem C11_installed_changes_only_by_success_witness :
    (ProvisionDashboards exEnv exPsProvisionFails).ps.dashboardProvisioner =
      exPsProvisionFails.dashboardProvisioner ∧
    (World.run exEnv ⟨exPs, 8, []⟩ [.cancelPolling, .runPollingSetup,
      .runInitProvisioners]).ps.dashboardProvisioner = exPs.dashboardProvisioner ∧
    (Run.select exEnv (.leaf "context canceled") [.cancelRoot, .rootDone] 7
      ⟨exPs, 8, [], false⟩).1.ps.dashboardProvisioner = exPs.dashboardProvisioner :=
  ⟨(C11_installed_changes_only_by_success exEnv exPsProvisionFails).2.2.2.2.2.2.2.2.2.1
      (by decide),
   (C11_installed_changes_only_by_success exEnv exPs).2.2.2.2.2.2.2.2.1 _ 8 [] (by decide),
   (C11_installed_changes_only_by_success exEnv exPs).2.2.2.2.2.2.2.1 _ _ 7 8 [] false
      (by intro t ht; simp at ht; rcases ht with rfl | rfl <;> rfl)⟩

/-- The polled contexts and re-index triggers of a concatenation of traces. -/
theorem polled_reIndexes_append (xs ys : List Event) :
    polled (xs ++ ys) = polled xs ++ polled ys ∧
    reIndexes (xs ++ ys) = reIndexes xs + reIndexes ys := by
  simp [polled, reIndexes, List.filterMap_append, List.count_append]

/-- `cancelPolling` polls nothing and triggers no re-index. -/
theorem cancelPolling_quiet (ps : ProvisioningServiceImpl) :
    polled (cancelPolling ps).events = [] ∧ reIndexes (cancelPolling ps).events = 0 := by
  unfold cancelPolling
  cases ps.pollingCtxCancel <;> simp [polled, reIndexes, Event.polledCtx]

/-- `ProvisionDashboards` polls nothing and triggers no re-index. -/
theorem ProvisionDashboards_quiet (env : Env) (ps : ProvisioningServiceImpl) :
    polled (ProvisionDashboards env ps).events = [] ∧
    reIndexes (ProvisionDashboards env ps).events = 0 := by
  obtain ⟨hq1, hq2⟩ := cancelPolling_quiet { ps with mutex := true }
  rcases h : ps.newDashboardProvisioner
      (env.filepathJoin ps.Cfg.ProvisioningPath "dashboards") with ⟨d, _ | u⟩
  · cases hm : ps.mutex
    · rcases d with _ | d
      · rw [ProvisionDashboards_nil_instance env ps h hm]
        simp only [polled_reIndexes_append, hq1, hq2]
        simp [polled, reIndexes, Event.polledCtx]
      · cases hp : d.Provision
        · rw [ProvisionDashboards_success env ps d h hm hp]
          simp only [polled_reIndexes_append, hq1, hq2]
          simp [polled, reIndexes, Event.polledCtx]
        · rw [ProvisionDashboards_provision_error env ps d _ h hm hp]
          simp only [polled_reIndexes_append, hq1, hq2]
          simp [polled, reIndexes, Event.polledCtx]
    · rw [ProvisionDashboards_blocked env ps d h hm]
      simp [polled, reIndexes, Event.polledCtx]
  · rw [ProvisionDashboards_factory_error env ps d u h]
    simp [polled, reIndexes, Event.polledCtx]

/-- The head of the loop of `Run`, by cases: it waits on a held mutex and does
nothing; or it panics on a nil provisioner; or it records the cancel function
of the new context `s.nextCtx` and calls `PollChanges` with that context on the
installed provisioner. -/
theorem Run.enterLoop_cases (s : RunState) :
    (s.ps.mutex = true ∧ (Run.enterLoop s).2 = .blocked ∧ Run.enterLoop s = (s, .blocked)) ∨
    (s.ps.mutex = false ∧ s.ps.dashboardProvisioner = none ∧
      (Run.enterLoop s).2 = .panicked) ∨
    (∃ d, s.ps.mutex = false ∧ s.ps.dashboardProvisioner = some d ∧
      (Run.enterLoop s).2 = .returned none ∧
      (Run.enterLoop s).1 =
        { ps := { s.ps with mutex := false, pollingCtxCancel := some ⟨s.nextCtx⟩ }
          nextCtx := s.nextCtx + 1
          events := s.events ++ [.mutexLock, .pollChanges d.id s.nextCtx, .mutexUnlock]
          rootDone := s.rootDone }) := by
  cases hm : s.ps.mutex
  · cases hd : s.ps.dashboardProvisioner with
    | none => right; left; simp [Run.enterLoop, runPollingSetup, hm, hd]
    | some d => right; right; exact ⟨d, by simp [Run.enterLoop, runPollingSetup, hm, hd]⟩
  · left
    simp [Run.enterLoop, runPollingSetup, hm]

/-- The head of the loop of `Run` triggers no re-index and leaves the parent
context as it was. -/
theorem Run.enterLoop_reIndexes (s : RunState) :
    reIndexes (Run.enterLoop s).1.events = reIndexes s.events := by
  rcases Run.enterLoop_cases s with ⟨_, _, h⟩ | ⟨hm, hd, _⟩ | ⟨d, _, _, _, h⟩
  · rw [h]
  · simp [Run.enterLoop, runPollingSetup, hm, hd, reIndexes]
  · rw [h]; simp [reIndexes]

/-- Whenever the wait of `Run` ends in a return, the parent context is done and
the returned error is the one the parent context reports. -/
theorem Run.select_returned (env : Env) (rootErr : GoError) (ticks : List Tick) :
    ∀ (pc : Nat) (s : RunState) (x : Option GoError),
      (Run.select env rootErr ticks pc s).2 = .returned x →
      x = some rootErr ∧ (Run.select env rootErr ticks pc s).1.rootDone = true := by
  induction ticks with
  | nil => intro pc s x h; simp [Run.select] at h
  | cons t ticks ih =>
    intro pc s x
    cases t with
    | cancelRoot => simp only [Run.select]; exact ih _ _ x
    | reload f =>
      simp only [Run.select]
      split
      · intro h; simp at h
      · exact ih _ _ x
    | pollingDone =>
      simp only [Run.select]
      split
      · split
        · exact ih _ _ x
        · intro h; simp at h
        · intro h; simp at h
      · exact ih _ _ x
    | rootDone =>
      simp only [Run.select]
      split
      · rename_i hdone
        intro h
        simp at h
        exact ⟨h.symm, hdone⟩
      · exact ih _ _ x

/-- A wait of `Run` in whose schedule the `select` never takes the
parent-context case does not end in a return. -/
theorem Run.select_not_returned (env : Env) (rootErr : GoError) (ticks : List Tick) :
    ∀ (pc : Nat) (s : RunState), (∀ t ∈ ticks, t.isRootDone = false) →
      ∀ x, (Run.select env rootErr ticks pc s).2 ≠ .returned x := by
  induction ticks with
  | nil => intro pc s _ x h; simp [Run.select] at h
  | cons t ticks ih =>
    intro pc s hno x
    have hrest : ∀ t ∈ ticks, t.isRootDone = false :=
      fun t ht => hno t (List.mem_cons_of_mem _ ht)
    cases t with
    | cancelRoot => simp only [Run.select]; exact ih _ _ hrest x
    | reload f =>
      simp only [Run.select]
      split
      · intro h; simp at h
      · exact ih _ _ hrest x
    | pollingDone =>
      simp only [Run.select]
      split
      · split
        · exact ih _ _ hrest x
        · intro h; simp at h
        · intro h; simp at h
      · exact ih _ _ hrest x
    | rootDone =>
      have := hno .rootDone (List.mem_cons_self _ _)
      simp [Tick.isRootDone] at this

/-- The wait of `Run` and its later iterations trigger no re-index. -/
theorem Run.select_reIndexes (env : Env) (rootErr : GoError) (ticks : List Tick) :
    ∀ (pc : Nat) (s : RunState),
      reIndexes (Run.select env rootErr ticks pc s).1.events = reIndexes s.events := by
  induction ticks with
  | nil => intro pc s; rfl
  | cons t ticks ih =>
    intro pc s
    cases t with
    | cancelRoot => simp only [Run.select]; rw [ih]
    | reload f =>
      simp only [Run.select]
      split
      · simp [polled_reIndexes_append, ProvisionDashboards_quiet]
      · rw [ih]; simp [polled_reIndexes_append, ProvisionDashboards_quiet]
    | pollingDone =>
      simp only [Run.select]
      split
      · split
        · rw [ih]; exact Run.enterLoop_reIndexes s
        · exact Run.enterLoop_reIndexes s
        · exact Run.enterLoop_reIndexes s
      · exact ih pc s
    | rootDone =>
      simp only [Run.select]
      split
      · simp [polled_reIndexes_append, cancelPolling_quiet]
      · exact ih pc s

/-- The state in which `Run` first waits, after an initial `ProvisionDashboards`
that installed `d`. -/
theorem Run_enters_loop (env : Env) (rootErr : GoError) (ticks : List Tick) (s : RunState)
    (hok : (ProvisionDashboards env s.ps).ret = .returned none) :
    ∃ d, (ProvisionDashboards env s.ps).ps.dashboardProvisioner = some d ∧
      Run env rootErr ticks s =
        Run.select env rootErr ticks s.nextCtx
          { ps := { (ProvisionDashboards env s.ps).ps with
              mutex := false, pollingCtxCancel := some ⟨s.nextCtx⟩ }
            nextCtx := s.nextCtx + 1
            events := s.events ++ (ProvisionDashboards env s.ps).events ++
              (if d.HasDashboardSources then [.triggerReIndex] else []) ++
              [.mutexLock, .pollChanges d.id s.nextCtx, .mutexUnlock]
            rootDone := s.rootDone } := by
  obtain ⟨d, _, _, _, hinst, hmutex⟩ := (ProvisionDashboards_installed env s.ps).2 hok
  refine ⟨d, hinst, ?_⟩
  cases hsrc : d.HasDashboardSources <;>
    simp [Run, hok, hinst, hsrc, Run.enterLoop, runPollingSetup, hmutex]

/-- What `Run` does when its initial `ProvisionDashboards` returns an error. -/
theorem Run_initial_error (env : Env) (rootErr : GoError) (ticks : List Tick) (s : RunState)
    (e : GoError) (herr : (ProvisionDashboards env s.ps).ret = .returned (some e)) :
    Run env rootErr ticks s =
      ({ s with
          ps := (ProvisionDashboards env s.ps).ps
          events := s.events ++ (ProvisionDashboards env s.ps).events ++
            [.logError "Failed to provision dashboard" e] },
        .returned (some e)) := by
  simp [Run, herr]

/-- When the initial `ProvisionDashboards` panics or waits on the mutex, so does
`Run`. -/
theorem Run_initial_stuck (env : Env) (rootErr : GoError) (ticks : List Tick) (s : RunState)
    (h : (ProvisionDashboards env s.ps).ret = .panicked ∨
      (ProvisionDashboards env s.ps).ret = .blocked) :
    (Run env rootErr ticks s).2 = .panicked ∨ (Run env rootErr ticks s).2 = .blocked := by
  rcases h with h | h
  · left; simp [Run, h]
  · right; simp [Run, h]

/-- With the parent case of the `select` executed as one step: `Run` returns only
on a fatal error or on cancellation of the parent context. If the initial `ProvisionDashboards` fails with `e`, `Run` logs and
returns exactly `e`, with no re-index trigger and no `PollChanges` call, on
every schedule. Whenever `Run` returns, it returns either that initial error,
or, after a successful initial call, the error of the parent context, which is
then done; it never returns nil. With the parent context done, the `select`
taking the parent case makes `Run` return the parent error. On a schedule in
which the `select` only ever takes the polling case, `Run` does not return. -/
theorem Run_returns_atomic_shutdown (env : Env) (rootErr : GoError)
    (ticks : List Tick) (s : RunState) :
    (∀ e, (ProvisionDashboards env s.ps).ret = .returned (some e) →
      (Run env rootErr ticks s).2 = .returned (some e) ∧
      (Run env rootErr ticks s).1.events =
        s.events ++ (ProvisionDashboards env s.ps).events ++
          [.logError "Failed to provision dashboard" e] ∧
      reIndexes (Run env rootErr ticks s).1.events = reIndexes s.events ∧
      polled (Run env rootErr ticks s).1.events = polled s.events) ∧
    (∀ x, (Run env rootErr ticks s).2 = .returned x →
      (∃ e, x = some e ∧ (ProvisionDashboards env s.ps).ret = .returned (some e)) ∨
      ((ProvisionDashboards env s.ps).ret = .returned none ∧ x = some rootErr ∧
        (Run env rootErr ticks s).1.rootDone = true)) ∧
    ((ProvisionDashboards env s.ps).ret = .returned none → s.rootDone = true →
      (Run env rootErr (.rootDone :: ticks) s).2 = .returned (some rootErr)) ∧
    ((ProvisionDashboards env s.ps).ret = .returned none →
      (∀ t ∈ ticks, t.isRootDone = false) →
      ∀ x, (Run env rootErr ticks s).2 ≠ .returned x) := by
  refine ⟨?_, ?_, ?_, ?_⟩
  · intro e herr
    rw [Run_initial_error env rootErr ticks s e herr]
    obtain ⟨hq1, hq2⟩ := ProvisionDashboards_quiet env s.ps
    refine ⟨rfl, rfl, ?_, ?_⟩
    · simp only [polled_reIndexes_append, hq2]
      simp [reIndexes]
    · simp only [polled_reIndexes_append, hq1]
      simp [polled, Event.polledCtx]
  · intro x hret
    cases hpd : (ProvisionDashboards env s.ps).ret with
    | returned r =>
      cases r with
      | some e =>
        left
        rw [Run_initial_error env rootErr ticks s e hpd] at hret
        simp at hret
        exact ⟨e, hret.symm, rfl⟩
      | none =>
        right
        obtain ⟨d, _, hrun⟩ := Run_enters_loop env rootErr ticks s hpd
        rw [hrun] at hret ⊢
        exact ⟨rfl, Run.select_returned env rootErr ticks _ _ x hret⟩
    | panicked =>
      rcases Run_initial_stuck env rootErr ticks s (Or.inl hpd) with h | h <;>
        rw [h] at hret <;> simp at hret
    | blocked =>
      rcases Run_initial_stuck env rootErr ticks s (Or.inr hpd) with h | h <;>
        rw [h] at hret <;> simp at hret
  · intro hok hdone
    obtain ⟨d, _, hrun⟩ := Run_enters_loop env rootErr (.rootDone :: ticks) s hok
    rw [hrun]
    simp [Run.select, hdone]
  · intro hok hno x
    obtain ⟨d, _, hrun⟩ := Run_enters_loop env rootErr ticks s hok
    rw [hrun]
    exact Run.select_not_returned env rootErr ticks _ _ hno x

/-- C13: after the initial `ProvisionDashboards` of `Run` succeeded and
installed `d`, the whole run, on every schedule, triggers the search re-index
exactly once when `d.HasDashboardSources` is true and not at all when it is
false; later iterations and provisioners installed later never trigger it. -/
theorem C13_reindex_once (env : Env) (rootErr : GoError) (ticks : List Tick) (s : RunState)
    (d : DashboardProvisioner)
    (hok : (ProvisionDashboards env s.ps).ret = .returned none)
    (hinst : (ProvisionDashboards env s.ps).ps.dashboardProvisioner = some d) :
    reIndexes (Run env rootErr ticks s).1.events =
      reIndexes s.events + (if d.HasDashboardSources then 1 else 0) ∧
    (d.HasDashboardSources = true → s.events = [] →
      reIndexes (Run env rootErr ticks s).1.events = 1) ∧
    (d.HasDashboardSources = false → s.events = [] →
      reIndexes (Run env rootErr ticks s).1.events = 0) := by
  have hcount : reIndexes (Run env rootErr ticks s).1.events =
      reIndexes s.events + (if d.HasDashboardSources then 1 else 0) := by
    obtain ⟨d2, hinst2, hrun⟩ := Run_enters_loop env rootErr ticks s hok
    have hd : d2 = d := Option.some.inj (hinst2.symm.trans hinst)
    subst hd
    rw [hrun, Run.select_reIndexes]
    obtain ⟨_, hq2⟩ := ProvisionDashboards_quiet env s.ps
    cases hsrc : d2.HasDashboardSources
    · simp only [polled_reIndexes_append, hq2]
      simp [reIndexes]
    · simp only [polled_reIndexes_append, hq2]
      simp [reIndexes]
  refine ⟨hcount, ?_, ?_⟩
  · intro hsrc hev
    rw [hcount, hsrc, hev]; rfl
  · intro hsrc hev
    rw [hcount, hsrc, hev]; rfl

/-- Witness of C13: a run on an orchestrator whose factory builds `exV1`, which
has dashboard sources, triggers one re-index however often it polls again. -/
theorem C13_reindex_once_witness :
    reIndexes (Run exEnv (.leaf "context canceled")
      [.reload (fun _ => (some exV3, none)), .pollingDone,
        .reload (fun _ => (some exV1, none)), .pollingDone, .cancelRoot, .rootDone]
      ⟨{ exPs with newDashboardProvisioner := fun _ => (some exV1, none) }, 8, [],
        false⟩).1.events = 1 :=
  (C13_reindex_once exEnv (.leaf "context canceled") _
    ⟨{ exPs with newDashboardProvisioner := fun _ => (some exV1, none) }, 8, [], false⟩
    exV1 rfl rfl).2.1 rfl rfl

/-- A `ProvisionDashboards` call of another goroutine during a wait of `Run`
keeps what holds during the wait. -/
theorem Run.WaitInv_reload (env : Env) (before : List Nat) (pc : Nat) (s : RunState)
    (f : String → Option DashboardProvisioner × Option GoError)
    (h : Run.WaitInv before pc s) :
    Run.WaitInv before pc
      { s with
        ps := (ProvisionDashboards env { s.ps with newDashboardProvisioner := f }).ps
        events := s.events ++
          (ProvisionDashboards env { s.ps with newDashboardProvisioner := f }).events } := by
  obtain ⟨⟨pre, hpre⟩, hslot, hall⟩ := h
  obtain ⟨hq, _⟩ := ProvisionDashboards_quiet env { s.ps with newDashboardProvisioner := f }
  have hpol : polled (s.events ++
      (ProvisionDashboards env { s.ps with newDashboardProvisioner := f }).events) =
      polled s.events := by
    rw [(polled_reIndexes_append _ _).1, hq, List.append_nil]
  refine ⟨⟨pre, by simp only [hpol, hpre]⟩, ?_, ?_⟩
  · simp only [cancelled_append, List.mem_append]
    rcases ProvisionDashboards_slot env { s.ps with newDashboardProvisioner := f } with
      ⟨hs, _⟩ | ⟨_, hc⟩
    · rcases hslot with hslot | hslot
      · left
        rw [hs]
        exact hslot
      · exact Or.inr (Or.inl hslot)
    · rcases hslot with hslot | hslot
      · right; right
        rw [hc]
        simp [hslot]
      · exact Or.inr (Or.inl hslot)
  · intro n hn
    simp only [hpol] at hn
    rcases hall n hn with h1 | h1 | h1
    · exact Or.inl h1
    · exact Or.inr (Or.inl h1)
    · right; right
      simp only [cancelled_append, List.mem_append]
      exact Or.inl h1

/-- When the polling context of a wait has been cancelled and the loop of `Run`
starts its next iteration, what holds during a wait holds for the new wait on
the new context. -/
theorem Run.WaitInv_enterLoop (before : List Nat) (pc : Nat) (s : RunState)
    (h : Run.WaitInv before pc s) (hdone : (⟨pc⟩ : CancelFunc) ∈ cancelled s.events)
    (o : Option GoError) (hret : (Run.enterLoop s).2 = .returned o) :
    Run.WaitInv before s.nextCtx (Run.enterLoop s).1 := by
  obtain ⟨_, _, hall⟩ := h
  rcases Run.enterLoop_cases s with ⟨_, hb, _⟩ | ⟨_, _, hp⟩ | ⟨d, _, _, _, hst⟩
  · rw [hb] at hret; simp at hret
  · rw [hp] at hret; simp at hret
  · rw [hst]
    have hpol : polled (s.events ++ [Event.mutexLock, Event.pollChanges d.id s.nextCtx,
        Event.mutexUnlock]) = polled s.events ++ [s.nextCtx] := by
      rw [(polled_reIndexes_append _ _).1]
      simp [polled, Event.polledCtx]
    have hcan : cancelled (s.events ++ [Event.mutexLock, Event.pollChanges d.id s.nextCtx,
        Event.mutexUnlock]) = cancelled s.events := by
      rw [cancelled_append]
      simp [cancelled, Event.cancelled]
    refine ⟨⟨polled s.events, hpol⟩, Or.inl rfl, ?_⟩
    intro n hn
    simp only [hpol, List.mem_append, List.mem_singleton] at hn
    simp only [hcan]
    rcases hn with hn | hn
    · rcases hall n hn with h1 | h1 | h1
      · exact Or.inr (Or.inr (h1 ▸ hdone))
      · exact Or.inr (Or.inl h1)
      · exact Or.inr (Or.inr h1)
    · exact Or.inl hn

/-- Whenever a wait of `Run` ends in a return, the polling-cancel slot is empty,
the cancel function of the most recent `PollChanges` context has been invoked,
and so has that of every context polled during the run. -/
theorem Run.select_shutdown (env : Env) (rootErr : GoError) (before : List Nat)
    (ticks : List Tick) :
    ∀ (pc : Nat) (s : RunState) (x : Option GoError), Run.WaitInv before pc s →
      (Run.select env rootErr ticks pc s).2 = .returned x →
      (Run.select env rootErr ticks pc s).1.ps.pollingCtxCancel = none ∧
      (∃ pre n, polled (Run.select env rootErr ticks pc s).1.events = pre ++ [n] ∧
        (⟨n⟩ : CancelFunc) ∈ cancelled (Run.select env rootErr ticks pc s).1.events) ∧
      (∀ n ∈ polled (Run.select env rootErr ticks pc s).1.events,
        n ∈ before ∨ (⟨n⟩ : CancelFunc) ∈ cancelled (Run.select env rootErr ticks pc s).1.events) := by
  induction ticks with
  | nil => intro pc s x _ h; simp [Run.select] at h
  | cons t ticks ih =>
    intro pc s x hinv
    cases t with
    | cancelRoot =>
      simp only [Run.select]
      exact ih pc _ x hinv
    | reload f =>
      simp only [Run.select]
      split
      · intro h; simp at h
      · exact ih pc _ x (Run.WaitInv_reload env before pc s f hinv)
    | pollingDone =>
      simp only [Run.select]
      split
      · rename_i hdone
        split
        · rename_i o hret
          exact ih _ _ x (Run.WaitInv_enterLoop before pc s hinv hdone o hret)
        · intro h; simp at h
        · intro h; simp at h
      · exact ih pc s x hinv
    | rootDone =>
      simp only [Run.select]
      split
      · intro _
        obtain ⟨⟨pre, hpre⟩, hslot, hall⟩ := hinv
        obtain ⟨hq, _⟩ := cancelPolling_quiet s.ps
        have hpol : polled (s.events ++ (cancelPolling s.ps).events) = polled s.events := by
          rw [(polled_reIndexes_append _ _).1, hq, List.append_nil]
        have hpc : (⟨pc⟩ : CancelFunc) ∈ cancelled (s.events ++ (cancelPolling s.ps).events) := by
          rw [cancelled_append, cancelPolling_cancelled, List.mem_append]
          rcases hslot with hslot | hslot
          · right; simp [hslot]
          · exact Or.inl hslot
        refine ⟨by simp [cancelPolling_ps], ⟨pre, pc, by simp only [hpol, hpre], hpc⟩, ?_⟩
        intro n hn
        simp only [hpol] at hn
        rcases hall n hn with h1 | h1 | h1
        · exact Or.inr (h1 ▸ hpc)
        · exact Or.inl h1
        · right
          rw [cancelled_append, List.mem_append]
          exact Or.inl h1
      · exact ih pc s x hinv

/-- With the parent case of the `select` executed as one step: when `Run`,
having entered its loop, returns, it returns
exactly the error of the parent context, which is done; the polling-cancel slot
is empty; the cancel function of the context passed to the most recent
`PollChanges` call has been invoked; and every polling context started by the
run has been cancelled. With the cancel function still recorded when the
`select` takes the parent case, it is `Run` that invokes it, as its last
effect. -/
theorem Run_shutdown_atomic (env : Env) (rootErr : GoError) (ticks : List Tick) (s : RunState)
    (x : Option GoError)
    (hok : (ProvisionDashboards env s.ps).ret = .returned none)
    (hret : (Run env rootErr ticks s).2 = .returned x) :
    x = some rootErr ∧
    (Run env rootErr ticks s).1.rootDone = true ∧
    (Run env rootErr ticks s).1.ps.pollingCtxCancel = none ∧
    (∃ pre n, polled (Run env rootErr ticks s).1.events = pre ++ [n] ∧
      (⟨n⟩ : CancelFunc) ∈ cancelled (Run env rootErr ticks s).1.events) ∧
    (∀ n ∈ polled (Run env rootErr ticks s).1.events,
      n ∈ polled s.events ∨
        (⟨n⟩ : CancelFunc) ∈ cancelled (Run env rootErr ticks s).1.events) ∧
    (∀ (pc : Nat) (w : RunState), w.rootDone = true →
      w.ps.pollingCtxCancel = some ⟨pc⟩ →
      (Run.select env rootErr (.rootDone :: ticks) pc w).2 = .returned (some rootErr) ∧
      (Run.select env rootErr (.rootDone :: ticks) pc w).1.events =
        w.events ++ [.logDebug "Stop polling for dashboard changes", .cancel ⟨pc⟩] ∧
      (Run.select env rootErr (.rootDone :: ticks) pc w).1.ps.pollingCtxCancel = none) := by
  obtain ⟨d, _, hrun⟩ := Run_enters_loop env rootErr ticks s hok
  rw [hrun] at hret ⊢
  obtain ⟨hx, hdone⟩ := Run.select_returned env rootErr ticks _ _ x hret
  obtain ⟨hq, _⟩ := ProvisionDashboards_quiet env s.ps
  have hinv : Run.WaitInv (polled s.events) s.nextCtx
      { ps := { (ProvisionDashboards env s.ps).ps with
          mutex := false, pollingCtxCancel := some ⟨s.nextCtx⟩ }
        nextCtx := s.nextCtx + 1
        events := s.events ++ (ProvisionDashboards env s.ps).events ++
          (if d.HasDashboardSources then [.triggerReIndex] else []) ++
          [.mutexLock, .pollChanges d.id s.nextCtx, .mutexUnlock]
        rootDone := s.rootDone } := by
    have hpol : polled (s.events ++ (ProvisionDashboards env s.ps).events ++
        (if d.HasDashboardSources then [.triggerReIndex] else []) ++
        [.mutexLock, .pollChanges d.id s.nextCtx, .mutexUnlock]) =
        polled s.events ++ [s.nextCtx] := by
      simp only [polled_reIndexes_append, hq]
      cases d.HasDashboardSources <;> simp [polled, Event.polledCtx]
    refine ⟨⟨polled s.events, hpol⟩, Or.inl rfl, ?_⟩
    intro n hn
    simp only [hpol, List.mem_append, List.mem_singleton] at hn
    rcases hn with hn | hn
    · exact Or.inr (Or.inl hn)
    · exact Or.inl hn
  obtain ⟨h1, h2, h3⟩ := Run.select_shutdown env rootErr (polled s.events) ticks _ _ x hinv hret
  refine ⟨hx, hdone, h1, h2, h3, ?_⟩
  intro pc w hw hslot
  simp [Run.select, hw, cancelPolling, hslot]

/-- Only the cancellation of the parent context makes the parent context done:
a wait of `Run` without it in the schedule leaves the parent context as it was. -/
theorem Run.select_rootDone (env : Env) (rootErr : GoError) (ticks : List Tick) :
    ∀ (pc : Nat) (s : RunState), (∀ t ∈ ticks, t.isCancelRoot = false) →
      (Run.select env rootErr ticks pc s).1.rootDone = s.rootDone := by
  induction ticks with
  | nil => intro pc s _; rfl
  | cons t ticks ih =>
    intro pc s hno
    have hrest : ∀ t ∈ ticks, t.isCancelRoot = false :=
      fun t ht => hno t (List.mem_cons_of_mem _ ht)
    cases t with
    | cancelRoot =>
      have := hno .cancelRoot (List.mem_cons_self _ _)
      simp [Tick.isCancelRoot] at this
    | reload f =>
      simp only [Run.select]
      split
      · rfl
      · rw [ih _ _ hrest]
    | pollingDone =>
      simp only [Run.select]
      split
      · split
        · rw [ih _ _ hrest]; exact (Run.enterLoop_installed s).2
        · exact (Run.enterLoop_installed s).2
        · exact (Run.enterLoop_installed s).2
      · exact ih pc s hrest
    | rootDone =>
      simp only [Run.select]
      split
      · rfl
      · exact ih pc s hrest

/-- A run without cancellation of the parent context in its schedule leaves the
parent context as it was. -/
theorem Run_rootDone (env : Env) (rootErr : GoError) (ticks : List Tick) (s : RunState)
    (hno : ∀ t ∈ ticks, t.isCancelRoot = false) :
    (Run env rootErr ticks s).1.rootDone = s.rootDone := by
  cases hpd : (ProvisionDashboards env s.ps).ret with
  | returned r =>
    cases r with
    | some e => rw [Run_initial_error env rootErr ticks s e hpd]
    | none =>
      obtain ⟨d, _, hrun⟩ := Run_enters_loop env rootErr ticks s hpd
      rw [hrun, Run.select_rootDone env rootErr ticks _ _ hno]
  | panicked => simp [Run, hpd]
  | blocked => simp [Run, hpd]

/-- Every iteration of the loop of `Run` polls with a context not used before:
if the polled contexts are pairwise distinct and all created earlier when a
wait starts, they still are when it ends. -/
theorem Run.select_polled_fresh (env : Env) (rootErr : GoError) (ticks : List Tick) :
    ∀ (pc : Nat) (s : RunState),
      ((polled s.events).Nodup ∧ ∀ n ∈ polled s.events, n < s.nextCtx) →
      (polled (Run.select env rootErr ticks pc s).1.events).Nodup ∧
      ∀ n ∈ polled (Run.select env rootErr ticks pc s).1.events,
        n < (Run.select env rootErr ticks pc s).1.nextCtx := by
  have henter : ∀ s : RunState,
      ((polled s.events).Nodup ∧ ∀ n ∈ polled s.events, n < s.nextCtx) →
      (polled (Run.enterLoop s).1.events).Nodup ∧
      ∀ n ∈ polled (Run.enterLoop s).1.events, n < (Run.enterLoop s).1.nextCtx := by
    intro s ⟨hnd, hlt⟩
    rcases Run.enterLoop_cases s with ⟨_, _, h⟩ | ⟨hm, hd, _⟩ | ⟨d, _, _, _, h⟩
    · rw [h]; exact ⟨hnd, hlt⟩
    · have hpol : polled (Run.enterLoop s).1.events = polled s.events := by
        simp [Run.enterLoop, runPollingSetup, hm, hd, polled, Event.polledCtx]
      have hn : (Run.enterLoop s).1.nextCtx = s.nextCtx + 1 := by
        simp [Run.enterLoop, runPollingSetup, hm, hd]
      rw [hpol, hn]
      exact ⟨hnd, fun n h => Nat.lt_succ_of_lt (hlt n h)⟩
    · rw [h]
      have hpol : polled (s.events ++ [Event.mutexLock, Event.pollChanges d.id s.nextCtx,
          Event.mutexUnlock]) = polled s.events ++ [s.nextCtx] := by
        rw [(polled_reIndexes_append _ _).1]
        simp [polled, Event.polledCtx]
      simp only [hpol]
      refine ⟨?_, ?_⟩
      · rw [List.nodup_append]
        refine ⟨hnd, List.nodup_singleton _, ?_⟩
        intro a ha hb
        simp only [List.mem_singleton] at hb
        exact Nat.lt_irrefl _ (hb ▸ hlt a ha)
      · intro n hn
        simp only [List.mem_append, List.mem_singleton] at hn
        rcases hn with hn | hn
        · exact Nat.lt_succ_of_lt (hlt n hn)
        · exact hn ▸ Nat.lt_succ_self _
  induction ticks with
  | nil => intro pc s h; exact h
  | cons t ticks ih =>
    intro pc s h
    cases t with
    | cancelRoot => simp only [Run.select]; exact ih _ _ h
    | reload f =>
      obtain ⟨hq, _⟩ := ProvisionDashboards_quiet env { s.ps with newDashboardProvisioner := f }
      have hkeep : (polled (s.events ++
          (ProvisionDashboards env { s.ps with newDashboardProvisioner := f }).events)).Nodup ∧
          ∀ n ∈ polled (s.events ++
            (ProvisionDashboards env { s.ps with newDashboardProvisioner := f }).events),
            n < s.nextCtx := by
        rw [(polled_reIndexes_append _ _).1, hq, List.append_nil]
        exact h
      simp only [Run.select]
      split
      · exact hkeep
      · exact ih _ _ hkeep
    | pollingDone =>
      simp only [Run.select]
      split
      · split
        · exact ih _ _ (henter s h)
        · exact henter s h
        · exact henter s h
      · exact ih pc s h
    | rootDone =>
      simp only [Run.select]
      split
      · obtain ⟨hq, _⟩ := cancelPolling_quiet s.ps
        simp only [(polled_reIndexes_append _ _).1, hq, List.append_nil]
        exact h
      · exact ih pc s h

/-- The four kinds of statement of a `ProvisionDashboards` call, as far as the
mutex, the slot and the order of lock acquisitions are concerned: `Lock` on a
free mutex; the deferred `Unlock`; the assignment that installs the instance;
and every other statement, which touches none of them. -/
theorem Call.step_kind (env : Env) (ps : ProvisioningServiceImpl) (c : Call) (i : Bool) :
    (c.pc = .built ∧ ps.mutex = false ∧ (c.step env ps).1.mutex = true ∧
      c.inside = false ∧ (c.step env ps).2.1.inside = true ∧
      c.installed = false ∧ (c.step env ps).2.1.installed = false ∧
      (c.step env ps).1.dashboardProvisioner = ps.dashboardProvisioner ∧
      ((c.step env ps).2.2.map (fun e => (i, e))).filterMap
        (fun e => if e.2 = .mutexLock then some e.1 else none) = [i]) ∨
    (c.pc = .leaving ∧ (c.step env ps).1.mutex = false ∧
      c.inside = true ∧ (c.step env ps).2.1.inside = false ∧
      (c.step env ps).2.1.installed = c.installed ∧
      (c.step env ps).2.1.dashProvisioner = c.dashProvisioner ∧
      (c.step env ps).1.dashboardProvisioner = ps.dashboardProvisioner ∧
      ((c.step env ps).2.2.map (fun e => (i, e))).filterMap
        (fun e => if e.2 = .mutexLock then some e.1 else none) = []) ∨
    (c.pc = .provisioned ∧ (c.step env ps).1.mutex = ps.mutex ∧
      c.inside = true ∧ (c.step env ps).2.1.inside = true ∧
      (c.step env ps).2.1.installed = true ∧
      (c.step env ps).2.1.dashProvisioner = c.dashProvisioner ∧
      (c.step env ps).1.dashboardProvisioner = c.dashProvisioner ∧
      ((c.step env ps).2.2.map (fun e => (i, e))).filterMap
        (fun e => if e.2 = .mutexLock then some e.1 else none) = []) ∨
    ((c.step env ps).1.mutex = ps.mutex ∧
      (c.step env ps).2.1.inside = c.inside ∧
      (c.step env ps).2.1.installed = c.installed ∧
      (c.installed = true → (c.step env ps).2.1.dashProvisioner = c.dashProvisioner) ∧
      (c.step env ps).1.dashboardProvisioner = ps.dashboardProvisioner ∧
      ((c.step env ps).2.2.map (fun e => (i, e))).filterMap
        (fun e => if e.2 = .mutexLock then some e.1 else none) = []) := by
  cases hpc : c.pc
  · -- start
    right; right; right
    rcases hf : c.factory (env.filepathJoin ps.Cfg.ProvisioningPath "dashboards") with
      ⟨d, _ | e⟩ <;>
      simp [Call.step, hpc, hf, Call.inside, Call.installed]
  · -- built
    cases hm : ps.mutex
    · left
      simp [Call.step, hpc, hm, Call.inside, Call.installed]
    · right; right; right
      simp [Call.step, hpc, hm]
  · -- locked
    right; right; right
    cases hc : ps.pollingCtxCancel <;>
      simp [Call.step, hpc, cancelPolling, hc, Call.inside, Call.installed]
  · -- cancelled
    right; right; right
    cases hd : c.dashProvisioner <;>
      simp [Call.step, hpc, hd, Call.inside, Call.installed]
  · -- cleaned
    right; right; right
    cases hd : c.dashProvisioner with
    | none => simp [Call.step, hpc, hd, Call.inside, Call.installed]
    | some d =>
      cases hp : d.Provision <;>
        simp [Call.step, hpc, hd, hp, Call.inside, Call.installed]
  · -- provisioned
    right; right; left
    simp [Call.step, hpc, Call.inside, Call.installed]
  · -- leaving
    right; left
    simp [Call.step, hpc, Call.inside, Call.installed]
  · -- done
    right; right; right
    simp [Call.step, hpc]

/-- Replaying installs depends only on which calls have installed and on the
instances of those. -/
theorem replayInstalls_congr (call call2 : Bool → Call) (order : List Bool) :
    ∀ initial : Option DashboardProvisioner,
      (∀ j ∈ order, (call2 j).installed = (call j).installed ∧
        ((call j).installed = true → (call2 j).dashProvisioner = (call j).dashProvisioner)) →
      replayInstalls call2 order initial = replayInstalls call order initial := by
  induction order with
  | nil => intro initial _; rfl
  | cons j order ih =>
    intro initial h
    obtain ⟨h1, h2⟩ := h j (List.mem_cons_self _ _)
    have hrest := fun k hk => h k (List.mem_cons_of_mem _ hk)
    simp only [replayInstalls, List.foldl_cons] at ih ⊢
    cases hj : (call j).installed
    · rw [h1, hj]
      exact ih _ hrest
    · rw [h1, hj, h2 hj]
      exact ih _ hrest

/-- Replaying installs in an order that ends with the call `i`. -/
theorem replayInstalls_snoc (call : Bool → Call) (order : List Bool) (i : Bool)
    (initial : Option DashboardProvisioner) :
    replayInstalls call (order ++ [i]) initial =
      if (call i).installed then (call i).dashProvisioner
      else replayInstalls call order initial := by
  simp [replayInstalls, List.foldl_append]

/-- The order of lock acquisitions after one statement of the call `i`. -/
theorem Pair.lockOrder_step (env : Env) (st : Pair) (i : Bool) :
    (st.step env i).lockOrder = st.lockOrder ++
      (((st.call i).step env st.ps).2.2.map (fun e => (i, e))).filterMap
        (fun e => if e.2 = .mutexLock then some e.1 else none) := by
  simp [Pair.lockOrder, Pair.step, List.filterMap_append]

/-- One statement of either call keeps what holds of two concurrent calls. -/
theorem Pair.Inv_step (env : Env) (st : Pair) (initial : Option DashboardProvisioner)
    (i : Bool) (h : st.Inv initial) : (st.step env i).Inv initial := by
  obtain ⟨hmx, hexcl, hlast, hmem, hslot⟩ := h
  have hci : (st.step env i).call i = ((st.call i).step env st.ps).2.1 := by
    simp [Pair.step]
  have hco : (st.step env i).call (!i) = st.call (!i) := by
    cases i <;> simp [Pair.step]
  have hps : (st.step env i).ps = ((st.call i).step env st.ps).1 := rfl
  have hord := Pair.lockOrder_step env st i
  have hmx2 : st.ps.mutex = ((st.call i).inside || (st.call (!i)).inside) := by
    cases i
    · simpa using hmx
    · simpa [Bool.or_comm] using hmx
  have hexcl2 : (st.call i).inside = false ∨ (st.call (!i)).inside = false := by
    cases i
    · simpa using hexcl
    · simpa [or_comm] using hexcl
  have hall : ∀ P : Bool → Prop, P i → P (!i) → ∀ j, P j := by
    intro P h1 h2 j
    cases i <;> cases j <;> simp_all
  have goal1 : ∀ a b : Bool, (st.step env i).ps.mutex = (a || b) →
      ((st.step env i).call i).inside = a → ((st.step env i).call (!i)).inside = b →
      (st.step env i).ps.mutex =
        (((st.step env i).call false).inside || ((st.step env i).call true).inside) := by
    intro a b h1 h2 h3
    cases i
    · simp only [Bool.not_false] at h3; rw [h2, h3]; exact h1
    · simp only [Bool.not_true] at h3; rw [h2, h3, Bool.or_comm]; exact h1
  have goal2 : ((st.step env i).call i).inside = false ∨
      ((st.step env i).call (!i)).inside = false →
      (((st.step env i).call false).inside = false ∨
        ((st.step env i).call true).inside = false) := by
    intro h
    cases i
    · simpa using h
    · simpa [or_comm] using h
  rcases Call.step_kind env st.ps (st.call i) i with
    ⟨_, hm, hm', hin, hin', hinst, hinst', hsl, hev⟩ |
    ⟨_, hm', hin, hin', hinst', hdp, hsl, hev⟩ |
    ⟨_, hm', hin, hin', hinst', hdp, hsl, hev⟩ |
    ⟨hm', hin', hinst', hdp, hsl, hev⟩
  · -- Lock on a free mutex
    have hother : (st.call (!i)).inside = false := by
      rw [hmx2, hin] at hm; simpa using hm
    rw [hev] at hord
    refine ⟨?_, ?_, ?_, ?_, ?_⟩
    · exact goal1 true false (by rw [hps, hm']; rfl) (by rw [hci, hin']) (by rw [hco, hother])
    · exact goal2 (Or.inr (by rw [hco, hother]))
    · refine hall _ ?_ ?_
      · intro _; exact ⟨st.lockOrder, hord⟩
      · intro h; rw [hco, hother] at h; exact absurd h (by simp)
    · refine hall _ ?_ ?_
      · intro h; rw [hci, hinst'] at h; exact absurd h (by simp)
      · intro h; rw [hco] at h; rw [hord]; exact List.mem_append_left _ (hmem _ h)
    · rw [hps, hsl, hslot, Pair.slotSpec, Pair.slotSpec, hord, replayInstalls_snoc, hci, hinst']
      simp only [Bool.false_eq_true, if_false]
      symm
      apply replayInstalls_congr
      intro j hj
      clear hj
      revert j
      refine hall _ ?_ ?_
      · rw [hci, hinst', hinst]; exact ⟨rfl, fun h => absurd h (by simp)⟩
      · rw [hco]; exact ⟨rfl, fun _ => rfl⟩
  · -- the deferred Unlock
    have hother : (st.call (!i)).inside = false := by
      rcases hexcl2 with h | h
      · rw [hin] at h; exact absurd h (by simp)
      · exact h
    rw [hev, List.append_nil] at hord
    refine ⟨?_, ?_, ?_, ?_, ?_⟩
    · exact goal1 false false (by rw [hps, hm']; rfl) (by rw [hci, hin']) (by rw [hco, hother])
    · exact goal2 (Or.inl (by rw [hci, hin']))
    · refine hall _ ?_ ?_
      · intro h; rw [hci, hin'] at h; exact absurd h (by simp)
      · intro h; rw [hco, hother] at h; exact absurd h (by simp)
    · refine hall _ ?_ ?_
      · intro h; rw [hci, hinst'] at h; rw [hord]; exact hmem _ h
      · intro h; rw [hco] at h; rw [hord]; exact hmem _ h
    · rw [hps, hsl, hslot, Pair.slotSpec, Pair.slotSpec, hord]
      symm
      apply replayInstalls_congr
      intro j hj
      clear hj
      revert j
      refine hall _ ?_ ?_
      · rw [hci, hinst', hdp]; exact ⟨rfl, fun _ => rfl⟩
      · rw [hco]; exact ⟨rfl, fun _ => rfl⟩
  · -- the install
    have hother : (st.call (!i)).inside = false := by
      rcases hexcl2 with h | h
      · rw [hin] at h; exact absurd h (by simp)
      · exact h
    rw [hev, List.append_nil] at hord
    obtain ⟨l, hl⟩ := hlast i hin
    refine ⟨?_, ?_, ?_, ?_, ?_⟩
    · exact goal1 true false (by rw [hps, hm', hmx2, hin, hother]) (by rw [hci, hin'])
        (by rw [hco, hother])
    · exact goal2 (Or.inr (by rw [hco, hother]))
    · refine hall _ ?_ ?_
      · intro _; rw [hord]; exact ⟨l, hl⟩
      · intro h; rw [hco, hother] at h; exact absurd h (by simp)
    · refine hall _ ?_ ?_
      · intro _; rw [hord, hl]; simp
      · intro h; rw [hco] at h; rw [hord]; exact hmem _ h
    · rw [hps, hsl, Pair.slotSpec, hord, hl, replayInstalls_snoc, hci, hinst', hdp]
      simp
  · -- any other statement
    rw [hev, List.append_nil] at hord
    refine ⟨?_, ?_, ?_, ?_, ?_⟩
    · exact goal1 (st.call i).inside (st.call (!i)).inside (by rw [hps, hm', hmx2])
        (by rw [hci, hin']) (by rw [hco])
    · apply goal2
      rw [hci, hin', hco]
      exact hexcl2
    · refine hall _ ?_ ?_
      · intro h; rw [hci, hin'] at h; rw [hord]; exact hlast _ h
      · intro h; rw [hco] at h; rw [hord]; exact hlast _ h
    · refine hall _ ?_ ?_
      · intro h; rw [hci, hinst'] at h; rw [hord]; exact hmem _ h
      · intro h; rw [hco] at h; rw [hord]; exact hmem _ h
    · rw [hps, hsl, hslot, Pair.slotSpec, Pair.slotSpec, hord]
      symm
      apply replayInstalls_congr
      intro j hj
      clear hj
      revert j
      refine hall _ ?_ ?_
      · rw [hci, hinst']; exact ⟨rfl, hdp⟩
      · rw [hco]; exact ⟨rfl, fun _ => rfl⟩

/-- What holds of two concurrent calls holds before either has started, on a
receiver whose mutex is free. -/
theorem Pair.Inv_init (ps : ProvisioningServiceImpl)
    (fa fb : String → Option DashboardProvisioner × Option GoError)
    (hfree : ps.mutex = false) :
    (Pair.init ps fa fb).Inv ps.dashboardProvisioner := by
  refine ⟨?_, ?_, ?_, ?_, ?_⟩
  · simp [Pair.init, Call.init, Call.inside, hfree]
  · left; simp [Pair.init, Call.init, Call.inside]
  · intro i h; simp [Pair.init, Call.init, Call.inside] at h
  · intro i h; simp [Pair.init, Call.init, Call.installed] at h
  · simp [Pair.slotSpec, Pair.lockOrder, Pair.init, replayInstalls]

/-- What holds of two concurrent calls holds after every schedule. -/
theorem Pair.Inv_run (env : Env) (initial : Option DashboardProvisioner)
    (schedule : List Bool) :
    ∀ st : Pair, st.Inv initial → (st.run env schedule).Inv initial := by
  induction schedule with
  | nil => intro st h; exact h
  | cons i schedule ih =>
    intro st h
    exact ih (st.step env i) (Pair.Inv_step env st initial i h)

/-- Replaying installs gives the initial value or the instance of a call of the
order that has installed. -/
theorem replayInstalls_cases (call : Bool → Call) (order : List Bool) :
    ∀ initial : Option DashboardProvisioner,
      replayInstalls call order initial = initial ∨
      ∃ j ∈ order, (call j).installed = true ∧
        replayInstalls call order initial = (call j).dashProvisioner := by
  induction order with
  | nil => intro initial; left; rfl
  | cons j order ih =>
    intro initial
    simp only [replayInstalls, List.foldl_cons] at ih ⊢
    cases hj : (call j).installed
    · simp only [Bool.false_eq_true, if_false]
      rcases ih initial with h | ⟨k, hk, hki, hkr⟩
      · exact Or.inl h
      · exact Or.inr ⟨k, List.mem_cons_of_mem _ hk, hki, hkr⟩
    · simp only [if_true]
      rcases ih (call j).dashProvisioner with h | ⟨k, hk, hki, hkr⟩
      · exact Or.inr ⟨j, List.mem_cons_self _ _, hj, h⟩
      · exact Or.inr ⟨k, List.mem_cons_of_mem _ hk, hki, hkr⟩

/-- Replaying installs when every installed call of the order has the same
instance `x`: the result is `x` if some call of the order has installed, and the
initial value otherwise. -/
theorem replayInstalls_uniform (call : Bool → Call) (x : Option DashboardProvisioner)
    (order : List Bool) :
    ∀ initial : Option DashboardProvisioner,
      (∀ j ∈ order, (call j).installed = true → (call j).dashProvisioner = x) →
      replayInstalls call order initial =
        if order.any (fun j => (call j).installed) then x else initial := by
  induction order with
  | nil => intro initial _; rfl
  | cons j order ih =>
    intro initial h
    have hrest := fun k hk => h k (List.mem_cons_of_mem _ hk)
    have hj := h j (List.mem_cons_self _ _)
    simp only [replayInstalls, List.foldl_cons] at ih ⊢
    rw [ih _ hrest]
    cases hji : (call j).installed
    · simp only [List.any_cons, hji, Bool.false_or, Bool.false_eq_true, if_false]
    · simp only [List.any_cons, hji, Bool.true_or, if_true, hj hji]
      split <;> rfl

/-- The receiver configuration never changes and each call keeps its factory;
once a call has run the factory, its local variable holds the instance the
factory built for it. -/
theorem Pair.built_run (env : Env) (ps : ProvisioningServiceImpl)
    (fa fb : String → Option DashboardProvisioner × Option GoError)
    (schedule : List Bool) :
    ∀ st : Pair,
      (st.ps.Cfg = ps.Cfg ∧ ∀ i, (st.call i).factory = (if i then fb else fa) ∧
        ((st.call i).pc ≠ .start → (st.call i).dashProvisioner =
          ((if i then fb else fa) (env.filepathJoin ps.Cfg.ProvisioningPath "dashboards")).1)) →
      ((st.run env schedule).ps.Cfg = ps.Cfg ∧
        ∀ i, ((st.run env schedule).call i).factory = (if i then fb else fa) ∧
        (((st.run env schedule).call i).pc ≠ .start →
          ((st.run env schedule).call i).dashProvisioner =
            ((if i then fb else fa)
              (env.filepathJoin ps.Cfg.ProvisioningPath "dashboards")).1)) := by
  induction schedule with
  | nil => intro st h; exact h
  | cons k schedule ih =>
    intro st ⟨hcfg, hcalls⟩
    apply ih
    obtain ⟨hfk, hdk⟩ := hcalls k
    have hstep : ((st.call k).step env st.ps).1.Cfg = st.ps.Cfg ∧
        ((st.call k).step env st.ps).2.1.factory = (st.call k).factory ∧
        (((st.call k).step env st.ps).2.1.pc ≠ .start →
          ((st.call k).step env st.ps).2.1.dashProvisioner =
            ((st.call k).factory (env.filepathJoin st.ps.Cfg.ProvisioningPath "dashboards")).1) := by
      cases hpc : (st.call k).pc
      · rcases hf : (st.call k).factory
          (env.filepathJoin st.ps.Cfg.ProvisioningPath "dashboards") with ⟨d, _ | e⟩ <;>
          simp [Call.step, hpc, hf]
      · cases hm : st.ps.mutex <;> simp [Call.step, hpc, hm] <;>
          (rw [hdk (by simp [hpc]), hfk, hcfg])
      · simp [Call.step, hpc, cancelPolling_ps]
        rw [hdk (by simp [hpc]), hfk, hcfg]
      · cases hd : (st.call k).dashProvisioner <;> simp [Call.step, hpc, hd] <;>
          (rw [← hd, hdk (by simp [hpc]), hfk, hcfg])
      · cases hd : (st.call k).dashProvisioner with
        | none =>
          simp [Call.step, hpc, hd]
          rw [← hd, hdk (by simp [hpc]), hfk, hcfg]
        | some d =>
          cases hp : d.Provision <;> simp [Call.step, hpc, hd, hp] <;>
            (rw [← hd, hdk (by simp [hpc]), hfk, hcfg])
      · simp [Call.step, hpc]
        rw [hdk (by simp [hpc]), hfk, hcfg]
      · simp [Call.step, hpc]
        rw [hdk (by simp [hpc]), hfk, hcfg]
      · simp [Call.step, hpc]
        rw [hdk (by simp [hpc]), hfk, hcfg]
    obtain ⟨h1, h2, h3⟩ := hstep
    refine ⟨by simp only [Pair.step]; rw [h1, hcfg], fun i => ?_⟩
    by_cases hik : i = k
    · subst hik
      simp only [Pair.step, if_true]
      refine ⟨by rw [h2, hfk], fun hne => ?_⟩
      rw [h3 hne, hfk, hcfg]
    · simp only [Pair.step, if_neg hik]
      exact hcalls i

/-- A call that runs alone, statement by statement, on a receiver whose mutex is
free, does what the method `ProvisionDashboards` does: same receiver afterwards,
same returned value, same effects. -/
theorem Pair.run_alone (env : Env) (ps : ProvisioningServiceImpl)
    (fb : String → Option DashboardProvisioner × Option GoError)
    (hfree : ps.mutex = false) :
    (Pair.run env (Pair.init ps ps.newDashboardProvisioner fb) (List.replicate 8 false)).ps =
      (ProvisionDashboards env ps).ps ∧
    ((Pair.run env (Pair.init ps ps.newDashboardProvisioner fb)
      (List.replicate 8 false)).call false).pc = .done ∧
    ((Pair.run env (Pair.init ps ps.newDashboardProvisioner fb)
      (List.replicate 8 false)).call false).ret = some (ProvisionDashboards env ps).ret ∧
    (Pair.run env (Pair.init ps ps.newDashboardProvisioner fb) (List.replicate 8 false)).events =
      (ProvisionDashboards env ps).events.map (fun e => (false, e)) := by
  rcases hf : ps.newDashboardProvisioner
      (env.filepathJoin ps.Cfg.ProvisioningPath "dashboards") with ⟨d, _ | e⟩
  · rcases d with _ | d
    · cases hc : ps.pollingCtxCancel <;>
        simp [Pair.run, Pair.step, Pair.init, Call.init, Call.step, List.replicate,
          ProvisionDashboards, cancelPolling, hf, hfree, hc]
    · cases hp : d.Provision <;> cases hc : ps.pollingCtxCancel <;>
        simp [Pair.run, Pair.step, Pair.init, Call.init, Call.step, List.replicate,
          ProvisionDashboards, cancelPolling, hf, hfree, hc, hp]
  · simp [Pair.run, Pair.step, Pair.init, Call.init, Call.step, List.replicate,
      ProvisionDashboards, hf]

/-- C16: exclusive installation, in the model where two `ProvisionDashboards`
calls advance statement by statement in any interleaving from a free mutex. At
every moment at most one call is between its `Lock` and its `Unlock`, and the
mutex is held exactly then, so the locked sections (cancel, orphan cleanup,
`Provision`, install) do not interleave. The slot is never torn: it holds the
value from before the calls or the whole instance built by a call that has
installed. It is the instance of the call that acquired the mutex last among
those that installed: of the only one that installed, or, when both did, of
the one whose locked section came second; with no install it is unchanged. A
call running alone in this model does what the method does. -/
theorem C16_exclusive_installation (env : Env) (ps : ProvisioningServiceImpl)
    (fa fb : String → Option DashboardProvisioner × Option GoError)
    (schedule : List Bool) (hfree : ps.mutex = false) :
    (((twoCalls env ps fa fb schedule).call false).inside = false ∨
      ((twoCalls env ps fa fb schedule).call true).inside = false) ∧
    (twoCalls env ps fa fb schedule).ps.mutex =
      (((twoCalls env ps fa fb schedule).call false).inside ||
        ((twoCalls env ps fa fb schedule).call true).inside) ∧
    (∀ i, ((twoCalls env ps fa fb schedule).call i).installed = true →
      i ∈ (twoCalls env ps fa fb schedule).lockOrder ∧
      ((twoCalls env ps fa fb schedule).call i).dashProvisioner =
        ((if i then fb else fa) (env.filepathJoin ps.Cfg.ProvisioningPath "dashboards")).1) ∧
    ((twoCalls env ps fa fb schedule).ps.dashboardProvisioner = ps.dashboardProvisioner ∨
      ∃ i, ((twoCalls env ps fa fb schedule).call i).installed = true ∧
        (twoCalls env ps fa fb schedule).ps.dashboardProvisioner =
          ((twoCalls env ps fa fb schedule).call i).dashProvisioner) ∧
    (((twoCalls env ps fa fb schedule).call false).installed = false →
      ((twoCalls env ps fa fb schedule).call true).installed = false →
      (twoCalls env ps fa fb schedule).ps.dashboardProvisioner = ps.dashboardProvisioner) ∧
    (∀ i, ((twoCalls env ps fa fb schedule).call i).installed = true →
      ((twoCalls env ps fa fb schedule).call (!i)).installed = false →
      (twoCalls env ps fa fb schedule).ps.dashboardProvisioner =
        ((twoCalls env ps fa fb schedule).call i).dashProvisioner) ∧
    (∀ i l, (twoCalls env ps fa fb schedule).lockOrder = l ++ [i] →
      ((twoCalls env ps fa fb schedule).call i).installed = true →
      (twoCalls env ps fa fb schedule).ps.dashboardProvisioner =
        ((twoCalls env ps fa fb schedule).call i).dashProvisioner) ∧
    ((twoCalls env ps ps.newDashboardProvisioner fb (List.replicate 8 false)).ps =
        (ProvisionDashboards env ps).ps ∧
      ((twoCalls env ps ps.newDashboardProvisioner fb (List.replicate 8 false)).call false).ret =
        some (ProvisionDashboards env ps).ret ∧
      (twoCalls env ps ps.newDashboardProvisioner fb (List.replicate 8 false)).events =
        (ProvisionDashboards env ps).events.map (fun e => (false, e))) := by
  obtain ⟨hmx, hexcl, _, hmem, hslot⟩ :=
    Pair.Inv_run env ps.dashboardProvisioner schedule _ (Pair.Inv_init ps fa fb hfree)
  have hbuilt := Pair.built_run env ps fa fb schedule (Pair.init ps fa fb)
    ⟨rfl, fun i => ⟨rfl, fun h => absurd rfl h⟩⟩
  obtain ⟨a1, _, a3, a4⟩ := Pair.run_alone env ps fb hfree
  refine ⟨hexcl, hmx, ?_, ?_, ?_, ?_, ?_, a1, a3, a4⟩
  · intro i hi
    refine ⟨hmem i hi, (hbuilt.2 i).2 ?_⟩
    intro hstart
    simp [Call.installed, twoCalls] at hi
    rw [hstart] at hi
    simp at hi
  · rw [twoCalls, hslot, Pair.slotSpec]
    rcases replayInstalls_cases _ _ ps.dashboardProvisioner with h | ⟨j, _, hj, hr⟩
    · exact Or.inl h
    · exact Or.inr ⟨j, hj, hr⟩
  · intro h0 h1
    rw [twoCalls, hslot, Pair.slotSpec, replayInstalls_uniform _ none]
    · have hany : ((Pair.run env (Pair.init ps fa fb) schedule).lockOrder.any
          (fun j => ((Pair.run env (Pair.init ps fa fb) schedule).call j).installed)) = false := by
        rw [List.any_eq_false]
        intro j _
        cases j
        · simpa [twoCalls] using h0
        · simpa [twoCalls] using h1
      rw [hany]; rfl
    · intro j _ hj
      cases j
      · rw [show (Pair.run env (Pair.init ps fa fb) schedule) = twoCalls env ps fa fb schedule
          from rfl, h0] at hj
        exact absurd hj (by simp)
      · rw [show (Pair.run env (Pair.init ps fa fb) schedule) = twoCalls env ps fa fb schedule
          from rfl, h1] at hj
        exact absurd hj (by simp)
  · intro i hi hother
    rw [twoCalls, hslot, Pair.slotSpec,
      replayInstalls_uniform _ ((Pair.run env (Pair.init ps fa fb) schedule).call i).dashProvisioner]
    · have hany : ((Pair.run env (Pair.init ps fa fb) schedule).lockOrder.any
          (fun j => ((Pair.run env (Pair.init ps fa fb) schedule).call j).installed)) = true := by
        rw [List.any_eq_true]
        exact ⟨i, hmem i hi, hi⟩
      rw [hany]; rfl
    · intro j _ hj
      by_cases hji : j = i
      · rw [hji]
      · have : j = !i := by cases i <;> cases j <;> simp_all
        rw [this] at hj
        rw [show (Pair.run env (Pair.init ps fa fb) schedule) = twoCalls env ps fa fb schedule
          from rfl, hother] at hj
        exact absurd hj (by simp)
  · intro i l hl hi
    rw [twoCalls] at hl hi ⊢
    rw [hslot, Pair.slotSpec, hl, replayInstalls_snoc, hi]
    rfl

/-- Witness of C16: on `exPs`, a first call whose factory builds `exV2` and a
second whose instance `exV3` fails to provision, interleaved so that the second
waits at `Lock`: `exV2` ends up installed, the mutex free, and the first call
held the mutex before the second. -/
theorem C16_exclusive_installation_witness :
    (twoCalls exEnv exPs (fun _ => (some exV2, none)) (fun _ => (some exV3, none))
      exInterleaving).ps.dashboardProvisioner = some exV2 ∧
    (twoCalls exEnv exPs (fun _ => (some exV2, none)) (fun _ => (some exV3, none))
      exInterleaving).ps.mutex = false ∧
    (twoCalls exEnv exPs (fun _ => (some exV2, none)) (fun _ => (some exV3, none))
      exInterleaving).lockOrder = [false, true] :=
  ⟨(C16_exclusive_installation exEnv exPs (fun _ => (some exV2, none))
      (fun _ => (some exV3, none)) exInterleaving rfl).2.2.2.2.2.1 false (by decide)
      (by decide),
   ((C16_exclusive_installation exEnv exPs (fun _ => (some exV2, none))
      (fun _ => (some exV3, none)) exInterleaving rfl).2.1).trans (by decide),
   by decide⟩

/-- C22: once the factory has built `d` and the call holds the mutex, the effects
of `ProvisionDashboards` are, in this order: the cancel of the recorded polling
function (if any), `CleanUpOrphanedDashboards` on `d`, `Provision` on `d`, and,
only when `Provision` succeeded, the install of `d`. Orphan cleanup and
`Provision` are called on `d` and on no other instance, and orphan cleanup has
run on `d` also when `Provision` then fails. Statement by statement: after the
first five statements of a call that runs alone (factory, `Lock`, cancel,
cleanup, `Provision`) the slot is still as before, and the sixth installs. -/
theorem C22_effect_order (env : Env) (ps : ProvisioningServiceImpl)
    (d : DashboardProvisioner)
    (fb : String → Option DashboardProvisioner × Option GoError)
    (hfac : ps.newDashboardProvisioner
      (env.filepathJoin ps.Cfg.ProvisioningPath "dashboards") = (some d, none))
    (hfree : ps.mutex = false) :
    (ProvisionDashboards env ps).events =
      [.call .dashboards (env.filepathJoin ps.Cfg.ProvisioningPath "dashboards"), .mutexLock] ++
        (cancelPolling { ps with mutex := true }).events ++
        [.cleanUpOrphanedDashboards d.id, .provision d.id, .mutexUnlock] ∧
    (∀ c, ps.pollingCtxCancel = some c →
      (ProvisionDashboards env ps).events =
        [.call .dashboards (env.filepathJoin ps.Cfg.ProvisioningPath "dashboards"), .mutexLock,
          .logDebug "Stop polling for dashboard changes", .cancel c,
          .cleanUpOrphanedDashboards d.id, .provision d.id, .mutexUnlock]) ∧
    (∀ id, (Event.cleanUpOrphanedDashboards id ∈ (ProvisionDashboards env ps).events →
        id = d.id) ∧
      (Event.provision id ∈ (ProvisionDashboards env ps).events → id = d.id)) ∧
    (d.Provision = none → (ProvisionDashboards env ps).ps.dashboardProvisioner = some d) ∧
    (d.Provision ≠ none →
      (ProvisionDashboards env ps).ps.dashboardProvisioner = ps.dashboardProvisioner ∧
      Event.cleanUpOrphanedDashboards d.id ∈ (ProvisionDashboards env ps).events) ∧
    ((twoCalls env ps ps.newDashboardProvisioner fb
        (List.replicate 5 false)).ps.dashboardProvisioner = ps.dashboardProvisioner ∧
      (twoCalls env ps ps.newDashboardProvisioner fb (List.replicate 5 false)).events =
        ([Event.call .dashboards (env.filepathJoin ps.Cfg.ProvisioningPath "dashboards"),
            Event.mutexLock] ++ (cancelPolling { ps with mutex := true }).events ++
          [Event.cleanUpOrphanedDashboards d.id, Event.provision d.id]).map
            (fun e => (false, e))) ∧
    (d.Provision = none →
      (twoCalls env ps ps.newDashboardProvisioner fb
        (List.replicate 6 false)).ps.dashboardProvisioner = some d ∧
      (twoCalls env ps ps.newDashboardProvisioner fb (List.replicate 6 false)).events =
        (twoCalls env ps ps.newDashboardProvisioner fb (List.replicate 5 false)).events) := by
  have hev : (ProvisionDashboards env ps).events =
      [.call .dashboards (env.filepathJoin ps.Cfg.ProvisioningPath "dashboards"), .mutexLock] ++
        (cancelPolling { ps with mutex := true }).events ++
        [.cleanUpOrphanedDashboards d.id, .provision d.id, .mutexUnlock] := by
    cases hp : d.Provision
    · rw [ProvisionDashboards_success env ps d hfac hfree hp]
    · rw [ProvisionDashboards_provision_error env ps d _ hfac hfree hp]
  refine ⟨hev, ?_, ?_, ?_, ?_, ?_, ?_⟩
  · intro c hc
    rw [hev]
    simp [cancelPolling, hc]
  · intro id
    rw [hev]
    cases hc : ps.pollingCtxCancel <;> simp [cancelPolling, hc]
  · intro hp
    rw [ProvisionDashboards_success env ps d hfac hfree hp]
  · intro hp
    cases hp2 : d.Provision with
    | none => exact absurd hp2 hp
    | some e =>
      rw [ProvisionDashboards_provision_error env ps d e hfac hfree hp2, cancelPolling_ps]
      simp
  · cases hp : d.Provision <;> cases hc : ps.pollingCtxCancel <;>
      simp [twoCalls, Pair.run, Pair.step, Pair.init, Call.init, Call.step, List.replicate,
        cancelPolling, hfac, hfree, hc, hp]
  · intro hp
    cases hc : ps.pollingCtxCancel <;>
      simp [twoCalls, Pair.run, Pair.step, Pair.init, Call.init, Call.step, List.replicate,
        cancelPolling, hfac, hfree, hc, hp]

/-- Witness of C22: on `exPsProvisionFails` the cancel of context 7, the orphan
cleanup and the failing `Provision` on `exV3` come in this order and `exV1`
stays installed. -/
theorem C22_effect_order_witness :
    (ProvisionDashboards exEnv exPsProvisionFails).events =
      [.call .dashboards "/conf/dashboards", .mutexLock,
        .logDebug "Stop polling for dashboard changes", .cancel ⟨7⟩,
        .cleanUpOrphanedDashboards 3, .provision 3, .mutexUnlock] ∧
    (ProvisionDashboards exEnv exPsProvisionFails).ps.dashboardProvisioner = some exV1 :=
  ⟨(C22_effect_order exEnv exPsProvisionFails exV3 (fun _ => (none, none)) rfl rfl).2.1
      ⟨7⟩ rfl,
   ((C22_effect_order exEnv exPsProvisionFails exV3 (fun _ => (none, none)) rfl
      rfl).2.2.2.2.1 (by decide)).1⟩

/-- From a free mutex, `ProvisionDashboards` ends with the mutex free whatever
its outcome, never installs nil over an instance, never waits, and panics only
when the factory returned neither an instance nor an error. -/
theorem ProvisionDashboards_free (env : Env) (ps : ProvisioningServiceImpl)
    (hfree : ps.mutex = false) :
    (ProvisionDashboards env ps).ps.mutex = false ∧
    (ps.dashboardProvisioner ≠ none →
      (ProvisionDashboards env ps).ps.dashboardProvisioner ≠ none) ∧
    (ProvisionDashboards env ps).ret ≠ .blocked ∧
    ((ProvisionDashboards env ps).ret = .panicked →
      ps.newDashboardProvisioner (env.filepathJoin ps.Cfg.ProvisioningPath "dashboards") =
        (none, none)) := by
  rcases h : ps.newDashboardProvisioner
      (env.filepathJoin ps.Cfg.ProvisioningPath "dashboards") with ⟨d, _ | u⟩
  · rcases d with _ | d
    · rw [ProvisionDashboards_nil_instance env ps h hfree, cancelPolling_ps]
      simp
    · cases hp : d.Provision
      · rw [ProvisionDashboards_success env ps d h hfree hp]
        simp
      · rw [ProvisionDashboards_provision_error env ps d _ h hfree hp, cancelPolling_ps]
        simp
  · rw [ProvisionDashboards_factory_error env ps d u h]
    simp [hfree]

/-- The trace of `ProvisionDashboards` from a free mutex: the factory call comes
first, and either nothing follows (the factory failed, the mutex was never
taken) or one `Lock`, the locked section, and one `Unlock` at the very end. -/
theorem ProvisionDashboards_bracket (env : Env) (ps : ProvisioningServiceImpl)
    (hfree : ps.mutex = false) :
    (ProvisionDashboards env ps).events =
      [.call .dashboards (env.filepathJoin ps.Cfg.ProvisioningPath "dashboards")] ∨
    ∃ mid, (ProvisionDashboards env ps).events =
        .call .dashboards (env.filepathJoin ps.Cfg.ProvisioningPath "dashboards") ::
          .mutexLock :: mid ++ [.mutexUnlock] ∧
      Event.mutexLock ∉ mid ∧ Event.mutexUnlock ∉ mid := by
  rcases h : ps.newDashboardProvisioner
      (env.filepathJoin ps.Cfg.ProvisioningPath "dashboards") with ⟨d, _ | u⟩
  · right
    rcases d with _ | d
    · rw [ProvisionDashboards_nil_instance env ps h hfree]
      refine ⟨(cancelPolling { ps with mutex := true }).events, by simp, ?_⟩
      cases hc : ps.pollingCtxCancel <;> simp [cancelPolling, hc]
    · cases hp : d.Provision
      · rw [ProvisionDashboards_success env ps d h hfree hp]
        refine ⟨(cancelPolling { ps with mutex := true }).events ++
          [.cleanUpOrphanedDashboards d.id, .provision d.id], by simp, ?_⟩
        cases hc : ps.pollingCtxCancel <;> simp [cancelPolling, hc]
      · rw [ProvisionDashboards_provision_error env ps d _ h hfree hp]
        refine ⟨(cancelPolling { ps with mutex := true }).events ++
          [.cleanUpOrphanedDashboards d.id, .provision d.id], by simp, ?_⟩
        cases hc : ps.pollingCtxCancel <;> simp [cancelPolling, hc]
  · left
    rw [ProvisionDashboards_factory_error env ps d u h]

/-- While `Run` waits and loops from a state with the mutex free and a
provisioner installed: the mutex is free and a provisioner installed at the end
of every schedule, `Run` never waits on the mutex, and it panics only through a
reload whose factory returned neither an instance nor an error. -/
theorem Run.select_safe (env : Env) (rootErr : GoError) (ticks : List Tick) :
    ∀ (pc : Nat) (s : RunState), s.ps.mutex = false → s.ps.dashboardProvisioner ≠ none →
      ((Run.select env rootErr ticks pc s).1.ps.mutex = false ∧
        (Run.select env rootErr ticks pc s).1.ps.dashboardProvisioner ≠ none) ∧
      (Run.select env rootErr ticks pc s).2 ≠ .blocked ∧
      ((∀ t ∈ ticks, t.buildsInstance) →
        (Run.select env rootErr ticks pc s).2 ≠ .panicked) := by
  induction ticks with
  | nil => intro pc s hm hd; simp [Run.select, hm, hd]
  | cons t ticks ih =>
    intro pc s hm hd
    have hrest : (∀ u ∈ t :: ticks, u.buildsInstance) → ∀ u ∈ ticks, u.buildsInstance :=
      fun h u hu => h u (List.mem_cons_of_mem _ hu)
    cases t with
    | cancelRoot =>
      simp only [Run.select]
      obtain ⟨h1, h2, h3⟩ := ih pc { s with rootDone := true } hm hd
      exact ⟨h1, h2, fun h => h3 (hrest h)⟩
    | reload f =>
      obtain ⟨f1, f2, f3, f4⟩ :=
        ProvisionDashboards_free env { s.ps with newDashboardProvisioner := f } hm
      simp only [Run.select]
      split
      · rename_i hpan
        refine ⟨⟨f1, f2 hd⟩, by simp, ?_⟩
        intro hall
        have hb : (Tick.reload f).buildsInstance := hall _ (List.mem_cons_self _ _)
        have hnil := f4 hpan
        exact absurd (congrArg Prod.fst hnil) (hb _ (congrArg Prod.snd hnil))
      · obtain ⟨h1, h2, h3⟩ := ih pc
          { s with
            ps := (ProvisionDashboards env { s.ps with newDashboardProvisioner := f }).ps
            events := s.events ++
              (ProvisionDashboards env { s.ps with newDashboardProvisioner := f }).events }
          f1 (f2 hd)
        exact ⟨h1, h2, fun h => h3 (hrest h)⟩
    | pollingDone =>
      simp only [Run.select]
      split
      · rcases Run.enterLoop_cases s with ⟨hb, _, _⟩ | ⟨_, hn, _⟩ | ⟨d, _, hsd, hret, hst⟩
        · rw [hm] at hb; exact absurd hb (by simp)
        · exact absurd hn hd
        · rw [hret]
          simp only
          obtain ⟨h1, h2, h3⟩ := ih s.nextCtx (Run.enterLoop s).1
            (by rw [hst]) (by rw [hst]; simp [hsd])
          exact ⟨h1, h2, fun h => h3 (hrest h)⟩
      · obtain ⟨h1, h2, h3⟩ := ih pc s hm hd
        exact ⟨h1, h2, fun h => h3 (hrest h)⟩
    | rootDone =>
      simp only [Run.select]
      split
      · simp [cancelPolling_ps, hm, hd]
      · obtain ⟨h1, h2, h3⟩ := ih pc s hm hd
        exact ⟨h1, h2, fun h => h3 (hrest h)⟩

/-- From a free mutex, `Run` ends every schedule with the mutex free, never waits
on the mutex, and panics only when a factory (its own or that of a reload)
returned neither an instance nor an error. -/
theorem Run_safe (env : Env) (rootErr : GoError) (ticks : List Tick) (s : RunState)
    (hfree : s.ps.mutex = false) :
    (Run env rootErr ticks s).1.ps.mutex = false ∧
    (Run env rootErr ticks s).2 ≠ .blocked ∧
    ((∀ path, (s.ps.newDashboardProvisioner path).2 = none →
        (s.ps.newDashboardProvisioner path).1 ≠ none) →
      (∀ t ∈ ticks, t.buildsInstance) → (Run env rootErr ticks s).2 ≠ .panicked) := by
  obtain ⟨f1, _, f3, f4⟩ := ProvisionDashboards_free env s.ps hfree
  cases hpd : (ProvisionDashboards env s.ps).ret with
  | returned r =>
    cases r with
    | some e =>
      rw [Run_initial_error env rootErr ticks s e hpd]
      exact ⟨f1, by simp, fun _ _ => by simp⟩
    | none =>
      obtain ⟨d, hinst, hrun⟩ := Run_enters_loop env rootErr ticks s hpd
      rw [hrun]
      obtain ⟨h1, h2, h3⟩ := Run.select_safe env rootErr ticks s.nextCtx
        { ps := { (ProvisionDashboards env s.ps).ps with
            mutex := false, pollingCtxCancel := some ⟨s.nextCtx⟩ }
          nextCtx := s.nextCtx + 1
          events := s.events ++ (ProvisionDashboards env s.ps).events ++
            (if d.HasDashboardSources then [.triggerReIndex] else []) ++
            [.mutexLock, .pollChanges d.id s.nextCtx, .mutexUnlock]
          rootDone := s.rootDone }
        rfl (by simp [hinst])
      exact ⟨h1.1, h2, fun _ h => h3 h⟩
  | panicked =>
    refine ⟨by simp [Run, hpd, f1], by simp [Run, hpd], ?_⟩
    intro hb _
    have hnil := f4 hpd
    exact absurd (congrArg Prod.fst hnil) (hb _ (congrArg Prod.snd hnil))
  | blocked => exact absurd hpd f3

/-- A wait of `Run` that is still waiting at the end of a schedule goes on, on
the ticks that follow, from the state and the polling context it has reached. -/
theorem Run.select_append (env : Env) (rootErr : GoError) (ticks more : List Tick) :
    ∀ (pc : Nat) (s w : RunState) (pc2 : Nat),
      Run.select env rootErr ticks pc s = (w, .waiting pc2) →
      Run.select env rootErr (ticks ++ more) pc s = Run.select env rootErr more pc2 w := by
  induction ticks with
  | nil =>
    intro pc s w pc2 h
    simp only [Run.select, Prod.mk.injEq, RunResult.waiting.injEq] at h
    obtain ⟨h1, h2⟩ := h
    subst h1 h2
    rfl
  | cons t ticks ih =>
    intro pc s w pc2 h
    cases t with
    | cancelRoot =>
      simp only [Run.select, List.cons_append] at h ⊢
      exact ih _ _ _ _ h
    | reload f =>
      simp only [Run.select, List.cons_append] at h ⊢
      split at h
      · simp at h
      · exact ih _ _ _ _ h
    | pollingDone =>
      simp only [Run.select, List.cons_append] at h ⊢
      split at h
      · rename_i hdone
        split at h
        · rw [if_pos hdone]; exact ih _ _ _ _ h
        · simp at h
        · simp at h
      · rename_i hdone
        rw [if_neg hdone]; exact ih _ _ _ _ h
    | rootDone =>
      simp only [Run.select, List.cons_append] at h ⊢
      split at h
      · simp at h
      · rename_i hdone
        rw [if_neg hdone]; exact ih _ _ _ _ h

/-- What holds during a wait of `Run` holds at the end of every schedule that
leaves it waiting. -/
theorem Run.select_WaitInv (env : Env) (rootErr : GoError) (before : List Nat)
    (ticks : List Tick) :
    ∀ (pc : Nat) (s w : RunState) (pc2 : Nat), Run.WaitInv before pc s →
      Run.select env rootErr ticks pc s = (w, .waiting pc2) → Run.WaitInv before pc2 w := by
  induction ticks with
  | nil =>
    intro pc s w pc2 hinv h
    simp only [Run.select, Prod.mk.injEq, RunResult.waiting.injEq] at h
    obtain ⟨h1, h2⟩ := h
    subst h1 h2
    exact hinv
  | cons t ticks ih =>
    intro pc s w pc2 hinv h
    cases t with
    | cancelRoot =>
      simp only [Run.select] at h
      exact ih pc { s with rootDone := true } w pc2 hinv h
    | reload f =>
      simp only [Run.select] at h
      split at h
      · simp at h
      · exact ih pc _ w pc2 (Run.WaitInv_reload env before pc s f hinv) h
    | pollingDone =>
      simp only [Run.select] at h
      split at h
      · rename_i hdone
        split at h
        · rename_i o hret
          exact ih _ _ w pc2 (Run.WaitInv_enterLoop before pc s hinv hdone o hret) h
        · simp at h
        · simp at h
      · exact ih pc s w pc2 hinv h
    | rootDone =>
      simp only [Run.select] at h
      split at h
      · simp at h
      · exact ih pc s w pc2 hinv h

/-- A run that is waiting at the end of a schedule goes on from there on the
ticks that follow. At that point the mutex is free, a provisioner is installed,
and the cancel function of the polling context waited on is recorded or has
been invoked. -/
theorem Run_waiting (env : Env) (rootErr : GoError) (ticks : List Tick) (s w : RunState)
    (pc : Nat) (h : Run env rootErr ticks s = (w, .waiting pc)) :
    (∀ more, Run env rootErr (ticks ++ more) s = Run.select env rootErr more pc w) ∧
    w.ps.mutex = false ∧ (∃ v1, w.ps.dashboardProvisioner = some v1) ∧
    (w.ps.pollingCtxCancel = some ⟨pc⟩ ∨ (⟨pc⟩ : CancelFunc) ∈ cancelled w.events) := by
  cases hpd : (ProvisionDashboards env s.ps).ret with
  | returned r =>
    cases r with
    | some e =>
      rw [Run_initial_error env rootErr ticks s e hpd] at h
      simp at h
    | none =>
      obtain ⟨d, hinst, hrun⟩ := Run_enters_loop env rootErr ticks s hpd
      obtain ⟨hq, _⟩ := ProvisionDashboards_quiet env s.ps
      rw [hrun] at h
      have hsafe := (Run.select_safe env rootErr ticks s.nextCtx
        { ps := { (ProvisionDashboards env s.ps).ps with
            mutex := false, pollingCtxCancel := some ⟨s.nextCtx⟩ }
          nextCtx := s.nextCtx + 1
          events := s.events ++ (ProvisionDashboards env s.ps).events ++
            (if d.HasDashboardSources then [.triggerReIndex] else []) ++
            [.mutexLock, .pollChanges d.id s.nextCtx, .mutexUnlock]
          rootDone := s.rootDone }
        rfl (by simp [hinst])).1
      rw [h] at hsafe
      have hinv : Run.WaitInv (polled s.events) s.nextCtx
          { ps := { (ProvisionDashboards env s.ps).ps with
              mutex := false, pollingCtxCancel := some ⟨s.nextCtx⟩ }
            nextCtx := s.nextCtx + 1
            events := s.events ++ (ProvisionDashboards env s.ps).events ++
              (if d.HasDashboardSources then [.triggerReIndex] else []) ++
              [.mutexLock, .pollChanges d.id s.nextCtx, .mutexUnlock]
            rootDone := s.rootDone } := by
        have hpol : polled (s.events ++ (ProvisionDashboards env s.ps).events ++
            (if d.HasDashboardSources then [.triggerReIndex] else []) ++
            [.mutexLock, .pollChanges d.id s.nextCtx, .mutexUnlock]) =
            polled s.events ++ [s.nextCtx] := by
          simp only [polled_reIndexes_append, hq]
          cases d.HasDashboardSources <;> simp [polled, Event.polledCtx]
        refine ⟨⟨polled s.events, hpol⟩, Or.inl rfl, ?_⟩
        intro n hn
        simp only [hpol, List.mem_append, List.mem_singleton] at hn
        rcases hn with hn | hn
        · exact Or.inr (Or.inl hn)
        · exact Or.inl hn
      have hw := Run.select_WaitInv env rootErr (polled s.events) ticks _ _ w pc hinv h
      refine ⟨?_, hsafe.1, ?_, hw.2.1⟩
      · intro more
        obtain ⟨d2, hinst2, hrun2⟩ := Run_enters_loop env rootErr (ticks ++ more) s hpd
        rw [hinst] at hinst2
        cases hinst2
        rw [hrun2]
        exact Run.select_append env rootErr ticks more _ _ w pc h
      · cases hd : w.ps.dashboardProvisioner with
        | none => exact absurd hd hsafe.2
        | some v1 => exact ⟨v1, rfl⟩
  | panicked =>
    rcases Run_initial_stuck env rootErr ticks s (Or.inl hpd) with h2 | h2 <;>
      rw [h] at h2 <;> simp at h2
  | blocked =>
    rcases Run_initial_stuck env rootErr ticks s (Or.inr hpd) with h2 | h2 <;>
      rw [h] at h2 <;> simp at h2

/-- A reload whose factory builds `v2`, during a wait of `Run` on `pc` with the
mutex free and `v1` installed: the wait goes on, the polling context `pc` is
done afterwards, and the installed provisioner is `v2` if its `Provision`
succeeded and `v1` otherwise. -/
theorem Run.select_reload (env : Env) (rootErr : GoError) (ticks : List Tick) (pc : Nat)
    (w : RunState) (v1 v2 : DashboardProvisioner)
    (f : String → Option DashboardProvisioner × Option GoError)
    (hm : w.ps.mutex = false) (hd : w.ps.dashboardProvisioner = some v1)
    (hslot : w.ps.pollingCtxCancel = some ⟨pc⟩ ∨ (⟨pc⟩ : CancelFunc) ∈ cancelled w.events)
    (hf : f (env.filepathJoin w.ps.Cfg.ProvisioningPath "dashboards") = (some v2, none)) :
    Run.select env rootErr (.reload f :: ticks) pc w =
      Run.select env rootErr ticks pc
        { w with
          ps := (ProvisionDashboards env { w.ps with newDashboardProvisioner := f }).ps
          events := w.events ++
            (ProvisionDashboards env { w.ps with newDashboardProvisioner := f }).events } ∧
    (⟨pc⟩ : CancelFunc) ∈ cancelled (w.events ++
      (ProvisionDashboards env { w.ps with newDashboardProvisioner := f }).events) ∧
    (ProvisionDashboards env { w.ps with newDashboardProvisioner := f }).ps.mutex = false ∧
    (ProvisionDashboards env { w.ps with newDashboardProvisioner := f }).ps.dashboardProvisioner =
      some (if v2.Provision = none then v2 else v1) := by
  simp only [Run.select]
  generalize hq : ({ w.ps with newDashboardProvisioner := f } : ProvisioningServiceImpl) = q
  have hqm : q.mutex = false := by rw [← hq]; exact hm
  have hqd : q.dashboardProvisioner = some v1 := by rw [← hq]; exact hd
  have hqs : q.pollingCtxCancel = w.ps.pollingCtxCancel := by rw [← hq]
  have hqf : q.newDashboardProvisioner
      (env.filepathJoin q.Cfg.ProvisioningPath "dashboards") = (some v2, none) := by
    rw [← hq]; exact hf
  have hcp : cancelled (cancelPolling { q with mutex := true }).events =
      w.ps.pollingCtxCancel.toList := by
    rw [← hqs]; exact cancelPolling_cancelled _
  have hmem : ∀ tail : List Event, (⟨pc⟩ : CancelFunc) ∈ cancelled (w.events ++
      ([Event.call .dashboards (env.filepathJoin q.Cfg.ProvisioningPath "dashboards"),
          Event.mutexLock] ++ (cancelPolling { q with mutex := true }).events ++ tail)) := by
    intro tail
    simp only [cancelled_append, List.mem_append, hcp]
    rcases hslot with hslot | hslot
    · right; left; right
      simp [hslot]
    · exact Or.inl hslot
  cases hp : v2.Provision with
  | none =>
    have hpd := ProvisionDashboards_success env q v2 hqf hqm hp
    refine ⟨?_, ?_, ?_, ?_⟩
    · simp only [hpd]
    · rw [hpd]; exact hmem _
    · rw [hpd]
    · rw [hpd]; simp
  | some e =>
    have hpd := ProvisionDashboards_provision_error env q v2 e hqf hqm hp
    refine ⟨?_, ?_, ?_, ?_⟩
    · simp only [hpd]
    · rw [hpd]; exact hmem _
    · rw [hpd]
    · rw [hpd, cancelPolling_ps]; simp [hqd]

/-- C15: cancelling a polling epoch neither cancels the parent context nor ends
`Run`. On every schedule without a cancellation of the parent context, the
parent context stays as it was and, if it was live and the initial
`ProvisionDashboards` succeeded, `Run` does not return, however many polling
contexts are cancelled. When the polling context of a wait is done, the polling
case starts a new epoch: `PollChanges` is called, under the mutex, on the
provisioner installed at that moment with the next new context, whose cancel
function is recorded. After a reload that succeeds this is the instance the
reload installed; after a reload whose `Provision` fails it is the instance
installed before. The contexts polled by a run are pairwise distinct.
For `Run` itself: after a successful initial `ProvisionDashboards` that built
`v1`, `Run` calls `PollChanges` on `v1` with a new context, records its cancel
function and waits. Whenever `Run` waits on `pc` at the end of a schedule, a
provisioner is installed and the mutex free; if `pc` is done, the polling case
makes `Run` call `PollChanges` on the installed provisioner with the next new
context and wait on that one, and if `pc` is not done the polling case changes
nothing; and a reload that builds `v2`, followed by the polling case, makes
`Run` call `PollChanges` with the next new context on `v2` when `Provision`
succeeded on it and on the provisioner installed before when it failed, with
`pc` cancelled and the parent context as it was. -/
theorem C15_polling_epoch_restart (env : Env) (rootErr : GoError) (ticks : List Tick)
    (s : RunState) :
    ((∀ t ∈ ticks, t.isCancelRoot = false) →
      (Run env rootErr ticks s).1.rootDone = s.rootDone) ∧
    ((ProvisionDashboards env s.ps).ret = .returned none → s.rootDone = false →
      (∀ t ∈ ticks, t.isCancelRoot = false) →
      ∀ x, (Run env rootErr ticks s).2 ≠ .returned x) ∧
    (∀ (pc : Nat) (w : RunState) (d : DashboardProvisioner),
      (⟨pc⟩ : CancelFunc) ∈ cancelled w.events → w.ps.mutex = false →
      w.ps.dashboardProvisioner = some d →
      Run.select env rootErr (.pollingDone :: ticks) pc w =
        Run.select env rootErr ticks w.nextCtx
          { ps := { w.ps with mutex := false, pollingCtxCancel := some ⟨w.nextCtx⟩ }
            nextCtx := w.nextCtx + 1
            events := w.events ++ [.mutexLock, .pollChanges d.id w.nextCtx, .mutexUnlock]
            rootDone := w.rootDone }) ∧
    (∀ (pc : Nat) (w : RunState) (v1 v2 : DashboardProvisioner)
      (f : String → Option DashboardProvisioner × Option GoError),
      w.ps.pollingCtxCancel = some ⟨pc⟩ → w.ps.mutex = false →
      w.ps.dashboardProvisioner = some v1 →
      f (env.filepathJoin w.ps.Cfg.ProvisioningPath "dashboards") = (some v2, none) →
      (v2.Provision = none →
        (Run.select env rootErr [.reload f, .pollingDone] pc w).2 = .waiting w.nextCtx ∧
        (Run.select env rootErr [.reload f, .pollingDone] pc w).1.ps.dashboardProvisioner =
          some v2 ∧
        (Run.select env rootErr [.reload f, .pollingDone] pc w).1.ps.pollingCtxCancel =
          some ⟨w.nextCtx⟩ ∧
        (Run.select env rootErr [.reload f, .pollingDone] pc w).1.events =
          w.events ++
            [.call .dashboards (env.filepathJoin w.ps.Cfg.ProvisioningPath "dashboards"),
              .mutexLock, .logDebug "Stop polling for dashboard changes", .cancel ⟨pc⟩,
              .cleanUpOrphanedDashboards v2.id, .provision v2.id, .mutexUnlock,
              .mutexLock, .pollChanges v2.id w.nextCtx, .mutexUnlock]) ∧
      (∀ e, v2.Provision = some e →
        (Run.select env rootErr [.reload f, .pollingDone] pc w).2 = .waiting w.nextCtx ∧
        (Run.select env rootErr [.reload f, .pollingDone] pc w).1.ps.dashboardProvisioner =
          some v1 ∧
        (Run.select env rootErr [.reload f, .pollingDone] pc w).1.ps.pollingCtxCancel =
          some ⟨w.nextCtx⟩ ∧
        (Run.select env rootErr [.reload f, .pollingDone] pc w).1.events =
          w.events ++
            [.call .dashboards (env.filepathJoin w.ps.Cfg.ProvisioningPath "dashboards"),
              .mutexLock, .logDebug "Stop polling for dashboard changes", .cancel ⟨pc⟩,
              .cleanUpOrphanedDashboards v2.id, .provision v2.id, .mutexUnlock,
              .mutexLock, .pollChanges v1.id w.nextCtx, .mutexUnlock])) ∧
    (s.events = [] → (polled (Run env rootErr ticks s).1.events).Nodup) ∧
    (∀ v1 : DashboardProvisioner, s.ps.mutex = false →
      s.ps.newDashboardProvisioner
        (env.filepathJoin s.ps.Cfg.ProvisioningPath "dashboards") = (some v1, none) →
      v1.Provision = none →
      (Run env rootErr [] s).2 = .waiting s.nextCtx ∧
      (Run env rootErr [] s).1.ps.dashboardProvisioner = some v1 ∧
      (Run env rootErr [] s).1.ps.pollingCtxCancel = some ⟨s.nextCtx⟩ ∧
      (Run env rootErr [] s).1.nextCtx = s.nextCtx + 1 ∧
      (Run env rootErr [] s).1.events =
        s.events ++ (ProvisionDashboards env s.ps).events ++
          (if v1.HasDashboardSources then [.triggerReIndex] else []) ++
          [.mutexLock, .pollChanges v1.id s.nextCtx, .mutexUnlock]) ∧
    (∀ (w : RunState) (pc : Nat), Run env rootErr ticks s = (w, .waiting pc) →
      w.ps.mutex = false ∧ (∃ v1, w.ps.dashboardProvisioner = some v1) ∧
      (w.ps.pollingCtxCancel = some ⟨pc⟩ ∨ (⟨pc⟩ : CancelFunc) ∈ cancelled w.events)) ∧
    (∀ (w : RunState) (pc : Nat) (v1 : DashboardProvisioner),
      Run env rootErr ticks s = (w, .waiting pc) → w.ps.dashboardProvisioner = some v1 →
      ((⟨pc⟩ : CancelFunc) ∈ cancelled w.events →
        Run env rootErr (ticks ++ [.pollingDone]) s =
          ({ ps := { w.ps with mutex := false, pollingCtxCancel := some ⟨w.nextCtx⟩ }
             nextCtx := w.nextCtx + 1
             events := w.events ++ [.mutexLock, .pollChanges v1.id w.nextCtx, .mutexUnlock]
             rootDone := w.rootDone }, .waiting w.nextCtx)) ∧
      ((⟨pc⟩ : CancelFunc) ∉ cancelled w.events →
        Run env rootErr (ticks ++ [.pollingDone]) s = (w, .waiting pc)) ∧
      (∀ (f : String → Option DashboardProvisioner × Option GoError)
        (v2 : DashboardProvisioner),
        f (env.filepathJoin w.ps.Cfg.ProvisioningPath "dashboards") = (some v2, none) →
        (Run env rootErr (ticks ++ [.reload f, .pollingDone]) s).2 = .waiting w.nextCtx ∧
        (Run env rootErr (ticks ++ [.reload f, .pollingDone]) s).1.events =
          w.events ++
            (ProvisionDashboards env { w.ps with newDashboardProvisioner := f }).events ++
            [.mutexLock,
              .pollChanges (if v2.Provision = none then v2 else v1).id w.nextCtx,
              .mutexUnlock] ∧
        (Run env rootErr (ticks ++ [.reload f, .pollingDone]) s).1.ps.dashboardProvisioner =
          some (if v2.Provision = none then v2 else v1) ∧
        (Run env rootErr (ticks ++ [.reload f, .pollingDone]) s).1.ps.pollingCtxCancel =
          some ⟨w.nextCtx⟩ ∧
        (Run env rootErr (ticks ++ [.reload f, .pollingDone]) s).1.rootDone = w.rootDone ∧
        (⟨pc⟩ : CancelFunc) ∈
          cancelled (Run env rootErr (ticks ++ [.reload f, .pollingDone]) s).1.events)) := by
  refine ⟨Run_rootDone env rootErr ticks s, ?_, ?_, ?_, ?_, ?_, ?_, ?_⟩
  rotate_left 4
  · intro v1 hm hf hp
    have hpd := ProvisionDashboards_success env s.ps v1 hf hm hp
    have hok : (ProvisionDashboards env s.ps).ret = .returned none := by rw [hpd]
    obtain ⟨d, hinst, hrun⟩ := Run_enters_loop env rootErr [] s hok
    have hd : d = v1 := by
      rw [hpd] at hinst
      simpa using hinst.symm
    subst hd
    rw [hrun]
    simp [Run.select, hinst]
  · intro w pc h
    exact (Run_waiting env rootErr ticks s w pc h).2
  · intro w pc v1 h hinst
    obtain ⟨happ, hm, _, hslot⟩ := Run_waiting env rootErr ticks s w pc h
    refine ⟨?_, ?_, ?_⟩
    · intro hdone
      rw [happ]
      simp [Run.select, hdone, Run.enterLoop, runPollingSetup, hm, hinst]
    · intro hnd
      rw [happ]
      simp [Run.select, hnd]
    · intro f v2 hf
      obtain ⟨h1, h2, h3, h4⟩ :=
        Run.select_reload env rootErr [.pollingDone] pc w v1 v2 f hm hinst hslot hf
      rw [happ, h1]
      simp only [Run.select, h2, if_true, Run.enterLoop, runPollingSetup, h3, h4]
      simp [cancelled_append]
      have h5 := h2
      simp only [cancelled_append, List.mem_append] at h5
      rcases h5 with h5 | h5
      · exact Or.inl h5
      · exact Or.inr (Or.inl h5)
  · intro hok hlive hno x hret
    obtain ⟨d, _, hrun⟩ := Run_enters_loop env rootErr ticks s hok
    have hdone := (Run.select_returned env rootErr ticks _ _ x (hrun ▸ hret)).2
    rw [← hrun, Run_rootDone env rootErr ticks s hno, hlive] at hdone
    exact Bool.noConfusion hdone
  · intro pc w d hdone hm hd
    simp [Run.select, hdone, Run.enterLoop, runPollingSetup, hm, hd]
  · intro pc w v1 v2 f hslot hm hd hf
    refine ⟨?_, ?_⟩
    · intro hp
      simp [Run.select, ProvisionDashboards, hf, hm, hp, cancelPolling, hslot, cancelled,
        Event.cancelled, Run.enterLoop, runPollingSetup]
    · intro e hp
      simp [Run.select, ProvisionDashboards, hf, hm, hp, cancelPolling, hslot, cancelled,
        Event.cancelled, Run.enterLoop, runPollingSetup, hd]
  · intro hev
    cases hpd : (ProvisionDashboards env s.ps).ret with
    | returned r =>
      obtain ⟨hq, _⟩ := ProvisionDashboards_quiet env s.ps
      cases r with
      | some e =>
        rw [Run_initial_error env rootErr ticks s e hpd]
        simp only [(polled_reIndexes_append _ _).1, hq, hev]
        simp [polled, Event.polledCtx]
      | none =>
        obtain ⟨d, _, hrun⟩ := Run_enters_loop env rootErr ticks s hpd
        rw [hrun]
        refine (Run.select_polled_fresh env rootErr ticks _ _ ?_).1
        have hpol : polled (s.events ++ (ProvisionDashboards env s.ps).events ++
            (if d.HasDashboardSources then [.triggerReIndex] else []) ++
            [.mutexLock, .pollChanges d.id s.nextCtx, .mutexUnlock]) = [s.nextCtx] := by
          simp only [polled_reIndexes_append, hq, hev]
          cases d.HasDashboardSources <;> simp [polled, Event.polledCtx]
        simp only [hpol]
        simp
    | panicked =>
      obtain ⟨hq, _⟩ := ProvisionDashboards_quiet env s.ps
      simp only [Run, hpd, (polled_reIndexes_append _ _).1, hq, hev]
      simp [polled]
    | blocked =>
      obtain ⟨hq, _⟩ := ProvisionDashboards_quiet env s.ps
      simp only [Run, hpd, (polled_reIndexes_append _ _).1, hq, hev]
      simp [polled]

/-- Witness of C15: on `exPs` with the parent context live, a reload whose
`Provision` fails is followed by a new epoch on `exV1`, a reload that succeeds
by a new epoch on the instance it installed, and the run does not return. The
run itself, whose initial call installs `exV2` and polls it with context 8,
answers a reload whose `Provision` fails by polling `exV2` again, with the new
context 9. -/
theorem C15_polling_epoch_restart_witness :
    (Run.select exEnv (.leaf "context canceled")
      [.reload (fun _ => (some exV3, none)), .pollingDone] 7
      ⟨exPs, 8, [], false⟩).1.ps.dashboardProvisioner = some exV1 ∧
    (Run.select exEnv (.leaf "context canceled")
      [.reload (fun _ => (some exV2, none)), .pollingDone] 7
      ⟨exPs, 8, [], false⟩).1.ps.dashboardProvisioner = some exV2 ∧
    (∀ x, (Run exEnv (.leaf "context canceled")
      [.reload (fun _ => (some exV3, none)), .pollingDone, .rootDone]
      ⟨exPs, 8, [], false⟩).2 ≠ .returned x) ∧
    (Run exEnv (.leaf "context canceled") [.reload (fun _ => (some exV3, none)), .pollingDone]
      ⟨exPs, 8, [], false⟩).2 = .waiting 9 ∧
    (Run exEnv (.leaf "context canceled") [.reload (fun _ => (some exV3, none)), .pollingDone]
      ⟨exPs, 8, [], false⟩).1.events =
      [.call .dashboards "/conf/dashboards", .mutexLock,
        .logDebug "Stop polling for dashboard changes", .cancel ⟨7⟩,
        .cleanUpOrphanedDashboards 2, .provision 2, .mutexUnlock,
        .mutexLock, .pollChanges 2 8, .mutexUnlock,
        .call .dashboards "/conf/dashboards", .mutexLock,
        .logDebug "Stop polling for dashboard changes", .cancel ⟨8⟩,
        .cleanUpOrphanedDashboards 3, .provision 3, .mutexUnlock,
        .mutexLock, .pollChanges 2 9, .mutexUnlock] :=
  ⟨(((C15_polling_epoch_restart exEnv (.leaf "context canceled") [] ⟨exPs, 8, [], false⟩).2.2.2.1
      7 ⟨exPs, 8, [], false⟩ exV1 exV3 (fun _ => (some exV3, none)) rfl rfl rfl rfl).2
      (.leaf "disk full") rfl).2.1,
   (((C15_polling_epoch_restart exEnv (.leaf "context canceled") [] ⟨exPs, 8, [], false⟩).2.2.2.1
      7 ⟨exPs, 8, [], false⟩ exV1 exV2 (fun _ => (some exV2, none)) rfl rfl rfl rfl).1
      rfl).2.1,
   (C15_polling_epoch_restart exEnv (.leaf "context canceled")
      [.reload (fun _ => (some exV3, none)), .pollingDone, .rootDone]
      ⟨exPs, 8, [], false⟩).2.1 rfl rfl
      (by intro t ht; simp at ht; rcases ht with rfl | rfl | rfl <;> rfl),
   (((C15_polling_epoch_restart exEnv (.leaf "context canceled") []
      ⟨exPs, 8, [], false⟩).2.2.2.2.2.2.2
      (Run exEnv (.leaf "context canceled") [] ⟨exPs, 8, [], false⟩).1 8 exV2 rfl rfl).2.2
      (fun _ => (some exV3, none)) exV3 rfl).1,
   (((C15_polling_epoch_restart exEnv (.leaf "context canceled") []
      ⟨exPs, 8, [], false⟩).2.2.2.2.2.2.2
      (Run exEnv (.leaf "context canceled") [] ⟨exPs, 8, [], false⟩).1 8 exV2 rfl rfl).2.2
      (fun _ => (some exV3, none)) exV3 rfl).2.1⟩

/-- Run on its own, statement by statement, a `cancelPolling` call does what the
method does. -/
theorem overlappedCancel_alone (ps : ProvisioningServiceImpl) :
    (overlappedCancel ps [false, false, false, false]).ps = (cancelPolling ps).ps ∧
    untagged (overlappedCancel ps [false, false, false, false]).events =
      (cancelPolling ps).events ∧
    (overlappedCancel ps [false, false, false, false]).pc false = .done ∧
    (overlappedCancel ps [false, false, false, false]).pc true = .check := by
  cases h : ps.pollingCtxCancel <;>
    simp [overlappedCancel, CancelRace.run, CancelRace.step, CancelRace.init, CancelPc.step,
      cancelPolling, untagged, h]

/-- C10, evaluation at the failing input: called on its own `cancelPolling` does
nothing on an empty slot, invokes a recorded function exactly once and empties
the slot, and a second call right after the first has no effect; statement by
statement it does the same. But the call `Run` makes in the parent case of its
`select`, outside the mutex, can overlap the call a `ProvisionDashboards` of
another goroutine makes: when both test the slot before either empties it, the
recorded function is invoked twice, once by each. -/
theorem C10_cancel_invoked_twice_when_overlapped (ps : ProvisioningServiceImpl) :
    (ps.pollingCtxCancel = none →
      (cancelPolling ps).ps = ps ∧ (cancelPolling ps).events = []) ∧
    (∀ c, ps.pollingCtxCancel = some c →
      (cancelPolling ps).ps = { ps with pollingCtxCancel := none } ∧
      cancelled (cancelPolling ps).events = [c] ∧
      cancelsOf c (cancelPolling ps).events = 1) ∧
    ((cancelPolling (cancelPolling ps).ps).ps = (cancelPolling ps).ps ∧
      (cancelPolling (cancelPolling ps).ps).events = []) ∧
    ((overlappedCancel ps [false, false, false, false]).ps = (cancelPolling ps).ps ∧
      untagged (overlappedCancel ps [false, false, false, false]).events =
        (cancelPolling ps).events) ∧
    (∀ c, ps.pollingCtxCancel = some c →
      cancelsOf c (untagged (overlappedCancel ps exBothInvoke).events) = 2 ∧
      effectsOf false (overlappedCancel ps exBothInvoke).events =
        [.logDebug "Stop polling for dashboard changes", .cancel c] ∧
      effectsOf true (overlappedCancel ps exBothInvoke).events =
        [.logDebug "Stop polling for dashboard changes", .cancel c] ∧
      (overlappedCancel ps exBothInvoke).pc false = .done ∧
      (overlappedCancel ps exBothInvoke).pc true = .done ∧
      (overlappedCancel ps exBothInvoke).ps.pollingCtxCancel = none) := by
  refine ⟨?_, ?_, ⟨?_, ?_⟩, ?_, ?_⟩
  · intro h
    rcases ps with ⟨a, b, c, d, e, f, g, h2, i⟩
    simp only at h
    subst h
    exact ⟨rfl, rfl⟩
  · intro c h
    refine ⟨cancelPolling_ps ps, ?_, ?_⟩
    · rw [cancelPolling_cancelled, h]; rfl
    · rw [cancelsOf, cancelPolling_cancelled, h]; simp
  · rw [cancelPolling_ps, cancelPolling_ps]
  · rw [cancelPolling_ps]; rfl
  · exact ⟨(overlappedCancel_alone ps).1, (overlappedCancel_alone ps).2.1⟩
  · intro c h
    simp [overlappedCancel, exBothInvoke, CancelRace.run, CancelRace.step, CancelRace.init,
      CancelPc.step, untagged, effectsOf, cancelsOf, cancelled, Event.cancelled, h]

/-- Witness of C10: on `exPs`, which records the function of context 7, the two
overlapping calls invoke that function twice. -/
theorem C10_cancel_invoked_twice_when_overlapped_witness :
    cancelsOf ⟨7⟩ (cancelPolling exPs).events = 1 ∧
    cancelsOf ⟨7⟩ (untagged (overlappedCancel exPs exBothInvoke).events) = 2 :=
  ⟨((C10_cancel_invoked_twice_when_overlapped exPs).2.1 ⟨7⟩ rfl).2.2,
   ((C10_cancel_invoked_twice_when_overlapped exPs).2.2.2.2 ⟨7⟩ rfl).1⟩

/-- C12, evaluation at the failing input: `Run`, started on `exPs`, waits on the
polling context 8 when the parent context is cancelled. If the `select` then
takes the parent case with no other call under way, `Run` returns the error of
the parent context. If a `ProvisionDashboards` call of another goroutine has
taken the mutex and its `cancelPolling` empties the slot between the test and
the invocation in the `cancelPolling` of `Run`, then `Run` calls a nil function:
it panics and returns no error at all, although the parent context is done. -/
theorem C12_parent_done_overlapped_run_panics :
    (Run exEnv (.leaf "context canceled") [.cancelRoot] ⟨exPs, 8, [], false⟩).2 =
      .waiting 8 ∧
    exWaiting.rootDone = true ∧
    exWaiting.ps.pollingCtxCancel = some ⟨8⟩ ∧
    exWaiting.ps.mutex = false ∧
    (Run exEnv (.leaf "context canceled") [.cancelRoot, .rootDone] ⟨exPs, 8, [], false⟩).2 =
      .returned (some (.leaf "context canceled")) ∧
    (Run.shutdownOverlapped (.leaf "context canceled") exWaiting
      [false, false, false, false]).2 = some (.returned (some (.leaf "context canceled"))) ∧
    ((twoCalls exEnv exWaiting.ps exWaiting.ps.newDashboardProvisioner
      exWaiting.ps.newDashboardProvisioner [true, true]).call true).pc = .locked ∧
    exOverlapStart.ps.mutex = true ∧
    exOverlapStart.ps.pollingCtxCancel = some ⟨8⟩ ∧
    (Run.shutdownOverlapped (.leaf "context canceled") exOverlapStart
      exClearedInBetween).2 = some .panicked ∧
    (∀ x, (Run.shutdownOverlapped (.leaf "context canceled") exOverlapStart
      exClearedInBetween).2 ≠ some (.returned x)) ∧
    cancelled (Run.shutdownOverlapped (.leaf "context canceled") exOverlapStart
      exClearedInBetween).1.events = [⟨7⟩, ⟨8⟩] := by
  refine ⟨rfl, rfl, rfl, rfl, rfl, rfl, rfl, rfl, rfl, rfl, ?_, rfl⟩
  intro x
  rw [show (Run.shutdownOverlapped (.leaf "context canceled") exOverlapStart
    exClearedInBetween).2 = some .panicked from rfl]
  simp

/-- C14, evaluation at the failing input: take a state in which `Run` waits on
the polling context `pc` with the parent context done, the mutex free and the
cancel function of `pc` recorded. With no other call under way, the parent case
of the `select` invokes that function, empties the slot and returns the error
of the parent context, and so does the statement-by-statement `cancelPolling`
run on its own. But once a `ProvisionDashboards` call of another goroutine has
built its instance and taken the mutex, its `cancelPolling` can run between the
test and the invocation in the `cancelPolling` of `Run`: the other call invokes
the function and empties the slot, and `Run` then calls a nil function. `Run`
panics: it has invoked no cancel function and does not return the error of the
parent context. -/
theorem C14_shutdown_overlapped_panics (env : Env) (rootErr : GoError) (w : RunState)
    (pc : Nat) (f : String → Option DashboardProvisioner × Option GoError)
    (d : Option DashboardProvisioner)
    (hroot : w.rootDone = true) (hfree : w.ps.mutex = false)
    (hslot : w.ps.pollingCtxCancel = some ⟨pc⟩)
    (hf : f (env.filepathJoin w.ps.Cfg.ProvisioningPath "dashboards") = (d, none)) :
    ((Run.select env rootErr [.rootDone] pc w).2 = .returned (some rootErr) ∧
      (Run.select env rootErr [.rootDone] pc w).1.events =
        w.events ++ [.logDebug "Stop polling for dashboard changes", .cancel ⟨pc⟩] ∧
      (Run.select env rootErr [.rootDone] pc w).1.ps.pollingCtxCancel = none) ∧
    ((Run.shutdownOverlapped rootErr w [false, false, false, false]).2 =
        some (.returned (some rootErr)) ∧
      (Run.shutdownOverlapped rootErr w [false, false, false, false]).1.events =
        (Run.select env rootErr [.rootDone] pc w).1.events ∧
      (Run.shutdownOverlapped rootErr w [false, false, false, false]).1.ps =
        (Run.select env rootErr [.rootDone] pc w).1.ps) ∧
    (((twoCalls env w.ps f f [true, true]).call true).pc = .locked ∧
      (twoCalls env w.ps f f [true, true]).ps = { w.ps with mutex := true } ∧
      untagged (twoCalls env w.ps f f [true, true]).events =
        [.call .dashboards (env.filepathJoin w.ps.Cfg.ProvisioningPath "dashboards"),
          .mutexLock]) ∧
    ((Run.shutdownOverlapped rootErr { w with ps := { w.ps with mutex := true } }
        exClearedInBetween).2 = some .panicked ∧
      effectsOf false (overlappedCancel { w.ps with mutex := true }
        exClearedInBetween).events = [.logDebug "Stop polling for dashboard changes"] ∧
      effectsOf true (overlappedCancel { w.ps with mutex := true }
        exClearedInBetween).events =
        [.logDebug "Stop polling for dashboard changes", .cancel ⟨pc⟩] ∧
      (overlappedCancel { w.ps with mutex := true } exClearedInBetween).pc true = .done ∧
      (overlappedCancel { w.ps with mutex := true }
        exClearedInBetween).ps.pollingCtxCancel = none) := by
  refine ⟨?_, ?_, ?_, ?_⟩
  · simp [Run.select, hroot, cancelPolling, hslot]
  · obtain ⟨h1, h2, h3, _⟩ := overlappedCancel_alone w.ps
    refine ⟨?_, ?_, ?_⟩
    · simp [Run.shutdownOverlapped, h3]
    · simp [Run.shutdownOverlapped, h2, Run.select, hroot]
    · simp [Run.shutdownOverlapped, h1, Run.select, hroot]
  · simp [twoCalls, Pair.run, Pair.step, Pair.init, Call.step, Call.init, hf, hfree, untagged]
  · simp [Run.shutdownOverlapped, overlappedCancel, exClearedInBetween, CancelRace.run,
      CancelRace.step, CancelRace.init, CancelPc.step, effectsOf, hslot]

/-- Witness of C14: in the state `exWaiting` the parent case of the `select`
returns the error of the parent context when it runs on its own, and panics
when the `cancelPolling` of a reload empties the slot in between. -/
theorem C14_shutdown_overlapped_panics_witness :
    (Run.select exEnv (.leaf "context canceled") [.rootDone] 8 exWaiting).2 =
      .returned (some (.leaf "context canceled")) ∧
    (Run.shutdownOverlapped (.leaf "context canceled")
      { exWaiting with ps := { exWaiting.ps with mutex := true } }
      exClearedInBetween).2 = some .panicked :=
  ⟨(C14_shutdown_overlapped_panics exEnv (.leaf "context canceled") exWaiting 8
      (fun _ => (some exV1, none)) (some exV1) rfl rfl rfl rfl).1.1,
   (C14_shutdown_overlapped_panics exEnv (.leaf "context canceled") exWaiting 8
      (fun _ => (some exV1, none)) (some exV1) rfl rfl rfl rfl).2.2.2.1⟩

/-- C23: lock discipline of the dashboard slot. From a free mutex,
`ProvisionDashboards` calls the factory before any `Lock`; if the factory fails
the mutex is never taken; otherwise the trace is one `Lock`, the locked section
(cancel, orphan cleanup, `Provision`, install) and one `Unlock` at the very end;
and whatever the outcome (nil, error or panic) the mutex is free afterwards.
The head of the `Run` loop releases the mutex before the `select`, so at the
end of every schedule of `Run` the mutex is free. In the statement-by-statement
model of two calls the mutex is held exactly when a call is inside its locked
section, and the factory statement is outside it. -/
theorem C23_lock_discipline (env : Env) (ps : ProvisioningServiceImpl)
    (hfree : ps.mutex = false) :
    (ProvisionDashboards env ps).ps.mutex = false ∧
    ((ProvisionDashboards env ps).events =
        [.call .dashboards (env.filepathJoin ps.Cfg.ProvisioningPath "dashboards")] ∨
      ∃ mid, (ProvisionDashboards env ps).events =
          .call .dashboards (env.filepathJoin ps.Cfg.ProvisioningPath "dashboards") ::
            .mutexLock :: mid ++ [.mutexUnlock] ∧
        Event.mutexLock ∉ mid ∧ Event.mutexUnlock ∉ mid) ∧
    (∀ d e, ps.newDashboardProvisioner
        (env.filepathJoin ps.Cfg.ProvisioningPath "dashboards") = (d, some e) →
      Event.mutexLock ∉ (ProvisionDashboards env ps).events) ∧
    (∀ (n : Nat) (d : DashboardProvisioner), ps.dashboardProvisioner = some d →
      (runPollingSetup ps n).ret = .returned none ∧
      (runPollingSetup ps n).ps.mutex = false ∧
      (runPollingSetup ps n).events = [.mutexLock, .pollChanges d.id n, .mutexUnlock]) ∧
    (∀ (rootErr : GoError) (ticks : List Tick) (n : Nat) (evs : List Event) (done : Bool),
      (Run env rootErr ticks ⟨ps, n, evs, done⟩).1.ps.mutex = false ∧
      (Run env rootErr ticks ⟨ps, n, evs, done⟩).2 ≠ .blocked) ∧
    (∀ (fa fb : String → Option DashboardProvisioner × Option GoError)
      (schedule : List Bool),
      (twoCalls env ps fa fb schedule).ps.mutex =
        (((twoCalls env ps fa fb schedule).call false).inside ||
          ((twoCalls env ps fa fb schedule).call true).inside)) ∧
    (∀ (q : ProvisioningServiceImpl) (c : Call), c.pc = .start →
      c.inside = false ∧ (c.step env q).1 = q ∧ (c.step env q).2.1.inside = false ∧
      (c.step env q).2.2 =
        [.call .dashboards (env.filepathJoin q.Cfg.ProvisioningPath "dashboards")]) := by
  refine ⟨(ProvisionDashboards_free env ps hfree).1, ProvisionDashboards_bracket env ps hfree,
    ?_, ?_, ?_, ?_, ?_⟩
  · intro d e h
    rw [ProvisionDashboards_factory_error env ps d e h]
    simp
  · intro n d hd
    simp [runPollingSetup, hfree, hd]
  · intro rootErr ticks n evs done
    obtain ⟨h1, h2, _⟩ := Run_safe env rootErr ticks ⟨ps, n, evs, done⟩ hfree
    exact ⟨h1, h2⟩
  · intro fa fb schedule
    exact (Pair.Inv_run env ps.dashboardProvisioner schedule _
      (Pair.Inv_init ps fa fb hfree)).1
  · intro q c hpc
    rcases hf : c.factory (env.filepathJoin q.Cfg.ProvisioningPath "dashboards") with
      ⟨d, _ | e⟩ <;>
      simp [Call.step, hpc, hf, Call.inside]

/-- Witness of C23: the failed call on `exPsProvisionFails` and a whole run on
`exPs` leave the mutex free. -/
theorem C23_lock_discipline_witness :
    (ProvisionDashboards exEnv exPsProvisionFails).ps.mutex = false ∧
    (Run exEnv (.leaf "context canceled") exSchedule ⟨exPs, 8, [], false⟩).1.ps.mutex = false :=
  ⟨(C23_lock_discipline exEnv exPsProvisionFails rfl).1,
   ((C23_lock_discipline exEnv exPs rfl).2.2.2.2.1 (.leaf "context canceled") exSchedule
      8 [] false).1⟩

/-- The four stage methods and `RunInitProvisioners` call `PollChanges` on
nothing. -/
theorem stages_polled (env : Env) (ps : ProvisioningServiceImpl) :
    polled (ProvisionDatasources env ps).events = [] ∧
    polled (ProvisionPlugins env ps).events = [] ∧
    polled (ProvisionNotifications env ps).events = [] ∧
    polled (ProvisionAlertRules env ps).events = [] ∧
    polled (RunInitProvisioners env ps).events = [] := by
  have h1 : polled (ProvisionDatasources env ps).events = [] := by
    cases h : ps.provisionDatasources (env.filepathJoin ps.Cfg.ProvisioningPath "datasources") <;>
      simp [ProvisionDatasources, h, polled, Event.polledCtx]
  have h2 : polled (ProvisionPlugins env ps).events = [] := by
    cases h : ps.provisionPlugins (env.filepathJoin ps.Cfg.ProvisioningPath "plugins") <;>
      simp [ProvisionPlugins, h, polled, Event.polledCtx]
  have h3 : polled (ProvisionNotifications env ps).events = [] := by
    cases h : ps.provisionNotifiers (env.filepathJoin ps.Cfg.ProvisioningPath "notifiers") <;>
      simp [ProvisionNotifications, h, polled, Event.polledCtx]
  have h4 : polled (ProvisionAlertRules env ps).events = [] := by
    simp [ProvisionAlertRules, polled, Event.polledCtx]
  refine ⟨h1, h2, h3, h4, ?_⟩
  obtain ⟨⟨p1, _⟩, ⟨p2, _⟩, ⟨p3, _⟩, ⟨p4, _⟩⟩ := stages_ps_cancelled env ps
  unfold RunInitProvisioners
  simp only [p1, p2, p3, p4]
  cases (ProvisionDatasources env ps).ret <;>
    cases (ProvisionPlugins env ps).ret <;>
    cases (ProvisionNotifications env ps).ret <;>
    cases (ProvisionAlertRules env ps).ret <;>
    simp only [polled_reIndexes_append, h1, h2, h3, h4, p1, p2, p3, p4, List.append_nil]

/-- Whenever `Run` waits in `select` on the polling context `pc`, the recorded
cancel function, if any, is that of `pc`, and `pc` is the context of the most
recent `PollChanges` call. -/
theorem Run.select_slot (env : Env) (rootErr : GoError) (ticks : List Tick) :
    ∀ (pc : Nat) (s : RunState),
      (s.ps.pollingCtxCancel = some ⟨pc⟩ ∨ s.ps.pollingCtxCancel = none) →
      (∃ pre, polled s.events = pre ++ [pc]) →
      ∀ pc2, (Run.select env rootErr ticks pc s).2 = .waiting pc2 →
        ((Run.select env rootErr ticks pc s).1.ps.pollingCtxCancel = some ⟨pc2⟩ ∨
          (Run.select env rootErr ticks pc s).1.ps.pollingCtxCancel = none) ∧
        ∃ pre, polled (Run.select env rootErr ticks pc s).1.events = pre ++ [pc2] := by
  induction ticks with
  | nil =>
    intro pc s hslot hpol pc2 h
    simp only [Run.select, RunResult.waiting.injEq] at h
    subst h
    exact ⟨hslot, hpol⟩
  | cons t ticks ih =>
    intro pc s hslot hpol pc2
    cases t with
    | cancelRoot =>
      simp only [Run.select]
      exact ih pc { s with rootDone := true } hslot hpol pc2
    | reload f =>
      simp only [Run.select]
      split
      · intro h; simp at h
      · apply ih pc _ _ _ pc2
        · rcases ProvisionDashboards_slot env { s.ps with newDashboardProvisioner := f } with
            ⟨hs, _⟩ | ⟨hs, _⟩
          · simp only [hs]; exact hslot
          · exact Or.inr hs
        · obtain ⟨pre, hpre⟩ := hpol
          obtain ⟨hq, _⟩ :=
            ProvisionDashboards_quiet env { s.ps with newDashboardProvisioner := f }
          exact ⟨pre, by simp only [(polled_reIndexes_append _ _).1, hq, List.append_nil, hpre]⟩
    | pollingDone =>
      simp only [Run.select]
      split
      · rcases Run.enterLoop_cases s with ⟨_, hb, _⟩ | ⟨_, _, hp⟩ | ⟨d, _, _, hret, hst⟩
        · rw [hb]; intro h; simp at h
        · rw [hp]; intro h; simp at h
        · rw [hret]
          simp only
          apply ih s.nextCtx _ _ _ pc2
          · rw [hst]; exact Or.inl rfl
          · rw [hst]
            refine ⟨polled s.events, ?_⟩
            rw [(polled_reIndexes_append _ _).1]
            simp [polled, Event.polledCtx]
      · exact ih pc s hslot hpol pc2
    | rootDone =>
      simp only [Run.select]
      split
      · intro h; simp at h
      · exact ih pc s hslot hpol pc2

/-- C24: polling-context invariant. The locked head of the `Run` loop is where a
polling context is created: when it releases the mutex, the recorded cancel
function is that of exactly the context it passed to `PollChanges`; no other
call creates a context or calls `PollChanges`. Hence whenever `Run` waits on
the polling context `pc`, `pc` is the context of the most recent `PollChanges`
call and the recorded function, if any, is that of `pc`; and a
`ProvisionDashboards` call or the shutdown that then invokes the recorded
function cancels `pc` and nothing else. -/
theorem C24_polling_context_invariant (env : Env) (rootErr : GoError) (ticks : List Tick)
    (s : RunState) :
    (∀ (w : RunState) (d : DashboardProvisioner), w.ps.mutex = false →
      w.ps.dashboardProvisioner = some d →
      (Run.enterLoop w).2 = .returned none ∧
      (Run.enterLoop w).1.ps.pollingCtxCancel = some ⟨w.nextCtx⟩ ∧
      (Run.enterLoop w).1.ps.mutex = false ∧
      (Run.enterLoop w).1.nextCtx = w.nextCtx + 1 ∧
      (Run.enterLoop w).1.events =
        w.events ++ [.mutexLock, .pollChanges d.id w.nextCtx, .mutexUnlock]) ∧
    (∀ (w : World) (op : Op), op ≠ .runPollingSetup →
      (w.apply env op).nextCtx = w.nextCtx ∧
      polled (w.apply env op).events = polled w.events) ∧
    ((ProvisionDashboards env s.ps).ret = .returned none →
      ∀ pc, (Run env rootErr ticks s).2 = .waiting pc →
        ((Run env rootErr ticks s).1.ps.pollingCtxCancel = some ⟨pc⟩ ∨
          (Run env rootErr ticks s).1.ps.pollingCtxCancel = none) ∧
        ∃ pre, polled (Run env rootErr ticks s).1.events = pre ++ [pc]) ∧
    (∀ (pc : Nat) (w : RunState),
      (w.ps.pollingCtxCancel = some ⟨pc⟩ ∨ w.ps.pollingCtxCancel = none) →
      (∀ f, cancelled (ProvisionDashboards env
            { w.ps with newDashboardProvisioner := f }).events = [] ∨
          cancelled (ProvisionDashboards env
            { w.ps with newDashboardProvisioner := f }).events = [⟨pc⟩]) ∧
      (cancelled (cancelPolling w.ps).events = [] ∨
        cancelled (cancelPolling w.ps).events = [⟨pc⟩])) := by
  refine ⟨?_, ?_, ?_, ?_⟩
  · intro w d hm hd
    simp [Run.enterLoop, runPollingSetup, hm, hd]
  · intro w op hop
    obtain ⟨h1, h2, h3, h4, h5⟩ := stages_polled env w.ps
    cases op
    · exact ⟨rfl, by simp only [World.apply, (polled_reIndexes_append _ _).1, h5,
        List.append_nil]⟩
    · exact ⟨rfl, by simp only [World.apply, (polled_reIndexes_append _ _).1, h1,
        List.append_nil]⟩
    · exact ⟨rfl, by simp only [World.apply, (polled_reIndexes_append _ _).1, h2,
        List.append_nil]⟩
    · exact ⟨rfl, by simp only [World.apply, (polled_reIndexes_append _ _).1, h3,
        List.append_nil]⟩
    · exact ⟨rfl, by simp only [World.apply, (polled_reIndexes_append _ _).1, h4,
        List.append_nil]⟩
    · exact ⟨rfl, by simp only [World.apply, (polled_reIndexes_append _ _).1,
        (ProvisionDashboards_quiet env w.ps).1, List.append_nil]⟩
    · exact ⟨rfl, by simp only [World.apply, (polled_reIndexes_append _ _).1,
        (cancelPolling_quiet w.ps).1, List.append_nil]⟩
    · exact absurd rfl hop
  · intro hok pc hwait
    obtain ⟨d, _, hrun⟩ := Run_enters_loop env rootErr ticks s hok
    rw [hrun] at hwait ⊢
    refine Run.select_slot env rootErr ticks _ _ (Or.inl rfl) ?_ pc hwait
    obtain ⟨hq, _⟩ := ProvisionDashboards_quiet env s.ps
    refine ⟨polled s.events, ?_⟩
    simp only [polled_reIndexes_append, hq]
    cases d.HasDashboardSources <;> simp [polled, Event.polledCtx]
  · intro pc w hslot
    refine ⟨fun f => ?_, ?_⟩
    · rcases ProvisionDashboards_slot env { w.ps with newDashboardProvisioner := f } with
        ⟨_, hc⟩ | ⟨_, hc⟩
      · exact Or.inl hc
      · rw [hc]
        rcases hslot with h | h <;> simp [h]
    · rw [cancelPolling_cancelled]
      rcases hslot with h | h <;> simp [h]

/-- Witness of C24: after a reload and a new epoch on `exPs`, `Run` waits on
context 9, which is the one recorded and the last one polled. -/
theorem C24_polling_context_invariant_witness :
    (Run exEnv (.leaf "context canceled")
      [.reload (fun _ => (some exV1, none)), .pollingDone]
      ⟨exPs, 8, [], false⟩).1.ps.pollingCtxCancel = some ⟨9⟩ ∨
    (Run exEnv (.leaf "context canceled")
      [.reload (fun _ => (some exV1, none)), .pollingDone]
      ⟨exPs, 8, [], false⟩).1.ps.pollingCtxCancel = none :=
  ((C24_polling_context_invariant exEnv (.leaf "context canceled")
    [.reload (fun _ => (some exV1, none)), .pollingDone]
    ⟨exPs, 8, [], false⟩).2.2.1 rfl 9 rfl).1

/-- A wait of `Run` with the parent context done, on a polling context whose
cancel function is recorded and not invoked, with no reload in the schedule:
the polling case never fires; the first parent case ends the run with the
cancel of that context as the only further effect; without a parent case the
run keeps waiting on the same context, with no further effect. -/
theorem Run.select_root_done (env : Env) (rootErr : GoError) (ticks : List Tick) :
    ∀ (n : Nat) (w : RunState), w.rootDone = true →
      w.ps.pollingCtxCancel = some ⟨n⟩ → (⟨n⟩ : CancelFunc) ∉ cancelled w.events →
      (∀ t ∈ ticks, t.isReload = false) →
      ((∃ t ∈ ticks, t.isRootDone = true) →
        (Run.select env rootErr ticks n w).2 = .returned (some rootErr) ∧
        (Run.select env rootErr ticks n w).1.events =
          w.events ++ [.logDebug "Stop polling for dashboard changes", .cancel ⟨n⟩] ∧
        (Run.select env rootErr ticks n w).1.ps.pollingCtxCancel = none) ∧
      ((∀ t ∈ ticks, t.isRootDone = false) →
        (Run.select env rootErr ticks n w).2 = .waiting n ∧
        (Run.select env rootErr ticks n w).1.events = w.events) := by
  induction ticks with
  | nil =>
    intro n w _ _ _ _
    refine ⟨fun ⟨t, ht, _⟩ => absurd ht (List.not_mem_nil t), fun _ => ⟨rfl, rfl⟩⟩
  | cons t ticks ih =>
    intro n w hroot hslot hnot hno
    have hrest : ∀ u ∈ ticks, u.isReload = false :=
      fun u hu => hno u (List.mem_cons_of_mem _ hu)
    have hex : ∀ u : Tick, u.isRootDone = false →
        (∃ v ∈ u :: ticks, v.isRootDone = true) → ∃ v ∈ ticks, v.isRootDone = true := by
      intro u hu ⟨v, hv, hvr⟩
      rcases List.mem_cons.mp hv with h | h
      · rw [h, hu] at hvr; exact absurd hvr (by simp)
      · exact ⟨v, h, hvr⟩
    have hall : (∀ v ∈ t :: ticks, v.isRootDone = false) → ∀ v ∈ ticks, v.isRootDone = false :=
      fun h v hv => h v (List.mem_cons_of_mem _ hv)
    cases t with
    | cancelRoot =>
      simp only [Run.select]
      obtain ⟨h1, h2⟩ := ih n { w with rootDone := true } rfl hslot hnot hrest
      exact ⟨fun h => h1 (hex .cancelRoot rfl h), fun h => h2 (hall h)⟩
    | reload f =>
      have := hno (.reload f) (List.mem_cons_self _ _)
      simp [Tick.isReload] at this
    | pollingDone =>
      simp only [Run.select, if_neg hnot]
      obtain ⟨h1, h2⟩ := ih n w hroot hslot hnot hrest
      exact ⟨fun h => h1 (hex .pollingDone rfl h), fun h => h2 (hall h)⟩
    | rootDone =>
      simp only [Run.select, hroot, if_true]
      refine ⟨fun _ => ?_, fun h => ?_⟩
      · simp [cancelPolling, hslot]
      · have := h .rootDone (List.mem_cons_self _ _)
        simp [Tick.isRootDone] at this

/-- C25: the exit of `Run` after a cancellation of the parent context is
deterministic. Take a loop iteration that starts with the parent context
already done, the mutex free, a provisioner `d` installed and every invoked
cancel function belonging to an earlier context, and a schedule without any
`ProvisionDashboards` call of another goroutine. The head of the loop calls
`PollChanges` once, with the new context. The polling case of the `select` is
not enabled: the new context has not been cancelled, and a polling tick changes
nothing. As soon as the `select` takes the parent case, `Run` cancels the new
context and returns the error of the parent context; the whole iteration has
called `PollChanges` exactly once. -/
theorem C25_root_cancelled_exit (env : Env) (rootErr : GoError) (ticks : List Tick)
    (s : RunState) (d : DashboardProvisioner)
    (hroot : s.rootDone = true) (hfree : s.ps.mutex = false)
    (hinst : s.ps.dashboardProvisioner = some d)
    (hfresh : ∀ c ∈ cancelled s.events, c.ctx < s.nextCtx)
    (hnoreload : ∀ t ∈ ticks, t.isReload = false) :
    (Run.enterLoop s).2 = .returned none ∧
    (Run.enterLoop s).1.events =
      s.events ++ [.mutexLock, .pollChanges d.id s.nextCtx, .mutexUnlock] ∧
    (⟨s.nextCtx⟩ : CancelFunc) ∉ cancelled (Run.enterLoop s).1.events ∧
    Run.select env rootErr (.pollingDone :: ticks) s.nextCtx (Run.enterLoop s).1 =
      Run.select env rootErr ticks s.nextCtx (Run.enterLoop s).1 ∧
    ((∃ t ∈ ticks, t.isRootDone = true) →
      (Run.select env rootErr ticks s.nextCtx (Run.enterLoop s).1).2 =
        .returned (some rootErr) ∧
      (Run.select env rootErr ticks s.nextCtx (Run.enterLoop s).1).1.events =
        s.events ++ [.mutexLock, .pollChanges d.id s.nextCtx, .mutexUnlock,
          .logDebug "Stop polling for dashboard changes", .cancel ⟨s.nextCtx⟩] ∧
      (Run.select env rootErr ticks s.nextCtx (Run.enterLoop s).1).1.ps.pollingCtxCancel =
        none) ∧
    ((∀ t ∈ ticks, t.isRootDone = false) →
      (Run.select env rootErr ticks s.nextCtx (Run.enterLoop s).1).2 = .waiting s.nextCtx) ∧
    polled (Run.select env rootErr ticks s.nextCtx (Run.enterLoop s).1).1.events =
      polled s.events ++ [s.nextCtx] := by
  have hst : Run.enterLoop s =
      ({ ps := { s.ps with mutex := false, pollingCtxCancel := some ⟨s.nextCtx⟩ }
         nextCtx := s.nextCtx + 1
         events := s.events ++ [.mutexLock, .pollChanges d.id s.nextCtx, .mutexUnlock]
         rootDone := s.rootDone }, .returned none) := by
    simp [Run.enterLoop, runPollingSetup, hfree, hinst]
  have hnot : (⟨s.nextCtx⟩ : CancelFunc) ∉ cancelled (Run.enterLoop s).1.events := by
    rw [hst]
    simp only [cancelled_append]
    intro h
    have h2 : (⟨s.nextCtx⟩ : CancelFunc) ∈ cancelled s.events := by
      simpa [cancelled, Event.cancelled] using h
    exact Nat.lt_irrefl _ (hfresh _ h2)
  obtain ⟨h1, h2⟩ := Run.select_root_done env rootErr ticks s.nextCtx (Run.enterLoop s).1
    (by rw [hst]; exact hroot) (by rw [hst]) hnot hnoreload
  have hpol0 : polled (Run.enterLoop s).1.events = polled s.events ++ [s.nextCtx] := by
    rw [hst, (polled_reIndexes_append _ _).1]
    simp [polled, Event.polledCtx]
  refine ⟨by rw [hst], by rw [hst], hnot, ?_, ?_, fun h => (h2 h).1, ?_⟩
  · simp only [Run.select, if_neg hnot]
  · intro h
    obtain ⟨r1, r2, r3⟩ := h1 h
    refine ⟨r1, ?_, r3⟩
    rw [r2, hst]
    simp
  · by_cases hex : ∃ t ∈ ticks, t.isRootDone = true
    · rw [(h1 hex).2.1, (polled_reIndexes_append _ _).1, hpol0]
      simp [polled, Event.polledCtx]
    · have hall : ∀ t ∈ ticks, t.isRootDone = false := by
        intro t ht
        cases h : t.isRootDone
        · rfl
        · exact absurd ⟨t, ht, h⟩ hex
      rw [(h2 hall).2, hpol0]

/-- Witness of C25: on `exPs` with the parent context done and the cancel of
context 7 behind it, the iteration polls once with context 8, ignores the
polling case and returns the parent error at the parent case. -/
theorem C25_root_cancelled_exit_witness :
    (Run.select exEnv (.leaf "context canceled") [.pollingDone, .rootDone, .pollingDone] 8
      (Run.enterLoop ⟨exPs, 8, [.cancel ⟨7⟩], true⟩).1).2 =
      .returned (some (.leaf "context canceled")) ∧
    polled (Run.select exEnv (.leaf "context canceled") [.pollingDone, .rootDone, .pollingDone]
      8 (Run.enterLoop ⟨exPs, 8, [.cancel ⟨7⟩], true⟩).1).1.events = [8] :=
  ⟨((C25_root_cancelled_exit exEnv (.leaf "context canceled")
      [.pollingDone, .rootDone, .pollingDone] ⟨exPs, 8, [.cancel ⟨7⟩], true⟩ exV1 rfl rfl rfl
      (by decide) (by decide)).2.2.2.2.1 ⟨.rootDone, by simp, rfl⟩).1,
   (C25_root_cancelled_exit exEnv (.leaf "context canceled")
      [.pollingDone, .rootDone, .pollingDone] ⟨exPs, 8, [.cancel ⟨7⟩], true⟩ exV1 rfl rfl rfl
      (by decide) (by decide)).2.2.2.2.2.2⟩

/-- With the mutex held by someone else, `Run` never gets past its initial
`ProvisionDashboards`: it returns the factory error or waits on the mutex. -/
theorem Run_held (env : Env) (rootErr : GoError) (ticks : List Tick) (s : RunState)
    (hheld : s.ps.mutex = true) : (Run env rootErr ticks s).2 ≠ .panicked := by
  rcases h : s.ps.newDashboardProvisioner
      (env.filepathJoin s.ps.Cfg.ProvisioningPath "dashboards") with ⟨d, _ | u⟩
  · have hb := ProvisionDashboards_blocked env s.ps d h hheld
    simp [Run, hb]
  · have he := ProvisionDashboards_factory_error env s.ps d u h
    simp [Run, he]

/-- C26: `Run` never uses an uninstalled provisioner. Provided every factory
call (that of `Run` and those of the reloads in the schedule) returns an
instance whenever it returns no error, `Run` does not panic on any schedule:
its `HasDashboardSources` and `PollChanges` calls are made on an installed
instance. The two queries have no result (nil dereference) exactly when no
provisioner is installed: that is so on a newly constructed orchestrator, it
stays so through every sequence of calls without `ProvisionDashboards` and
through every `ProvisionDashboards` call that does not return nil, and it ends
with one that returns nil. -/
theorem C26_run_never_uses_uninstalled (env : Env) (rootErr : GoError) (ticks : List Tick)
    (s : RunState) :
    ((∀ path, (s.ps.newDashboardProvisioner path).2 = none →
        (s.ps.newDashboardProvisioner path).1 ≠ none) →
      (∀ t ∈ ticks, t.buildsInstance) → (Run env rootErr ticks s).2 ≠ .panicked) ∧
    (∀ (ps : ProvisioningServiceImpl) (name : String),
      (GetDashboardProvisionerResolvedPath ps name = none ↔ ps.dashboardProvisioner = none) ∧
      (GetAllowUIUpdatesFromConfig ps name = none ↔ ps.dashboardProvisioner = none)) ∧
    (∀ (pkg : Pkg) (cfg : Cfg) (name : String),
      GetDashboardProvisionerResolvedPath (ProvideService pkg cfg).1 name = none ∧
      GetAllowUIUpdatesFromConfig (ProvideService pkg cfg).1 name = none ∧
      (NewProvisioningServiceImpl env pkg).dashboardProvisioner = none ∧
      GetDashboardProvisionerResolvedPath
        ((NewProvisioningServiceImpl env pkg).withCfg cfg) name = none ∧
      GetAllowUIUpdatesFromConfig ((NewProvisioningServiceImpl env pkg).withCfg cfg) name =
        none) ∧
    (∀ (ps : ProvisioningServiceImpl) (ops : List Op) (n : Nat) (evs : List Event)
      (name : String), ps.dashboardProvisioner = none → Op.provisionDashboards ∉ ops →
      GetDashboardProvisionerResolvedPath (World.run env ⟨ps, n, evs⟩ ops).ps name = none ∧
      GetAllowUIUpdatesFromConfig (World.run env ⟨ps, n, evs⟩ ops).ps name = none) ∧
    (∀ (ps : ProvisioningServiceImpl) (name : String), ps.dashboardProvisioner = none →
      ((ProvisionDashboards env ps).ret ≠ .returned none →
        GetDashboardProvisionerResolvedPath (ProvisionDashboards env ps).ps name = none ∧
        GetAllowUIUpdatesFromConfig (ProvisionDashboards env ps).ps name = none) ∧
      ((ProvisionDashboards env ps).ret = .returned none →
        GetDashboardProvisionerResolvedPath (ProvisionDashboards env ps).ps name ≠ none ∧
        GetAllowUIUpdatesFromConfig (ProvisionDashboards env ps).ps name ≠ none)) := by
  have hq : ∀ (ps : ProvisioningServiceImpl) (name : String),
      (GetDashboardProvisionerResolvedPath ps name = none ↔ ps.dashboardProvisioner = none) ∧
      (GetAllowUIUpdatesFromConfig ps name = none ↔ ps.dashboardProvisioner = none) := by
    intro ps name
    cases h : ps.dashboardProvisioner <;>
      simp [GetDashboardProvisionerResolvedPath, GetAllowUIUpdatesFromConfig, h]
  refine ⟨?_, hq, ?_, ?_, ?_⟩
  · intro hb hticks
    cases hm : s.ps.mutex
    · exact (Run_safe env rootErr ticks s hm).2.2 hb hticks
    · exact Run_held env rootErr ticks s hm
  · intro pkg cfg name
    exact ⟨rfl, rfl, rfl, rfl, rfl⟩
  · intro ps ops n evs name hnone hno
    have h := World.run_installed env ops ⟨ps, n, evs⟩ hno
    exact ⟨(hq _ name).1.2 (h.trans hnone), (hq _ name).2.2 (h.trans hnone)⟩
  · intro ps name hnone
    refine ⟨fun hret => ?_, fun hret => ?_⟩
    · have h := (ProvisionDashboards_installed env ps).1 hret
      exact ⟨(hq _ name).1.2 (h.trans hnone), (hq _ name).2.2 (h.trans hnone)⟩
    · obtain ⟨d, _, _, _, hinst, _⟩ := (ProvisionDashboards_installed env ps).2 hret
      refine ⟨fun h => ?_, fun h => ?_⟩
      · rw [(hq _ name).1.1 h] at hinst; exact absurd hinst (by simp)
      · rw [(hq _ name).2.1 h] at hinst; exact absurd hinst (by simp)

/-- Witness of C26: a run on the orchestrator built by `ProvideService`, with a
reload that builds `exV1`, does not panic; before any call the query has no
result. -/
theorem C26_run_never_uses_uninstalled_witness :
    (Run exEnv (.leaf "context canceled") exSchedule
      ⟨(ProvideService exPkg ⟨"/conf"⟩).1, 0, [], false⟩).2 ≠ .panicked ∧
    GetDashboardProvisionerResolvedPath
      (World.run exEnv ⟨(ProvideService exPkg ⟨"/conf"⟩).1, 0, []⟩
        [.runInitProvisioners, .cancelPolling]).ps "general" = none :=
  ⟨(C26_run_never_uses_uninstalled exEnv (.leaf "context canceled") exSchedule
      ⟨(ProvideService exPkg ⟨"/conf"⟩).1, 0, [], false⟩).1
      (by intro path _; simp [ProvideService, exPkg])
      (by
        intro t ht
        simp only [exSchedule, List.mem_cons, List.mem_singleton, List.not_mem_nil,
          or_false] at ht
        rcases ht with rfl | rfl | rfl | rfl
        · intro path _; simp
        · trivial
        · trivial
        · trivial),
   ((C26_run_never_uses_uninstalled exEnv (.leaf "context canceled") exSchedule
      ⟨(ProvideService exPkg ⟨"/conf"⟩).1, 0, [], false⟩).2.2.2.1
      (ProvideService exPkg ⟨"/conf"⟩).1 [.runInitProvisioners, .cancelPolling] 0 []
      "general" rfl (by decide)).1⟩

/-- C29, counterexample: the orchestrators the two constructors return do not
behave identically. `NewProvisioningServiceImpl` leaves `Cfg` nil, so on its
result `ProvisionAlertRules` and `RunInitProvisioners` panic before any effect,
while on the result of `ProvideService` for the configuration "/conf" they
call their provisioners and return nil. -/
theorem C29_constructed_orchestrators_differ :
    (NewProvisioningServiceImpl exEnv exPkg).Cfg = none ∧
    (NewProvisioningServiceImpl exEnv exPkg).call (ProvisionAlertRules exEnv) =
      (.panicked, []) ∧
    (NewProvisioningServiceImpl exEnv exPkg).call (RunInitProvisioners exEnv) =
      (.panicked, []) ∧
    (ProvisionAlertRules exEnv (ProvideService exPkg ⟨"/conf"⟩).1).ret = none ∧
    (ProvisionAlertRules exEnv (ProvideService exPkg ⟨"/conf"⟩).1).events =
      [.call .alertRules "/conf/alerting"] ∧
    (RunInitProvisioners exEnv (ProvideService exPkg ⟨"/conf"⟩).1).ret = none ∧
    (RunInitProvisioners exEnv (ProvideService exPkg ⟨"/conf"⟩).1).events =
      [.call .datasources "/conf/datasources", .call .plugins "/conf/plugins",
        .call .notifiers "/conf/notifiers", .call .alertRules "/conf/alerting"] := by
  refine ⟨rfl, rfl, rfl, rfl, rfl, rfl, rfl⟩

/-- C29, amended statement: the alert-rule stage ignores the hook
`provisionRules`. Whatever the field holds (nothing, as `ProvideService` leaves
it; the package level `rules.Provision`, as `NewProvisioningServiceImpl` sets
it; or any other function), `ProvisionAlertRules` and `RunInitProvisioners`
return the same value, have the same effects and leave the same receiver: the
alert-rule stage returns what the package level `rules.Provision` returns on
the joined path. The result of `NewProvisioningServiceImpl` has a nil `Cfg`, on
which every stage call panics; once a configuration is assigned to it, it is
the result of `ProvideService` for that configuration with only
`provisionRules` changed, and the two behave identically. -/
theorem C29_provisionRules_ignored (env : Env) (ps : ProvisioningServiceImpl)
    (r1 r2 : Option (String → Option GoError)) :
    ((ProvisionAlertRules env { ps with provisionRules := r1 }).ret =
        (ProvisionAlertRules env { ps with provisionRules := r2 }).ret ∧
      (ProvisionAlertRules env { ps with provisionRules := r1 }).events =
        (ProvisionAlertRules env { ps with provisionRules := r2 }).events ∧
      (ProvisionAlertRules env { ps with provisionRules := r1 }).ps =
        { ps with provisionRules := r1 }) ∧
    ((RunInitProvisioners env { ps with provisionRules := r1 }).ret =
        (RunInitProvisioners env { ps with provisionRules := r2 }).ret ∧
      (RunInitProvisioners env { ps with provisionRules := r1 }).events =
        (RunInitProvisioners env { ps with provisionRules := r2 }).events ∧
      (RunInitProvisioners env { ps with provisionRules := r1 }).ps =
        { ps with provisionRules := r1 }) ∧
    (ProvisionAlertRules env ps).ret =
      env.rulesProvision (env.filepathJoin ps.Cfg.ProvisioningPath "alerting") ∧
    (∀ (pkg : Pkg) (cfg : Cfg),
      (ProvideService pkg cfg).1.provisionRules = none ∧
      (NewProvisioningServiceImpl env pkg).provisionRules = some env.rulesProvision ∧
      (NewProvisioningServiceImpl env pkg).Cfg = none ∧
      (∀ method, (NewProvisioningServiceImpl env pkg).call method = (.panicked, [])) ∧
      (NewProvisioningServiceImpl env pkg).withCfg cfg =
        { (ProvideService pkg cfg).1 with provisionRules := some env.rulesProvision } ∧
      (ProvisionAlertRules env ((NewProvisioningServiceImpl env pkg).withCfg cfg)).ret =
        (ProvisionAlertRules env (ProvideService pkg cfg).1).ret ∧
      (ProvisionAlertRules env ((NewProvisioningServiceImpl env pkg).withCfg cfg)).events =
        (ProvisionAlertRules env (ProvideService pkg cfg).1).events ∧
      (RunInitProvisioners env ((NewProvisioningServiceImpl env pkg).withCfg cfg)).ret =
        (RunInitProvisioners env (ProvideService pkg cfg).1).ret ∧
      (RunInitProvisioners env ((NewProvisioningServiceImpl env pkg).withCfg cfg)).events =
        (RunInitProvisioners env (ProvideService pkg cfg).1).events) := by
  have hinit : ∀ r : Option (String → Option GoError),
      (RunInitProvisioners env { ps with provisionRules := r }).ret =
        (RunInitProvisioners env ps).ret ∧
      (RunInitProvisioners env { ps with provisionRules := r }).events =
        (RunInitProvisioners env ps).events := by
    intro r
    cases h1 : ps.provisionDatasources
        (env.filepathJoin ps.Cfg.ProvisioningPath "datasources") <;>
      cases h2 : ps.provisionPlugins (env.filepathJoin ps.Cfg.ProvisioningPath "plugins") <;>
      cases h3 : ps.provisionNotifiers
        (env.filepathJoin ps.Cfg.ProvisioningPath "notifiers") <;>
      cases h4 : env.rulesProvision (env.filepathJoin ps.Cfg.ProvisioningPath "alerting") <;>
      simp [RunInitProvisioners, ProvisionDatasources, ProvisionPlugins,
        ProvisionNotifications, ProvisionAlertRules, h1, h2, h3, h4]
  refine ⟨⟨rfl, rfl, rfl⟩, ⟨?_, ?_, ?_⟩, rfl, ?_⟩
  · rw [(hinit r1).1, (hinit r2).1]
  · rw [(hinit r1).2, (hinit r2).2]
  · exact (RunInitProvisioners_ps_cancelled env _).1
  · intro pkg cfg
    refine ⟨rfl, rfl, rfl, fun _ => rfl, rfl, rfl, rfl, ?_, ?_⟩
    · cases h1 : pkg.datasourcesProvision
          (env.filepathJoin cfg.ProvisioningPath "datasources") <;>
        cases h2 : pkg.pluginsProvision (env.filepathJoin cfg.ProvisioningPath "plugins") <;>
        cases h3 : pkg.notifiersProvision
          (env.filepathJoin cfg.ProvisioningPath "notifiers") <;>
        cases h4 : env.rulesProvision (env.filepathJoin cfg.ProvisioningPath "alerting") <;>
        simp [RunInitProvisioners, ProvisionDatasources, ProvisionPlugins,
          ProvisionNotifications, ProvisionAlertRules, NewProvisioningServiceImpl,
          RawProvisioningServiceImpl.withCfg, ProvideService, h1, h2, h3, h4]
    · cases h1 : pkg.datasourcesProvision
          (env.filepathJoin cfg.ProvisioningPath "datasources") <;>
        cases h2 : pkg.pluginsProvision (env.filepathJoin cfg.ProvisioningPath "plugins") <;>
        cases h3 : pkg.notifiersProvision
          (env.filepathJoin cfg.ProvisioningPath "notifiers") <;>
        cases h4 : env.rulesProvision (env.filepathJoin cfg.ProvisioningPath "alerting") <;>
        simp [RunInitProvisioners, ProvisionDatasources, ProvisionPlugins,
          ProvisionNotifications, ProvisionAlertRules, NewProvisioningServiceImpl,
          RawProvisioningServiceImpl.withCfg, ProvideService, h1, h2, h3, h4]

/-- Witness of C29, amended statement: with a rules provisioner that fails,
`RunInitProvisioners` on `exPs` returns the same error and performs the same
calls whether `provisionRules` is unset or set to a function that succeeds;
and the result of `NewProvisioningServiceImpl` with the configuration "/conf"
assigned runs the alert-rule stage as the result of `ProvideService` does. -/
theorem C29_provisionRules_ignored_witness :
    ((RunInitProvisioners exEnvRulesFail { exPs with provisionRules := none }).ret =
        (RunInitProvisioners exEnvRulesFail
          { exPs with provisionRules := some (fun _ => none) }).ret ∧
      (RunInitProvisioners exEnvRulesFail { exPs with provisionRules := none }).events =
        (RunInitProvisioners exEnvRulesFail
          { exPs with provisionRules := some (fun _ => none) }).events) ∧
    (ProvisionAlertRules exEnvRulesFail
        ((NewProvisioningServiceImpl exEnvRulesFail exPkg).withCfg ⟨"/conf"⟩)).ret =
      (ProvisionAlertRules exEnvRulesFail (ProvideService exPkg ⟨"/conf"⟩).1).ret :=
  ⟨⟨(C29_provisionRules_ignored exEnvRulesFail exPs none (some (fun _ => none))).2.1.1,
    (C29_provisionRules_ignored exEnvRulesFail exPs none (some (fun _ => none))).2.1.2.1⟩,
   ((C29_provisionRules_ignored exEnvRulesFail exPs none none).2.2.2 exPkg
      ⟨"/conf"⟩).2.2.2.2.2.1⟩

end Provisioning

namespace PublicDashboards

/-- C17: `PublicDashboardErr.Error` is the reason when the reason is not empty
and the text "Dashboard Error" when it is; the status code and status play no
part, and the result is never empty. -/
theorem C17_error_message (e : PublicDashboardErr) :
    (e.Reason ≠ "" → e.Error = e.Reason) ∧
    (e.Reason = "" → e.Error = "Dashboard Error") ∧
    (∀ (code : Int) (status : String),
      ({ e with StatusCode := code, Status := status } : PublicDashboardErr).Error = e.Error) ∧
    e.Error ≠ "" := by
  refine ⟨?_, ?_, ?_, ?_⟩
  · intro h
    simp [PublicDashboardErr.Error, h]
  · intro h
    simp [PublicDashboardErr.Error, h]
  · intro code status
    rfl
  · by_cases h : e.Reason = ""
    · simp [PublicDashboardErr.Error, h]
    · simp [PublicDashboardErr.Error, h]

/-- Witness of C17: the error `ErrPublicDashboardNotFound` and an error with no
reason. -/
theorem C17_error_message_witness :
    (⟨404, "not-found", "Public dashboard not found"⟩ : PublicDashboardErr).Error =
      "Public dashboard not found" ∧
    (⟨500, "", ""⟩ : PublicDashboardErr).Error = "Dashboard Error" :=
  ⟨(C17_error_message ⟨404, "not-found", "Public dashboard not found"⟩).1 (by decide),
   (C17_error_message ⟨500, "", ""⟩).2.1 rfl⟩

/-- C18: `BuildTimeSettings` takes both bounds from the public dashboard when
its time settings are present and hold a non-empty string under "from" and
under "to"; in every other case (no time settings, or either bound missing, not
a string or empty) it takes both bounds from the dashboard. The two bounds
always come from the same side. -/
theorem C18_build_time_settings (pd : PublicDashboard) (d : Dashboard) :
    (∀ ts fromStr toStr, pd.TimeSettings = some ts →
      ts.Get "from" = .str fromStr → ts.Get "to" = .str toStr →
      fromStr ≠ "" → toStr ≠ "" →
      pd.BuildTimeSettings d = { From := fromStr, To := toStr }) ∧
    (pd.TimeSettings = none →
      pd.BuildTimeSettings d =
        { From := (d.Data.GetPath ["time", "from"]).MustString ""
          To := (d.Data.GetPath ["time", "to"]).MustString "" }) ∧
    (∀ ts, pd.TimeSettings = some ts →
      ((ts.Get "from").MustString "" = "" ∨ (ts.Get "to").MustString "" = "") →
      pd.BuildTimeSettings d =
        { From := (d.Data.GetPath ["time", "from"]).MustString ""
          To := (d.Data.GetPath ["time", "to"]).MustString "" }) ∧
    (pd.BuildTimeSettings d =
        { From := (d.Data.GetPath ["time", "from"]).MustString ""
          To := (d.Data.GetPath ["time", "to"]).MustString "" } ∨
      ∃ ts, pd.TimeSettings = some ts ∧
        pd.BuildTimeSettings d =
          { From := (ts.Get "from").MustString "", To := (ts.Get "to").MustString "" }) := by
  refine ⟨?_, ?_, ?_, ?_⟩
  · intro ts fromStr toStr hts hf ht hfne htne
    simp [PublicDashboard.BuildTimeSettings, hts, hf, ht, Json.MustString, hfne, htne]
  · intro hts
    simp [PublicDashboard.BuildTimeSettings, hts]
  · intro ts hts hempty
    rcases hempty with h | h <;> simp [PublicDashboard.BuildTimeSettings, hts, h]
  · cases hts : pd.TimeSettings with
    | none => left; simp [PublicDashboard.BuildTimeSettings, hts]
    | some ts =>
      by_cases h : (ts.Get "to").MustString "" ≠ "" ∧ (ts.Get "from").MustString "" ≠ ""
      · right
        exact ⟨ts, rfl, by simp [PublicDashboard.BuildTimeSettings, hts, h.1, h.2]⟩
      · left
        simp only [not_and_or, not_not] at h
        rcases h with h | h <;> simp [PublicDashboard.BuildTimeSettings, hts, h]

/-- Witness of C18: both bounds set on the public dashboard, and only one set. -/
theorem C18_build_time_settings_witness :
    exPdBoth.BuildTimeSettings exDashboard = { From := "now-8h", To := "now-1h" } ∧
    exPdFromOnly.BuildTimeSettings exDashboard = { From := "now-6h", To := "now" } :=
  ⟨(C18_build_time_settings exPdBoth exDashboard).1 _ "now-8h" "now-1h" rfl rfl rfl
      (by decide) (by decide),
   (C18_build_time_settings exPdFromOnly exDashboard).2.2.1 _ rfl (Or.inr rfl)⟩

end PublicDashboards

namespace Kvstore

/-- Reading a key is not affected by dropping the entries of another key. -/
theorem lookup_filter_ne (m : List (Key × String)) (k k2 : Key) (h : k2 ≠ k) :
    (m.filter (fun e => e.1 != k)).lookup k2 = m.lookup k2 := by
  induction m with
  | nil => rfl
  | cons e m ih =>
    obtain ⟨ek, ev⟩ := e
    by_cases hek : ek = k
    · subst hek
      have hne : (k2 == ek) = false := by simpa using h
      simp [List.filter, List.lookup, hne, ih]
    · have hkeep : (ek != k) = true := by simpa using hek
      by_cases h2 : k2 = ek
      · subst h2
        simp [List.filter, hkeep, List.lookup]
      · have hne : (k2 == ek) = false := by simpa using h2
        simp [List.filter, hkeep, List.lookup, hne, ih]

/-- Reading a key whose entries were all dropped finds nothing. -/
theorem lookup_filter_self (m : List (Key × String)) (k : Key) :
    (m.filter (fun e => e.1 != k)).lookup k = none := by
  induction m with
  | nil => rfl
  | cons e m ih =>
    obtain ⟨ek, ev⟩ := e
    by_cases hek : ek = k
    · subst hek
      simp [List.filter, ih]
    · have hkeep : (ek != k) = true := by simpa using hek
      have hne : (k == ek) = false := by simpa using fun h : k = ek => hek h.symm
      simp [List.filter, hkeep, List.lookup, hne, ih]

/-- Reading back the key just written gives the written value. -/
theorem mapIndex_mapAssign_self (m : List (Key × String)) (k : Key) (v : String) :
    mapIndex (mapAssign m k v) k = v := by
  simp [mapIndex, mapAssign, List.lookup]

/-- Writing a key does not change what another key reads. -/
theorem mapIndex_mapAssign_ne (m : List (Key × String)) (k k2 : Key) (v : String)
    (h : k2 ≠ k) : mapIndex (mapAssign m k v) k2 = mapIndex m k2 := by
  have hne : (k2 == k) = false := by simpa using h
  simp [mapIndex, mapAssign, List.lookup, hne, lookup_filter_ne m k k2 h]

/-- A deleted key reads as the zero value. -/
theorem mapIndex_mapDelete_self (m : List (Key × String)) (k : Key) :
    mapIndex (mapDelete m k) k = "" := by
  simp [mapIndex, mapDelete, lookup_filter_self]

/-- Deleting a key does not change what another key reads. -/
theorem mapIndex_mapDelete_ne (m : List (Key × String)) (k k2 : Key) (h : k2 ≠ k) :
    mapIndex (mapDelete m k) k2 = mapIndex m k2 := by
  simp [mapIndex, mapDelete, lookup_filter_ne m k k2 h]

/-- On the in-memory store, for every key and non-empty value `v`, `Set` returns
no error and `Get` on the same key then returns `v`, found, no error; for every
value, `Get` on any other key returns what it returned before. -/
theorem Set_then_Get_nonempty (f : FakeSecretsKVStore) (orgId : Int) (ns typ v : String) :
    (f.Set orgId ns typ v).2 = none ∧
    (v ≠ "" → (f.Set orgId ns typ v).1.Get orgId ns typ = (v, true, none)) ∧
    (∀ (orgId2 : Int) (ns2 typ2 : String),
      (orgId2, ns2, typ2) ≠ (orgId, ns, typ) →
      (f.Set orgId ns typ v).1.Get orgId2 ns2 typ2 = f.Get orgId2 ns2 typ2) := by
  refine ⟨rfl, ?_, ?_⟩
  · intro hv
    simp [FakeSecretsKVStore.Set, FakeSecretsKVStore.Get, mapIndex_mapAssign_self, hv]
  · intro orgId2 ns2 typ2 hne
    have hk : buildKey orgId2 ns2 typ2 ≠ buildKey orgId ns typ := by
      intro h
      apply hne
      simp only [buildKey, Key.mk.injEq] at h
      obtain ⟨h1, h2, h3⟩ := h
      rw [h1, h2, h3]
    simp [FakeSecretsKVStore.Set, FakeSecretsKVStore.Get, mapIndex_mapAssign_ne _ _ _ _ hk]

/-- Renaming a stored key to another namespace moves its value: the new key
reads the value the old key held, and the old key reads as absent. -/
theorem Rename_moves_value (f : FakeSecretsKVStore) (orgId : Int)
    (ns typ newNs : String) (hne : newNs ≠ ns) :
    (f.Rename orgId ns typ newNs).1.Get orgId newNs typ =
      ((f.Get orgId ns typ).1, (f.Get orgId ns typ).1 != "", none) ∧
    (f.Rename orgId ns typ newNs).1.Get orgId ns typ = ("", false, none) := by
  have hk : buildKey orgId newNs typ ≠ buildKey orgId ns typ := by
    intro h
    simp only [buildKey, Key.mk.injEq] at h
    exact hne h.2.1
  simp [FakeSecretsKVStore.Rename, FakeSecretsKVStore.Get, mapIndex_mapDelete_ne _ _ _ hk,
    mapIndex_mapAssign_self, mapIndex_mapDelete_self]

/-- C20, evaluation at the failing inputs: renaming a key that is not stored
onto the key `exStore` holds replaces the stored value by the empty string, so
the secret reads as not found; on the new store it leaves a key behind; and
renaming the stored key to its own namespace deletes it. -/
theorem C20_rename_missing_key_clobbers :
    exStore.Get 1 "a" "t" = ("", false, none) ∧
    exStore.Get 1 "b" "t" = ("w", true, none) ∧
    (exStore.Rename 1 "a" "t" "b").1.Get 1 "b" "t" = ("", false, none) ∧
    (exStore.Rename 1 "a" "t" "b").1.store = [(buildKey 1 "b" "t", "")] ∧
    NewFakeSecretsKVStore.storedKeys = [] ∧
    (NewFakeSecretsKVStore.Rename 1 "a" "t" "b").1.storedKeys = [buildKey 1 "b" "t"] ∧
    (exStore.Rename 1 "b" "t" "b").1.Get 1 "b" "t" = ("", false, none) ∧
    (exStore.Rename 1 "b" "t" "b").1.store = [] := by
  decide

end Kvstore


namespace Channels

open PublicDashboards

/-- C28: `NewDiscordNotifier` validates its settings. Without settings it fails
with the reason "No Settings Supplied"; with settings whose "url" is missing,
not a string or the empty string it fails with the reason "Could not find
webhook url property in settings"; it fails in no other case. With a non-empty
string under "url" it returns a notifier whose `WebhookURL` is that string and
whose `Message` is the string under "message", the empty string when there is
no "message" entry or it is not a string. -/
theorem C28_discord_settings_validation (model : AlertNotification) :
    ((∃ e, NewDiscordNotifier model = .error e) ↔
      (model.Settings = none ∨
        ∃ j, model.Settings = some j ∧ ¬ ∃ u, j.Get "url" = .str u ∧ u ≠ "")) ∧
    (model.Settings = none →
      NewDiscordNotifier model = .error { Reason := "No Settings Supplied" }) ∧
    (∀ j, model.Settings = some j → (¬ ∃ u, j.Get "url" = .str u ∧ u ≠ "") →
      NewDiscordNotifier model =
        .error { Reason := "Could not find webhook url property in settings" }) ∧
    (∀ j u, model.Settings = some j → j.Get "url" = .str u → u ≠ "" →
      NewDiscordNotifier model =
        .ok { Description := "", Message := (j.Get "message").MustString "", WebhookURL := u } ∧
      (∀ m, j.Get "message" = .str m →
        NewDiscordNotifier model = .ok { Description := "", Message := m, WebhookURL := u }) ∧
      ((∀ m, j.Get "message" ≠ .str m) →
        NewDiscordNotifier model = .ok { Description := "", Message := "", WebhookURL := u }) ∧
      (∀ kvs, j = .obj kvs → kvs.lookup "message" = none →
        NewDiscordNotifier model =
          .ok { Description := "", Message := "", WebhookURL := u })) := by
  have hbad : ∀ j, model.Settings = some j → (¬ ∃ u, j.Get "url" = .str u ∧ u ≠ "") →
      NewDiscordNotifier model =
        .error { Reason := "Could not find webhook url property in settings" } := by
    intro j hj hno
    have hu : (j.Get "url").MustString "" = "" := by
      cases h : j.Get "url" with
      | str s =>
        by_contra hne
        exact hno ⟨s, h, by simpa [Json.MustString] using hne⟩
      | _ => rfl
    simp [NewDiscordNotifier, hj, hu]
  have hgood : ∀ j u, model.Settings = some j → j.Get "url" = .str u → u ≠ "" →
      NewDiscordNotifier model =
        .ok { Description := "", Message := (j.Get "message").MustString "",
              WebhookURL := u } := by
    intro j u hj hu hne
    simp [NewDiscordNotifier, hj, hu, Json.MustString, hne]
  refine ⟨⟨?_, ?_⟩, ?_, hbad, ?_⟩
  · rintro ⟨e, he⟩
    cases hs : model.Settings with
    | none => exact Or.inl rfl
    | some j =>
      refine Or.inr ⟨j, rfl, ?_⟩
      rintro ⟨u, hu, hne⟩
      rw [hgood j u hs hu hne] at he
      cases he
  · rintro (hnone | ⟨j, hj, hno⟩)
    · exact ⟨{ Reason := "No Settings Supplied" }, by simp [NewDiscordNotifier, hnone]⟩
    · exact ⟨_, hbad j hj hno⟩
  · intro hnone
    simp [NewDiscordNotifier, hnone]
  · intro j u hj hu hne
    refine ⟨hgood j u hj hu hne, ?_, ?_, ?_⟩
    · intro m hm
      rw [hgood j u hj hu hne, hm]; rfl
    · intro hm
      rw [hgood j u hj hu hne]
      cases h : j.Get "message" with
      | str s => exact absurd h (hm s)
      | _ => rfl
    · intro kvs hkvs hlook
      rw [hgood j u hj hu hne]
      subst hkvs
      simp [Json.Get, hlook, Json.MustString]

/-- Witness of C28: settings with a url and a message give a notifier holding
both; settings with a url only give an empty message; a url that is a number
is refused. -/
theorem C28_discord_settings_validation_witness :
    NewDiscordNotifier ⟨some exSettings⟩ =
      .ok { Description := "", Message := "firing",
            WebhookURL := "https://discord.example/hook" } ∧
    NewDiscordNotifier ⟨some exSettingsNoMessage⟩ =
      .ok { Description := "", Message := "",
            WebhookURL := "https://discord.example/hook" } ∧
    NewDiscordNotifier ⟨some exSettingsBadUrl⟩ =
      .error { Reason := "Could not find webhook url property in settings" } :=
  ⟨((C28_discord_settings_validation ⟨some exSettings⟩).2.2.2 exSettings
      "https://discord.example/hook" rfl rfl (by decide)).2.1 "firing" rfl,
   ((C28_discord_settings_validation ⟨some exSettingsNoMessage⟩).2.2.2 exSettingsNoMessage
      "https://discord.example/hook" rfl rfl (by decide)).2.2.2
      [("url", .str "https://discord.example/hook")] rfl rfl,
   (C28_discord_settings_validation ⟨some exSettingsBadUrl⟩).2.2.1 exSettingsBadUrl rfl
      (by rintro ⟨u, hu, _⟩; simp [exSettingsBadUrl, Json.Get, List.lookup] at hu)⟩

end Channels


namespace Kvstore

/-- The row the session's `Get` finds is a row of the table. -/
theorem dbGet_mem {rows : List Item} {orgId : Int} {namespace_ typ : String} {item : Item}
    (h : dbGet rows orgId namespace_ typ = some item) : item ∈ rows :=
  List.mem_of_find?_eq_some h

/-- Rows of an updated table: each is the new item or an old row of another
identifier. -/
theorem dbUpdate_mem {rows : List Item} {id : Int} {item r : Item}
    (h : r ∈ dbUpdate rows id item) :
    ∃ r0 ∈ rows, (r0.Id = id ∧ r = item) ∨ (r0.Id ≠ id ∧ r = r0) := by
  simp only [dbUpdate, List.mem_map] at h
  obtain ⟨r0, hr0, hr⟩ := h
  refine ⟨r0, hr0, ?_⟩
  by_cases hid : r0.Id = id
  · left; exact ⟨hid, by simpa [hid] using hr.symm⟩
  · right; exact ⟨hid, by simpa [hid] using hr.symm⟩

/-- An update of a stored row by an item of the same identifier keeps the
table well formed. -/
theorem TableOk_dbUpdate {t : Table} {found item : Item} (ht : TableOk t)
    (hid : item.Id = found.Id) :
    TableOk { t with rows := dbUpdate t.rows found.Id item } := by
  refine ⟨?_, ?_⟩
  · intro r hr
    obtain ⟨r0, hr0, ⟨h1, h2⟩ | ⟨_, h2⟩⟩ := dbUpdate_mem hr
    · subst h2; rw [hid, ← h1]; exact ht.1 r0 hr0
    · subst h2; exact ht.1 r hr0
  · intro r hr r2 hr2 heq
    obtain ⟨a, ha, ⟨h1, h2⟩ | ⟨h1, h2⟩⟩ := dbUpdate_mem hr <;>
      obtain ⟨b, hb, ⟨h3, h4⟩ | ⟨h3, h4⟩⟩ := dbUpdate_mem hr2
    · rw [h2, h4]
    · subst h2 h4; exact absurd (heq.symm.trans hid) h3
    · subst h2 h4; exact absurd (heq.trans hid) h1
    · subst h2 h4; exact ht.2 r ha r2 hb heq

/-- The new item is a row of the updated table when its identifier was stored. -/
theorem dbUpdate_item {rows : List Item} {found item : Item} (hf : found ∈ rows) :
    item ∈ dbUpdate rows found.Id item := by
  simp only [dbUpdate, List.mem_map]
  exact ⟨found, hf, by simp⟩

/-- Rows of another identifier stay in the updated table. -/
theorem dbUpdate_other {rows : List Item} {id : Int} {item r : Item} (hr : r ∈ rows)
    (hne : r.Id ≠ id) : r ∈ dbUpdate rows id item := by
  simp only [dbUpdate, List.mem_map]
  exact ⟨r, hr, by simp [hne]⟩

/-- Decoding and decrypting what `Set` stores gives back the value. -/
theorem decryptStored_encoded (env : SqlEnv)
    (hrt : ∀ v c, env.Encrypt v = .ok c → env.Decrypt c = (v, none))
    (hb64 : ∀ b, env.DecodeString (env.EncodeToString b) = .ok b)
    {value encryptedValue : String} (h : env.Encrypt value = .ok encryptedValue) :
    decryptStored env (env.EncodeToString encryptedValue) = some value := by
  simp [decryptStored, hb64, hrt value encryptedValue h]

/-- A cache hit returns the value of the entry of the item's identifier. -/
theorem cacheHit_some {cache : Int → Option cachedDecrypted} {item : Item} {v : String}
    (h : cacheHit cache item = some v) :
    ∃ c, cache item.Id = some c ∧ item.Updated = c.updated ∧ c.value = v := by
  unfold cacheHit at h
  cases hc : cache item.Id with
  | none => simp [hc] at h
  | some c =>
    simp only [hc] at h
    by_cases hu : item.Updated = c.updated
    · simp [hu] at h; exact ⟨c, rfl, hu, h⟩
    · simp [hu] at h

/-- Caching the decryption of a stored row keeps the cache coherent. -/
theorem CacheOk_cacheAssign {env : SqlEnv} {rows : List Item}
    {cache : Int → Option cachedDecrypted} {item : Item} {c : cachedDecrypted}
    (h : CacheOk env rows cache) (hmem : item ∈ rows)
    (hval : decryptStored env item.Value = some c.value) :
    CacheOk env rows (cacheAssign cache item.Id c) := by
  intro j d hj
  simp only [cacheAssign] at hj
  by_cases hji : j = item.Id
  · simp only [hji, if_true, Option.some.injEq] at hj
    subst hj
    exact ⟨item, hmem, hji.symm, hval⟩
  · simp only [hji, if_false] at hj
    exact h j d hj

/-- The loop of `GetAll` over rows of the table keeps the cache coherent. -/
theorem GetAll_loop_CacheOk (env : SqlEnv) (rows : List Item) :
    ∀ (items : List Item) (cache : Int → Option cachedDecrypted),
      (∀ it ∈ items, it ∈ rows) → CacheOk env rows cache →
      CacheOk env rows (secretsKVStoreSQL.GetAll.loop env items cache).2 := by
  intro items
  induction items with
  | nil => intro cache _ h; exact h
  | cons item rest ih =>
    intro cache hsub h
    have hrest : ∀ it ∈ rest, it ∈ rows := fun it hit => hsub it (List.mem_cons_of_mem _ hit)
    have hitem : item ∈ rows := hsub item (List.mem_cons_self _ _)
    cases hhit : cacheHit cache item with
    | some v =>
      simp only [secretsKVStoreSQL.GetAll.loop, hhit]
      exact ih cache hrest h
    | none =>
      cases hdec : env.DecodeString item.Value with
      | error e =>
        simp only [secretsKVStoreSQL.GetAll.loop, hhit, hdec]
        exact ih cache hrest h
      | ok decoded =>
        rcases hd : env.Decrypt decoded with ⟨d, _ | e⟩
        · simp only [secretsKVStoreSQL.GetAll.loop, hhit, hdec, hd]
          refine ih _ hrest (CacheOk_cacheAssign h hitem ?_)
          simp [decryptStored, hdec, hd]
        · simp only [secretsKVStoreSQL.GetAll.loop, hhit, hdec, hd]
          exact ih cache hrest h

/-- Method `Get` keeps the store coherent. -/
theorem Coherent_Get (env : SqlEnv) (kv : secretsKVStoreSQL)
    (dbErr : Option Provisioning.GoError) (orgId : Int) (namespace_ typ : String)
    (h : Coherent env kv) : Coherent env (kv.Get env dbErr orgId namespace_ typ).2 := by
  cases dbErr with
  | some err => exact h
  | none =>
    cases hget : dbGet kv.sqlStore.rows orgId namespace_ typ with
    | none => simp only [secretsKVStoreSQL.Get, hget]; exact h
    | some item =>
      cases hhit : cacheHit kv.decryptionCache item with
      | some v => simp only [secretsKVStoreSQL.Get, hget, hhit]; exact h
      | none =>
        cases hdec : env.DecodeString item.Value with
        | error e => simp only [secretsKVStoreSQL.Get, hget, hhit, hdec]; exact h
        | ok decoded =>
          rcases hd : env.Decrypt decoded with ⟨d, _ | e⟩
          · simp only [secretsKVStoreSQL.Get, hget, hhit, hdec, hd]
            refine ⟨h.1, CacheOk_cacheAssign h.2 (dbGet_mem hget) ?_⟩
            simp [decryptStored, hdec, hd]
          · simp only [secretsKVStoreSQL.Get, hget, hhit, hdec, hd]; exact h

/-- Method `Set` keeps the store coherent when decryption inverts encryption. -/
theorem Coherent_Set (env : SqlEnv)
    (hrt : ∀ v c, env.Encrypt v = .ok c → env.Decrypt c = (v, none))
    (hb64 : ∀ b, env.DecodeString (env.EncodeToString b) = .ok b)
    (kv : secretsKVStoreSQL) (now : Int) (getErr writeErr : Option Provisioning.GoError)
    (orgId : Int) (namespace_ typ value : String) (h : Coherent env kv) :
    Coherent env (kv.Set env now getErr writeErr orgId namespace_ typ value).2 := by
  cases henc : env.Encrypt value with
  | error e => simp only [secretsKVStoreSQL.Set, henc]; exact h
  | ok encryptedValue =>
    cases getErr with
    | some err => simp only [secretsKVStoreSQL.Set, henc]; exact h
    | none =>
      cases hget : dbGet kv.sqlStore.rows orgId namespace_ typ with
      | some found =>
        have hf := dbGet_mem hget
        by_cases hsame : found.Value = env.EncodeToString encryptedValue
        · simp only [secretsKVStoreSQL.Set, henc, hget, hsame, if_true]; exact h
        · cases writeErr with
          | some err => simp only [secretsKVStoreSQL.Set, henc, hget, hsame, if_false]; exact h
          | none =>
            simp only [secretsKVStoreSQL.Set, henc, hget, hsame, if_false]
            refine ⟨TableOk_dbUpdate h.1 rfl, ?_⟩
            intro j d hj
            simp only [cacheAssign] at hj
            by_cases hji : j = found.Id
            · simp only [hji, if_true, Option.some.injEq] at hj
              subst hj
              exact ⟨_, dbUpdate_item hf, hji.symm,
                decryptStored_encoded env hrt hb64 henc⟩
            · simp only [hji, if_false] at hj
              obtain ⟨r, hr, hid, hv⟩ := h.2 j d hj
              exact ⟨r, dbUpdate_other hr (by rw [hid]; exact hji), hid, hv⟩
      | none =>
        cases writeErr with
        | some err => simp only [secretsKVStoreSQL.Set, henc, hget]; exact h
        | none =>
          simp only [secretsKVStoreSQL.Set, henc, hget]
          refine ⟨⟨?_, ?_⟩, ?_⟩
          · intro r hr
            simp only [dbInsert, List.mem_append, List.mem_singleton] at hr ⊢
            rcases hr with hr | hr
            · have := h.1.1 r hr; omega
            · subst hr; simp
          · intro r hr r2 hr2 heq
            simp only [dbInsert, List.mem_append, List.mem_singleton] at hr hr2
            rcases hr with hr | hr <;> rcases hr2 with hr2 | hr2
            · exact h.1.2 r hr r2 hr2 heq
            · subst hr2
              have := h.1.1 r hr
              simp at heq; omega
            · subst hr
              have := h.1.1 r2 hr2
              simp at heq; omega
            · rw [hr, hr2]
          · intro j d hj
            obtain ⟨r, hr, hid, hv⟩ := h.2 j d hj
            exact ⟨r, by simp [dbInsert, hr], hid, hv⟩

/-- Method `Del` keeps the store coherent. -/
theorem Coherent_Del (env : SqlEnv) (kv : secretsKVStoreSQL)
    (getErr writeErr : Option Provisioning.GoError) (orgId : Int) (namespace_ typ : String)
    (h : Coherent env kv) : Coherent env (kv.Del getErr writeErr orgId namespace_ typ).2 := by
  cases getErr with
  | some err => exact h
  | none =>
    cases hget : dbGet kv.sqlStore.rows orgId namespace_ typ with
    | none => simp only [secretsKVStoreSQL.Del, hget]; exact h
    | some item =>
      cases writeErr with
      | some err => simp only [secretsKVStoreSQL.Del, hget]; exact h
      | none =>
        simp only [secretsKVStoreSQL.Del, hget]
        refine ⟨⟨?_, ?_⟩, ?_⟩
        · intro r hr
          simp only [dbDelete, List.mem_filter] at hr
          exact h.1.1 r hr.1
        · intro r hr r2 hr2 heq
          simp only [dbDelete, List.mem_filter] at hr hr2
          exact h.1.2 r hr.1 r2 hr2.1 heq
        · intro j d hj
          simp only [cacheDelete] at hj
          by_cases hji : j = item.Id
          · simp [hji] at hj
          · simp only [hji, if_false] at hj
            obtain ⟨r, hr, hid, hv⟩ := h.2 j d hj
            refine ⟨r, ?_, hid, hv⟩
            simp only [dbDelete, List.mem_filter]
            exact ⟨hr, by simp [hid, hji]⟩

/-- Method `Rename` keeps the store coherent. -/
theorem Coherent_Rename (env : SqlEnv) (kv : secretsKVStoreSQL) (now : Int)
    (getErr writeErr : Option Provisioning.GoError) (orgId : Int)
    (namespace_ typ newNamespace : String) (h : Coherent env kv) :
    Coherent env (kv.Rename now getErr writeErr orgId namespace_ typ newNamespace).2 := by
  cases getErr with
  | some err => exact h
  | none =>
    cases hget : dbGet kv.sqlStore.rows orgId namespace_ typ with
    | none => simp only [secretsKVStoreSQL.Rename, hget]; exact h
    | some found =>
      have hf := dbGet_mem hget
      cases writeErr with
      | some err => simp only [secretsKVStoreSQL.Rename, hget]; exact h
      | none =>
        simp only [secretsKVStoreSQL.Rename, hget]
        refine ⟨TableOk_dbUpdate h.1 rfl, ?_⟩
        intro j d hj
        obtain ⟨r, hr, hid, hv⟩ := h.2 j d hj
        by_cases hrf : r.Id = found.Id
        · have hrfound : r = found := h.1.2 r hr found hf hrf
          subst hrfound
          exact ⟨_, dbUpdate_item hf, hid, hv⟩
        · exact ⟨r, dbUpdate_other hr hrf, hid, hv⟩

/-- Method `GetAll` keeps the store coherent. -/
theorem Coherent_GetAll (env : SqlEnv) (kv : secretsKVStoreSQL)
    (findErr : Option Provisioning.GoError) (h : Coherent env kv) :
    Coherent env (kv.GetAll env findErr).2 := by
  cases hov : kv.GetAllFuncOverride with
  | some r => simp only [secretsKVStoreSQL.GetAll, hov]; exact h
  | none =>
    cases findErr with
    | some err => simp only [secretsKVStoreSQL.GetAll, hov]; exact h
    | none =>
      simp only [secretsKVStoreSQL.GetAll, hov]
      exact ⟨h.1, GetAll_loop_CacheOk env kv.sqlStore.rows kv.sqlStore.rows
        kv.decryptionCache (fun _ hit => hit) h.2⟩

/-- Every sequence of calls keeps the store coherent. -/
theorem Coherent_run (env : SqlEnv)
    (hrt : ∀ v c, env.Encrypt v = .ok c → env.Decrypt c = (v, none))
    (hb64 : ∀ b, env.DecodeString (env.EncodeToString b) = .ok b) (ops : List SqlOp) :
    ∀ kv, Coherent env kv → Coherent env (secretsKVStoreSQL.run env kv ops) := by
  induction ops with
  | nil => intro kv h; exact h
  | cons op rest ih =>
    intro kv h
    simp only [secretsKVStoreSQL.run, List.foldl_cons]
    refine ih _ ?_
    cases op with
    | get dbErr orgId namespace_ typ => exact Coherent_Get env kv dbErr orgId namespace_ typ h
    | set now getErr writeErr orgId namespace_ typ value =>
      exact Coherent_Set env hrt hb64 kv now getErr writeErr orgId namespace_ typ value h
    | del getErr writeErr orgId namespace_ typ =>
      exact Coherent_Del env kv getErr writeErr orgId namespace_ typ h
    | rename now getErr writeErr orgId namespace_ typ newNamespace =>
      exact Coherent_Rename env kv now getErr writeErr orgId namespace_ typ newNamespace h
    | getAll findErr => exact Coherent_GetAll env kv findErr h

/-- In a coherent store a cache entry holds the decryption of the value of the
row of its identifier. -/
theorem Coherent_entry {env : SqlEnv} {kv : secretsKVStoreSQL} (h : Coherent env kv)
    {id : Int} {c : cachedDecrypted} {r : Item} (hc : kv.decryptionCache id = some c)
    (hr : r ∈ kv.sqlStore.rows) (hid : r.Id = id) :
    decryptStored env r.Value = some c.value := by
  obtain ⟨r0, hr0, hid0, hv⟩ := h.2 id c hc
  have : r = r0 := h.1.2 r hr r0 hr0 (hid.trans hid0.symm)
  rw [this]; exact hv

/-- In a coherent store `Get` returns what it returns with the cache emptied. -/
theorem Coherent_Get_value {env : SqlEnv} {kv : secretsKVStoreSQL} (h : Coherent env kv)
    (dbErr : Option Provisioning.GoError) (orgId : Int) (namespace_ typ : String) :
    (kv.Get env dbErr orgId namespace_ typ).1 =
      (secretsKVStoreSQL.Get env { kv with decryptionCache := fun _ => none } dbErr orgId
        namespace_ typ).1 := by
  cases dbErr with
  | some err => rfl
  | none =>
    cases hget : dbGet kv.sqlStore.rows orgId namespace_ typ with
    | none => simp only [secretsKVStoreSQL.Get, hget]
    | some item =>
      have hempty : cacheHit (fun _ => none) item = none := rfl
      cases hhit : cacheHit kv.decryptionCache item with
      | some v =>
        obtain ⟨c, hc, _, hcv⟩ := cacheHit_some hhit
        have hv := Coherent_entry h hc (dbGet_mem hget) rfl
        rw [hcv] at hv
        unfold decryptStored at hv
        cases hdec : env.DecodeString item.Value with
        | error e => simp [hdec] at hv
        | ok decoded =>
          simp only [hdec] at hv
          rcases hd : env.Decrypt decoded with ⟨d, _ | e⟩
          · simp only [hd, Option.some.injEq] at hv
            simp only [secretsKVStoreSQL.Get, hget, hhit, hempty, hdec, hd, hv]
          · simp [hd] at hv
      | none =>
        cases hdec : env.DecodeString item.Value with
        | error e => simp only [secretsKVStoreSQL.Get, hget, hhit, hempty, hdec]
        | ok decoded =>
          rcases hd : env.Decrypt decoded with ⟨d, _ | e⟩ <;>
            simp only [secretsKVStoreSQL.Get, hget, hhit, hempty, hdec, hd]

/-- C27: decryption-cache coherence of the SQL secrets store. Assume that
`Decrypt` inverts `Encrypt` and decoding inverts encoding, and start from a
store with an empty cache over a table whose identifier column is a key. After
every sequence of `Get`, `Set`, `Del`, `Rename` and `GetAll` calls (whatever
the clock readings and database errors), every cache entry whose recorded
update time equals the update time of the stored row of its identifier holds
the decryption of that row's stored value; every `Get` then returns the value,
found flag and error it returns with the cache emptied, so a `Get` served from
the cache agrees with one that decrypts; and a `Del` that deletes a row leaves
neither a row nor a cache entry of its identifier. -/
theorem C27_decryption_cache_coherence (env : SqlEnv) (kv : secretsKVStoreSQL)
    (ops : List SqlOp)
    (hrt : ∀ v c, env.Encrypt v = .ok c → env.Decrypt c = (v, none))
    (hb64 : ∀ b, env.DecodeString (env.EncodeToString b) = .ok b)
    (hcache : ∀ id, kv.decryptionCache id = none)
    (htable : TableOk kv.sqlStore) :
    (∀ id c r, (secretsKVStoreSQL.run env kv ops).decryptionCache id = some c →
      r ∈ (secretsKVStoreSQL.run env kv ops).sqlStore.rows → r.Id = id →
      r.Updated = c.updated → decryptStored env r.Value = some c.value) ∧
    (∀ dbErr orgId namespace_ typ,
      ((secretsKVStoreSQL.run env kv ops).Get env dbErr orgId namespace_ typ).1 =
        (secretsKVStoreSQL.Get env
          { secretsKVStoreSQL.run env kv ops with decryptionCache := fun _ => none }
          dbErr orgId namespace_ typ).1) ∧
    (∀ orgId namespace_ typ item v,
      dbGet (secretsKVStoreSQL.run env kv ops).sqlStore.rows orgId namespace_ typ = some item →
      cacheHit (secretsKVStoreSQL.run env kv ops).decryptionCache item = some v →
      ((secretsKVStoreSQL.run env kv ops).Get env none orgId namespace_ typ).1 =
        (v, true, none) ∧
      decryptStored env item.Value = some v) ∧
    (∀ orgId namespace_ typ item,
      dbGet (secretsKVStoreSQL.run env kv ops).sqlStore.rows orgId namespace_ typ = some item →
      ((secretsKVStoreSQL.run env kv ops).Del none none orgId namespace_ typ).1 = none ∧
      ((secretsKVStoreSQL.run env kv ops).Del none none orgId namespace_ typ).2.decryptionCache
        item.Id = none ∧
      ∀ r ∈ ((secretsKVStoreSQL.run env kv ops).Del none none orgId namespace_
        typ).2.sqlStore.rows, r.Id ≠ item.Id) := by
  have h0 : Coherent env kv := ⟨htable, fun id c hc => by simp [hcache id] at hc⟩
  have h := Coherent_run env hrt hb64 ops kv h0
  refine ⟨?_, ?_, ?_, ?_⟩
  · intro id c r hc hr hid _
    exact Coherent_entry h hc hr hid
  · intro dbErr orgId namespace_ typ
    exact Coherent_Get_value h dbErr orgId namespace_ typ
  · intro orgId namespace_ typ item v hget hhit
    obtain ⟨c, hc, _, hcv⟩ := cacheHit_some hhit
    refine ⟨by simp [secretsKVStoreSQL.Get, hget, hhit], ?_⟩
    rw [← hcv]
    exact Coherent_entry h hc (dbGet_mem hget) rfl
  · intro orgId namespace_ typ item hget
    refine ⟨by simp [secretsKVStoreSQL.Del, hget], by simp [secretsKVStoreSQL.Del, hget,
      cacheDelete], ?_⟩
    intro r hr
    simp only [secretsKVStoreSQL.Del, hget, dbDelete, List.mem_filter] at hr
    simpa using hr.2

/-- The evaluation services satisfy the round-trip assumptions. -/
theorem exSqlEnv_round_trip :
    (∀ v c, exSqlEnv.Encrypt v = .ok c → exSqlEnv.Decrypt c = (v, none)) ∧
    (∀ b, exSqlEnv.DecodeString (exSqlEnv.EncodeToString b) = .ok b) := by
  refine ⟨?_, ?_⟩
  · intro v c h
    simp only [exSqlEnv, Except.ok.injEq] at h
    subst h
    simp [exSqlEnv]
  · intro b
    simp [exSqlEnv]

/-- Witness of C27: after inserting a secret, reading it, overwriting it at the
same clock reading, renaming it and reading all, the row of the secret is
served from the cache, with the value "other" that decrypting it gives. -/
theorem C27_decryption_cache_coherence_witness :
    ((secretsKVStoreSQL.run exSqlEnv (newSecretsKVStoreSQL ⟨[], 0⟩) exSqlOps).Get exSqlEnv none
        1 "ns2" "t").1 = ("other", true, none) ∧
    decryptStored exSqlEnv "=rehto" = some "other" :=
  (C27_decryption_cache_coherence exSqlEnv (newSecretsKVStoreSQL ⟨[], 0⟩) exSqlOps
    exSqlEnv_round_trip.1 exSqlEnv_round_trip.2 (fun _ => rfl)
    ⟨by simp [newSecretsKVStoreSQL], by simp [newSecretsKVStoreSQL]⟩).2.2.1
    1 "ns2" "t" ⟨1, 1, "ns2", "t", "=rehto", 10, 10⟩ "other" (by decide) (by decide)

/-- C21: `Keys` and the constant `AllOrganizations`. The SQL store's `Keys`
yields exactly the keys of the rows whose namespace and type match and whose
organisation equals `orgId`, or of any organisation when `orgId` is
`AllOrganizations`. The in-memory store's `Keys` yields exactly the stored keys
whose organisation, namespace and type all equal the arguments, also when
`orgId` is `AllOrganizations`: with one secret stored under another
organisation it returns no key for `AllOrganizations`, where the SQL store
returns that key. -/
theorem C21_fake_keys_ignore_all_organizations (AllOrganizations : Int) :
    (∀ (kv : secretsKVStoreSQL) (orgId : Int) (namespace_ typ : String) (k : Key),
      (secretsKVStoreSQL.Keys AllOrganizations kv none orgId namespace_ typ).2 = none ∧
      (k ∈ (secretsKVStoreSQL.Keys AllOrganizations kv none orgId namespace_ typ).1 ↔
        ∃ r ∈ kv.sqlStore.rows, k = buildKey r.OrgId r.Namespace r.Typ ∧
          r.Namespace = namespace_ ∧ r.Typ = typ ∧
          (orgId = AllOrganizations ∨ r.OrgId = orgId))) ∧
    (∀ (f : FakeSecretsKVStore) (orgId : Int) (namespace_ typ : String) (k : Key),
      k ∈ (f.Keys orgId namespace_ typ).1 ↔
        k ∈ f.store.map Prod.fst ∧ k.OrgId = orgId ∧ k.Namespace = namespace_ ∧
          k.Typ = typ) ∧
    (((NewFakeSecretsKVStore.Set (AllOrganizations + 1) "ns" "t" "v").1.Keys
        AllOrganizations "ns" "t").1 = [] ∧
      (secretsKVStoreSQL.Keys AllOrganizations
        (newSecretsKVStoreSQL ⟨[⟨1, AllOrganizations + 1, "ns", "t", "x", 0, 0⟩], 1⟩) none
        AllOrganizations "ns" "t").1 = [buildKey (AllOrganizations + 1) "ns" "t"]) := by
  refine ⟨?_, ?_, ?_, ?_⟩
  · intro kv orgId namespace_ typ k
    refine ⟨rfl, ?_⟩
    simp only [secretsKVStoreSQL.Keys, List.mem_map, List.mem_filter, Bool.and_eq_true,
      decide_eq_true_eq]
    constructor
    · rintro ⟨r, ⟨⟨hr, hn, ht⟩, ho⟩, rfl⟩
      refine ⟨r, hr, rfl, hn, ht, ?_⟩
      by_cases hall : orgId = AllOrganizations
      · exact Or.inl hall
      · right; simpa [hall] using ho
    · rintro ⟨r, hr, rfl, hn, ht, ho⟩
      refine ⟨r, ⟨⟨hr, hn, ht⟩, ?_⟩, rfl⟩
      by_cases hall : orgId = AllOrganizations
      · simp [hall]
      · rcases ho with ho | ho
        · exact absurd ho hall
        · simp [hall, ho]
  · intro f orgId namespace_ typ k
    simp [FakeSecretsKVStore.Keys, List.mem_filter, and_assoc]
  · simp [FakeSecretsKVStore.Keys, FakeSecretsKVStore.Set, NewFakeSecretsKVStore, mapAssign,
      buildKey]
  · simp [secretsKVStoreSQL.Keys, newSecretsKVStoreSQL]

/-- The row the session's `Get` finds has the key asked for. -/
theorem dbGet_key {rows : List Item} {orgId : Int} {namespace_ typ : String} {item : Item}
    (h : dbGet rows orgId namespace_ typ = some item) :
    item.OrgId = orgId ∧ item.Namespace = namespace_ ∧ item.Typ = typ := by
  have := List.find?_some h
  simpa using this

/-- After an update of the row found under a key by an item of the same
identifier and key, the session's `Get` finds the item under that key. -/
theorem dbGet_dbUpdate {orgId : Int} {namespace_ typ : String} (found item : Item)
    (hid : item.Id = found.Id)
    (hkey : item.OrgId = orgId ∧ item.Namespace = namespace_ ∧ item.Typ = typ) :
    ∀ rows : List Item, (∀ r ∈ rows, ∀ r2 ∈ rows, r.Id = r2.Id → r = r2) →
      dbGet rows orgId namespace_ typ = some found →
      dbGet (dbUpdate rows found.Id item) orgId namespace_ typ = some item := by
  intro rows
  induction rows with
  | nil => intro _ h; simp [dbGet] at h
  | cons r rest ih =>
    intro huniq hget
    by_cases hp : r.OrgId = orgId ∧ r.Namespace = namespace_ ∧ r.Typ = typ
    · have hr : r = found := by
        simpa [dbGet, List.find?_cons, hp] using hget
      subst hr
      simp [dbGet, dbUpdate, List.find?_cons, hkey]
    · have hrest : dbGet rest orgId namespace_ typ = some found := by
        simpa [dbGet, List.find?_cons, hp] using hget
      have hne : r.Id ≠ found.Id := by
        intro heq
        have := huniq r (List.mem_cons_self _ _) found
          (List.mem_cons_of_mem _ (dbGet_mem hrest)) heq
        exact hp (this ▸ dbGet_key hrest)
      have ih2 := ih (fun a ha b hb => huniq a (List.mem_cons_of_mem _ ha) b
        (List.mem_cons_of_mem _ hb)) hrest
      have hg : (if r.Id = found.Id then item else r) = r := if_neg hne
      simp only [dbGet, dbUpdate] at ih2 ⊢
      rw [List.map_cons, hg, List.find?_cons_of_neg _ (by simpa using hp)]
      exact ih2

/-- After an insert under a key that no row has, the session's `Get` finds the
new row under that key. -/
theorem dbGet_dbInsert {t : Table} {orgId : Int} {namespace_ typ : String} {item : Item}
    (hnone : dbGet t.rows orgId namespace_ typ = none)
    (hkey : item.OrgId = orgId ∧ item.Namespace = namespace_ ∧ item.Typ = typ) :
    dbGet (dbInsert t item).rows orgId namespace_ typ =
      some { item with Id := t.lastId + 1 } := by
  simp only [dbGet, dbInsert] at hnone ⊢
  rw [List.find?_append, hnone]
  simp [List.find?, hkey.1, hkey.2.1, hkey.2.2]

/-- A `Set` that meets no error leaves a row under the key whose stored value is
the encoded encryption of the value. -/
theorem Set_stores (env : SqlEnv) (kv : secretsKVStoreSQL) (htable : TableOk kv.sqlStore)
    (now : Int) (orgId : Int) (namespace_ typ value encryptedValue : String)
    (henc : env.Encrypt value = .ok encryptedValue) :
    (kv.Set env now none none orgId namespace_ typ value).1 = none ∧
    ∃ item, dbGet (kv.Set env now none none orgId namespace_ typ value).2.sqlStore.rows
        orgId namespace_ typ = some item ∧
      item.Value = env.EncodeToString encryptedValue := by
  cases hget : dbGet kv.sqlStore.rows orgId namespace_ typ with
  | some found =>
    by_cases hsame : found.Value = env.EncodeToString encryptedValue
    · simp only [secretsKVStoreSQL.Set, henc, hget, hsame, if_true]
      exact ⟨trivial, found, rfl, hsame⟩
    · have hk := dbGet_key hget
      simp only [secretsKVStoreSQL.Set, henc, hget, hsame, if_false]
      exact ⟨trivial, _,
        dbGet_dbUpdate found
          { found with Value := env.EncodeToString encryptedValue, Updated := now } rfl
          hk kv.sqlStore.rows htable.2 hget, rfl⟩
  | none =>
    simp only [secretsKVStoreSQL.Set, henc, hget]
    exact ⟨trivial, _, dbGet_dbInsert hget ⟨rfl, rfl, rfl⟩, rfl⟩

/-- On the SQL store, when decryption inverts encryption, a `Set` that meets no
error followed by `Get` on the same key returns the value, found, no error. -/
theorem sql_Set_then_Get (env : SqlEnv)
    (hrt : ∀ v c, env.Encrypt v = .ok c → env.Decrypt c = (v, none))
    (hb64 : ∀ b, env.DecodeString (env.EncodeToString b) = .ok b)
    (kv : secretsKVStoreSQL) (hcoh : Coherent env kv) (now : Int) (orgId : Int)
    (namespace_ typ value encryptedValue : String)
    (henc : env.Encrypt value = .ok encryptedValue) :
    (kv.Set env now none none orgId namespace_ typ value).1 = none ∧
    ((kv.Set env now none none orgId namespace_ typ value).2.Get env none orgId
      namespace_ typ).1 = (value, true, none) := by
  obtain ⟨hret, item, hitem, hval⟩ :=
    Set_stores env kv hcoh.1 now orgId namespace_ typ value encryptedValue henc
  refine ⟨hret, ?_⟩
  have hcoh2 := Coherent_Set env hrt hb64 kv now none none orgId namespace_ typ value hcoh
  rw [Coherent_Get_value hcoh2]
  have hempty : cacheHit (fun _ => none) item = none := rfl
  simp only [secretsKVStoreSQL.Get, hitem, hempty, hval, hb64, hrt value encryptedValue henc]

/-- C19, evaluation at the failing input: on the in-memory store, after `Set` of
the empty string under a key, `Get` on that key returns the empty string as not
found, although `Set` returned no error and the store's own `Keys` lists the
key. The SQL store that the in-memory store stands in for returns the value as
found after every `Set` that meets no error, the empty string included. For
non-empty values the in-memory store reads back what was set. -/
theorem C19_fake_get_reports_empty_value_missing (f : FakeSecretsKVStore) (orgId : Int)
    (ns typ : String) :
    ((f.Set orgId ns typ "").2 = none ∧
      (f.Set orgId ns typ "").1.Get orgId ns typ = ("", false, none) ∧
      (f.Set orgId ns typ "").1.Get orgId ns typ ≠ ("", true, none) ∧
      buildKey orgId ns typ ∈ ((f.Set orgId ns typ "").1.Keys orgId ns typ).1) ∧
    (∀ (env : SqlEnv) (kv : secretsKVStoreSQL) (now : Int) (v c : String),
      (∀ v c, env.Encrypt v = .ok c → env.Decrypt c = (v, none)) →
      (∀ b, env.DecodeString (env.EncodeToString b) = .ok b) →
      (∀ id, kv.decryptionCache id = none) → TableOk kv.sqlStore →
      env.Encrypt v = .ok c →
      (kv.Set env now none none orgId ns typ v).1 = none ∧
      ((kv.Set env now none none orgId ns typ v).2.Get env none orgId ns typ).1 =
        (v, true, none)) ∧
    (∀ v, v ≠ "" → (f.Set orgId ns typ v).1.Get orgId ns typ = (v, true, none)) := by
  refine ⟨⟨rfl, ?_, ?_, ?_⟩, ?_, ?_⟩
  · simp [FakeSecretsKVStore.Set, FakeSecretsKVStore.Get, mapIndex_mapAssign_self]
  · simp [FakeSecretsKVStore.Set, FakeSecretsKVStore.Get, mapIndex_mapAssign_self]
  · simp [FakeSecretsKVStore.Set, FakeSecretsKVStore.Keys, mapAssign, buildKey]
  · intro env kv now v c hrt hb64 hcache htable henc
    exact sql_Set_then_Get env hrt hb64 kv
      ⟨htable, fun id c hc => by simp [hcache id] at hc⟩ now orgId ns typ v c henc
  · intro v hv
    exact (Set_then_Get_nonempty f orgId ns typ v).2.1 hv

/-- Witness of C19: on the new in-memory store the empty string set under a key
reads back as not found while `Keys` lists the key; on the SQL store with the
evaluation services it reads back as found. -/
theorem C19_fake_get_reports_empty_value_missing_witness :
    (NewFakeSecretsKVStore.Set 1 "ns" "t" "").1.Get 1 "ns" "t" = ("", false, none) ∧
    ((NewFakeSecretsKVStore.Set 1 "ns" "t" "").1.Keys 1 "ns" "t").1 = [buildKey 1 "ns" "t"] ∧
    (((newSecretsKVStoreSQL ⟨[], 0⟩).Set exSqlEnv 10 none none 1 "ns" "t" "").2.Get exSqlEnv
      none 1 "ns" "t").1 = ("", true, none) :=
  ⟨(C19_fake_get_reports_empty_value_missing NewFakeSecretsKVStore 1 "ns" "t").1.2.1,
   by decide,
   ((C19_fake_get_reports_empty_value_missing NewFakeSecretsKVStore 1 "ns" "t").2.1 exSqlEnv
      (newSecretsKVStoreSQL ⟨[], 0⟩) 10 "" "" exSqlEnv_round_trip.1 exSqlEnv_round_trip.2
      (fun _ => rfl) ⟨by simp [newSecretsKVStoreSQL], by simp [newSecretsKVStoreSQL]⟩ rfl).2⟩

end Kvstore
